import Mathlib

/-!
# Samsung SoC MIPI-DSIM driver: packet transmission and reception

A shallow embedding of `drivers/video/exynos/decon_7580/dsim_drv.c`.

* The driver talks to the hardware through the register layer (`dsim_reg_*`, `readl`),
  to the compositor through `decon_lpd_*`, and to the kernel through mutexes, completions and
  the log.  Every such call is recorded, in program order, as an `Event` of the `World`.
* What the outside decides (did a completion arrive in time, is a status bit set, which word
  does the RX FIFO deliver, which byte lies at an address) is read from an `Env`; the `World`
  counts how many answers of each kind were consumed.
* Constants that come from headers outside the modelled file (`linux/errno.h`,
  `video/mipi_display.h`, `regs-dsim.h`, `decon.h`) are the fields of `Consts`.
* `unsigned int` values are natural numbers, reduced modulo `2 ^ 32` where the C code can wrap.
-/

namespace Dsim

/-! ## Constants of the headers -/

/-- Symbolic constants used by the driver whose defining headers are not part of the modelled
file.  Every definition below takes them as a parameter. -/
structure Consts where
  EPERM : Nat
  EINVAL : Nat
  EBUSY : Nat
  ETIMEDOUT : Nat
  MIPI_DSI_V_SYNC_START : Nat
  MIPI_DSI_V_SYNC_END : Nat
  MIPI_DSI_H_SYNC_START : Nat
  MIPI_DSI_H_SYNC_END : Nat
  MIPI_DSI_COLOR_MODE_OFF : Nat
  MIPI_DSI_COLOR_MODE_ON : Nat
  MIPI_DSI_SHUTDOWN_PERIPHERAL : Nat
  MIPI_DSI_TURN_ON_PERIPHERAL : Nat
  MIPI_DSI_GENERIC_SHORT_WRITE_0_PARAM : Nat
  MIPI_DSI_GENERIC_SHORT_WRITE_1_PARAM : Nat
  MIPI_DSI_GENERIC_SHORT_WRITE_2_PARAM : Nat
  MIPI_DSI_GENERIC_READ_REQUEST_0_PARAM : Nat
  MIPI_DSI_GENERIC_READ_REQUEST_1_PARAM : Nat
  MIPI_DSI_GENERIC_READ_REQUEST_2_PARAM : Nat
  MIPI_DSI_DCS_SHORT_WRITE : Nat
  MIPI_DSI_DCS_SHORT_WRITE_PARAM : Nat
  MIPI_DSI_DCS_READ : Nat
  MIPI_DSI_SET_MAXIMUM_RETURN_PACKET_SIZE : Nat
  MIPI_DSI_END_OF_TRANSMISSION : Nat
  MIPI_DSI_NULL_PACKET : Nat
  MIPI_DSI_BLANKING_PACKET : Nat
  MIPI_DSI_GENERIC_LONG_WRITE : Nat
  MIPI_DSI_DCS_LONG_WRITE : Nat
  MIPI_DSI_PACKED_PIXEL_STREAM_16 : Nat
  MIPI_DSI_PACKED_PIXEL_STREAM_18 : Nat
  MIPI_DSI_PIXEL_STREAM_3BYTE_18 : Nat
  MIPI_DSI_PACKED_PIXEL_STREAM_24 : Nat
  MIPI_DSI_RX_ACKNOWLEDGE_AND_ERROR_REPORT : Nat
  MIPI_DSI_RX_END_OF_TRANSMISSION : Nat
  MIPI_DSI_RX_DCS_SHORT_READ_RESPONSE_1BYTE : Nat
  MIPI_DSI_RX_DCS_SHORT_READ_RESPONSE_2BYTE : Nat
  MIPI_DSI_RX_GENERIC_SHORT_READ_RESPONSE_1BYTE : Nat
  MIPI_DSI_RX_GENERIC_SHORT_READ_RESPONSE_2BYTE : Nat
  MIPI_DSI_RX_DCS_LONG_READ_RESPONSE : Nat
  MIPI_DSI_RX_GENERIC_LONG_READ_RESPONSE : Nat
  DECON_VIDEO_MODE : Nat
  DSIM_INTSRC_SFR_PL_FIFO_EMPTY : Nat
  DSIM_INTSRC_SFR_PH_FIFO_EMPTY : Nat
  DSIM_INTSRC_FRAME_DONE : Nat
  DSIM_INTSRC_RX_DAT_DONE : Nat
  DSIM_INTSRC_ERR_RX_ECC : Nat
  DSIM_FIFOCTRL_INIT_SFR : Nat
  DSIM_LANE_CLOCK : Nat
  DSIM_PKTGO_DISABLED : Nat
  DSIM_PKTGO_ENABLED : Nat
  TYPE_OF_SM_DDI : Nat
  TYPE_OF_MAGNA_DDI : Nat
  TYPE_OF_NORMAL_DDI : Nat
  PANEL_DISCONNEDTED : Nat
  MIPI_DCS_SET_COLUMN_ADDRESS : Nat
  MIPI_DCS_SET_PAGE_ADDRESS : Nat
  /-- The value `IRQ_HANDLED` of `irqreturn_t`. -/
  IRQ_HANDLED : Nat

namespace Consts

/-- Case labels `MIPI_DSI_GENERIC_SHORT_WRITE_0_PARAM` .. `MIPI_DSI_SET_MAXIMUM_RETURN_PACKET_SIZE`
of `dsim_write_data` (short packet types for command). -/
def short_write_ids (K : Consts) : List Nat :=
  [K.MIPI_DSI_GENERIC_SHORT_WRITE_0_PARAM, K.MIPI_DSI_GENERIC_SHORT_WRITE_1_PARAM,
   K.MIPI_DSI_GENERIC_SHORT_WRITE_2_PARAM, K.MIPI_DSI_DCS_SHORT_WRITE,
   K.MIPI_DSI_DCS_SHORT_WRITE_PARAM, K.MIPI_DSI_SET_MAXIMUM_RETURN_PACKET_SIZE]

/-- Case labels of the "general command" group of `dsim_write_data`. -/
def generic_command_ids (K : Consts) : List Nat :=
  [K.MIPI_DSI_COLOR_MODE_OFF, K.MIPI_DSI_COLOR_MODE_ON,
   K.MIPI_DSI_SHUTDOWN_PERIPHERAL, K.MIPI_DSI_TURN_ON_PERIPHERAL]

/-- Case labels of the "packet types for video data" (sync) group of `dsim_write_data`. -/
def video_sync_ids (K : Consts) : List Nat :=
  [K.MIPI_DSI_V_SYNC_START, K.MIPI_DSI_V_SYNC_END, K.MIPI_DSI_H_SYNC_START,
   K.MIPI_DSI_H_SYNC_END, K.MIPI_DSI_END_OF_TRANSMISSION]

/-- Case labels of the "short and response packet types" (read request) group. -/
def read_request_ids (K : Consts) : List Nat :=
  [K.MIPI_DSI_GENERIC_READ_REQUEST_0_PARAM, K.MIPI_DSI_GENERIC_READ_REQUEST_1_PARAM,
   K.MIPI_DSI_GENERIC_READ_REQUEST_2_PARAM, K.MIPI_DSI_DCS_READ]

/-- Case labels `MIPI_DSI_NULL_PACKET`, `MIPI_DSI_BLANKING_PACKET`. -/
def null_blanking_ids (K : Consts) : List Nat :=
  [K.MIPI_DSI_NULL_PACKET, K.MIPI_DSI_BLANKING_PACKET]

/-- Case labels `MIPI_DSI_GENERIC_LONG_WRITE`, `MIPI_DSI_DCS_LONG_WRITE`. -/
def long_write_ids (K : Consts) : List Nat :=
  [K.MIPI_DSI_GENERIC_LONG_WRITE, K.MIPI_DSI_DCS_LONG_WRITE]

/-- Case labels of the pixel stream group of `dsim_write_data`. -/
def pixel_stream_ids (K : Consts) : List Nat :=
  [K.MIPI_DSI_PACKED_PIXEL_STREAM_16, K.MIPI_DSI_PACKED_PIXEL_STREAM_18,
   K.MIPI_DSI_PIXEL_STREAM_3BYTE_18, K.MIPI_DSI_PACKED_PIXEL_STREAM_24]

/-- All case labels of the `switch (data_id)` of `dsim_write_data`, in source order. -/
def tx_ids (K : Consts) : List Nat :=
  K.short_write_ids ++ K.generic_command_ids ++ K.video_sync_ids ++ K.read_request_ids ++
    K.null_blanking_ids ++ K.long_write_ids ++ K.pixel_stream_ids

/-- Case labels of the four short read responses in `dsim_read_data`. -/
def rx_short_ids (K : Consts) : List Nat :=
  [K.MIPI_DSI_RX_DCS_SHORT_READ_RESPONSE_1BYTE, K.MIPI_DSI_RX_DCS_SHORT_READ_RESPONSE_2BYTE,
   K.MIPI_DSI_RX_GENERIC_SHORT_READ_RESPONSE_1BYTE,
   K.MIPI_DSI_RX_GENERIC_SHORT_READ_RESPONSE_2BYTE]

/-- Case labels of the two long read responses in `dsim_read_data`. -/
def rx_long_ids (K : Consts) : List Nat :=
  [K.MIPI_DSI_RX_DCS_LONG_READ_RESPONSE, K.MIPI_DSI_RX_GENERIC_LONG_READ_RESPONSE]

/-- All case labels of the `switch (rx_fifo & 0xff)` of `dsim_read_data`, in source order. -/
def rx_ids (K : Consts) : List Nat :=
  [K.MIPI_DSI_RX_ACKNOWLEDGE_AND_ERROR_REPORT, K.MIPI_DSI_RX_END_OF_TRANSMISSION] ++
    K.rx_short_ids ++ K.rx_long_ids

/-- What the C compiler and the errno convention guarantee about the constants: the case labels
of each `switch` are pairwise distinct, the RX codes fit the byte they are compared with, and the
error numbers are positive and pairwise distinct. -/
def WF (K : Consts) : Prop :=
  K.tx_ids.Nodup ∧ K.rx_ids.Nodup ∧ (∀ c ∈ K.rx_ids, c < 256) ∧
    [0, K.EPERM, K.EINVAL, K.EBUSY, K.ETIMEDOUT].Nodup

instance (K : Consts) : Decidable K.WF := by
  unfold WF; infer_instance

end Consts

/-- The values of `include/uapi/asm-generic/errno*.h` and `include/video/mipi_display.h` of the
Linux kernel; the constants of the register layer and of the compositor get sample values.
Used to instantiate the theorems at concrete inputs. -/
def linux : Consts where
  EPERM := 1
  EINVAL := 22
  EBUSY := 16
  ETIMEDOUT := 110
  MIPI_DSI_V_SYNC_START := 0x01
  MIPI_DSI_V_SYNC_END := 0x11
  MIPI_DSI_H_SYNC_START := 0x21
  MIPI_DSI_H_SYNC_END := 0x31
  MIPI_DSI_COLOR_MODE_OFF := 0x02
  MIPI_DSI_COLOR_MODE_ON := 0x12
  MIPI_DSI_SHUTDOWN_PERIPHERAL := 0x22
  MIPI_DSI_TURN_ON_PERIPHERAL := 0x32
  MIPI_DSI_GENERIC_SHORT_WRITE_0_PARAM := 0x03
  MIPI_DSI_GENERIC_SHORT_WRITE_1_PARAM := 0x13
  MIPI_DSI_GENERIC_SHORT_WRITE_2_PARAM := 0x23
  MIPI_DSI_GENERIC_READ_REQUEST_0_PARAM := 0x04
  MIPI_DSI_GENERIC_READ_REQUEST_1_PARAM := 0x14
  MIPI_DSI_GENERIC_READ_REQUEST_2_PARAM := 0x24
  MIPI_DSI_DCS_SHORT_WRITE := 0x05
  MIPI_DSI_DCS_SHORT_WRITE_PARAM := 0x15
  MIPI_DSI_DCS_READ := 0x06
  MIPI_DSI_SET_MAXIMUM_RETURN_PACKET_SIZE := 0x37
  MIPI_DSI_END_OF_TRANSMISSION := 0x08
  MIPI_DSI_NULL_PACKET := 0x09
  MIPI_DSI_BLANKING_PACKET := 0x19
  MIPI_DSI_GENERIC_LONG_WRITE := 0x29
  MIPI_DSI_DCS_LONG_WRITE := 0x39
  MIPI_DSI_PACKED_PIXEL_STREAM_16 := 0x0e
  MIPI_DSI_PACKED_PIXEL_STREAM_18 := 0x1e
  MIPI_DSI_PIXEL_STREAM_3BYTE_18 := 0x2e
  MIPI_DSI_PACKED_PIXEL_STREAM_24 := 0x3e
  MIPI_DSI_RX_ACKNOWLEDGE_AND_ERROR_REPORT := 0x02
  MIPI_DSI_RX_END_OF_TRANSMISSION := 0x08
  MIPI_DSI_RX_DCS_SHORT_READ_RESPONSE_1BYTE := 0x21
  MIPI_DSI_RX_DCS_SHORT_READ_RESPONSE_2BYTE := 0x22
  MIPI_DSI_RX_GENERIC_SHORT_READ_RESPONSE_1BYTE := 0x11
  MIPI_DSI_RX_GENERIC_SHORT_READ_RESPONSE_2BYTE := 0x12
  MIPI_DSI_RX_DCS_LONG_READ_RESPONSE := 0x1c
  MIPI_DSI_RX_GENERIC_LONG_READ_RESPONSE := 0x1a
  DECON_VIDEO_MODE := 0
  DSIM_INTSRC_SFR_PL_FIFO_EMPTY := 0x20000000
  DSIM_INTSRC_SFR_PH_FIFO_EMPTY := 0x10000000
  DSIM_INTSRC_FRAME_DONE := 0x1000000
  DSIM_INTSRC_RX_DAT_DONE := 0x40000
  DSIM_INTSRC_ERR_RX_ECC := 0x8000
  DSIM_FIFOCTRL_INIT_SFR := 0x10
  DSIM_LANE_CLOCK := 0x1
  DSIM_PKTGO_DISABLED := 0
  DSIM_PKTGO_ENABLED := 2
  TYPE_OF_SM_DDI := 0
  TYPE_OF_MAGNA_DDI := 1
  TYPE_OF_NORMAL_DDI := 2
  PANEL_DISCONNEDTED := 0
  MIPI_DCS_SET_COLUMN_ADDRESS := 0x2a
  MIPI_DCS_SET_PAGE_ADDRESS := 0x2b
  IRQ_HANDLED := 1

/-! ## Data model -/

/-- Power and clock state of the link (`dsim->state`). -/
inductive dsim_state where
  | DSIM_STATE_HSCLKEN
  | DSIM_STATE_ULPS
  | DSIM_STATE_SUSPEND
  deriving DecidableEq, Repr

/-- The fields of `struct dsim_device` that the modelled functions read or write. -/
structure dsim_device where
  id : Nat
  state : dsim_state
  /-- Field `lcd_info.mode`. -/
  mode : Nat
  irq_refcount : Int
  pktgo : Nat
  /-- Field `lcd_info.ddi_type`. -/
  ddi_type : Nat
  data_lane : Nat
  data_lane_cnt : Nat
  /-- Field `lcd_info.xres`, an `unsigned int`. -/
  xres : Nat
  /-- Field `lcd_info.yres`, an `unsigned int`. -/
  yres : Nat
  /-- Field `priv.lcdConnected`. -/
  lcdConnected : Nat
  deriving DecidableEq, Repr

/-- The three completions of the driver. -/
inductive Completion where
  | dsim_ph_wr_comp
  | dsim_wr_comp
  | dsim_rd_comp
  deriving DecidableEq, Repr

/-- The clocks of `dsim->res`. -/
inductive Clk where
  | pclk
  | rgb_vclk0
  | pclk_disp
  | dphy_esc
  | dphy_byte
  deriving DecidableEq, Repr

/-- The names handed to `run_list`. -/
inductive RunList where
  | dsim_reset_panel
  | dsim_set_panel_pre_power
  | dsim_set_panel_power_enable
  | dsim_set_panel_power_disable
  deriving DecidableEq, Repr

/-- The panel operations invoked through `call_panel_ops`. -/
inductive PanelOp where
  | resume
  | suspend
  | displayon
  | display_lvds_init
  deriving DecidableEq, Repr

/-- The two mutexes used by the transmit and receive paths. -/
inductive Mutex where
  | dsim_rd_wr_mutex
  | irq_lock
  deriving DecidableEq, Repr

/-- Registers read with `readl` or `dsim_read_mask`. -/
inductive Reg where
  | DSIM_STATUS
  | DSIM_INTSRC
  | DSIM_FIFOCTRL
  | DSIM_MULTI_PKT
  | DSIM_RXFIFO
  deriving DecidableEq, Repr

/-- The lines `dsim_rx_err_handler` can log, one per defined error bit. -/
inductive RxErr where
  | SoT_error
  | SoT_sync_error
  | EoT_error
  | Escape_mode_entry_command_error
  | Low_power_transmit_sync_error
  | HS_receive_timeout_error
  | False_control_error
  | ECC_error_single_bit
  | ECC_error_multi_bit
  | Checksum_error
  | DSI_data_type_not_recognized
  | DSI_VC_ID_invalid
  | Invalid_transmission_length
  | DSI_protocol_violation
  deriving DecidableEq, Repr

/-- Messages of `dev_err` and `dev_warn` (the `dev_dbg` and `dev_info` lines are not recorded). -/
inductive Log where
  /-- Message "DSIM is not ready. state(%d)". -/
  | not_ready
  /-- Message "MIPI DSIM short packet write Timeout!" with the data id and `data0`. -/
  | short_write_timeout (data_id data0 : Nat)
  /-- Message "MIPI DSIM write Timeout!" with the data id and the byte `*(u8 *)data0`. -/
  | write_timeout (data_id byte0 : Nat)
  /-- Message "data id %x is not supported current DSI spec.". -/
  | not_supported (data_id : Nat)
  /-- The four register values printed on a write timeout. -/
  | fifo_dump
  /-- Message "MIPI DSIM read Timeout!". -/
  | read_timeout
  /-- Message "Packet format is invaild.". -/
  | invalid_format
  /-- Message "fail to write window update size b.". -/
  | window_update_size_b
  /-- Message "size-a:failed: exceed retry count". -/
  | size_a_retry_count
  /-- Message "size-b:failed: exceed retry count". -/
  | size_b_retry_count
  /-- A line of `dsim_rx_err_handler`. -/
  | rx_err (e : RxErr)
  /-- Message "dsim power is off(%d), state(%d)" of the interrupt handler. -/
  | power_off
  /-- Message "RX ECC Multibit error was detected!" of the interrupt handler. -/
  | rx_ecc_multibit
  deriving DecidableEq, Repr

/-- One call that leaves the driver, in the order the program makes them. -/
inductive Event where
  | decon_lpd_block_exit
  | decon_lpd_unblock
  | mutex_lock (m : Mutex)
  | mutex_unlock (m : Mutex)
  | INIT_COMPLETION (c : Completion)
  | wait_for_completion_timeout (c : Completion)
  | dev_err (l : Log)
  | readl (r : Reg)
  | dsim_read_mask (id : Nat) (r : Reg) (mask : Nat)
  | dsim_reg_set_int (id : Nat) (enable : Nat)
  | dsim_reg_clear_int (id : Nat) (mask : Nat)
  | dsim_reg_wr_tx_header (id : Nat) (data_id data0 data1 : Nat)
  | dsim_reg_wr_tx_payload (id : Nat) (payload : Nat)
  | dsim_reg_set_fifo_ctrl (id : Nat) (cfg : Nat)
  | dsim_reg_force_dphy_stop_state (id : Nat) (enable : Nat)
  | usleep_range (min max : Nat)
  /-- The warning of `WARN_ON(new_refcount < 0)` in `dsim_disable_interrupts`. -/
  | WARN_ON
  | decon_lpd_block
  /-- One line of `exynos_ss_printk` in `dsim_enter_ulps` or `dsim_exit_ulps`; its arguments
  read `dsim->state` and `pm_runtime_active(dsim->dev)`. -/
  | exynos_ss_printk
  | pm_runtime_get_sync
  | pm_runtime_put_sync
  | clk_prepare_enable (c : Clk)
  | clk_disable_unprepare (c : Clk)
  | run_list (name : RunList)
  | call_panel_ops (op : PanelOp)
  | exynos5_dism_phy_enable (id : Nat) (enable : Nat)
  /-- Call `dsim_reg_init(id, &lcd_info, data_lane_cnt)`. -/
  | dsim_reg_init (id : Nat) (data_lane_cnt : Nat)
  /-- Call `dsim_reg_enable_clocks(id, &clks_param, lanes)`. -/
  | dsim_reg_enable_clocks (id : Nat) (lanes : Nat)
  | dsim_reg_set_lanes (id : Nat) (lanes : Nat) (enable : Nat)
  /-- Call `dsim_reg_start(id, &lcd_info, lanes)`. -/
  | dsim_reg_start (id : Nat) (lanes : Nat)
  /-- Call `dsim_reg_stop(id, &lcd_info, lanes)`. -/
  | dsim_reg_stop (id : Nat) (lanes : Nat)
  | enable_irq
  | disable_irq
  /-- Call `dsim_reg_set_hs_clock(id, &lcd_info, enable)`. -/
  | dsim_reg_set_hs_clock (id : Nat) (enable : Nat)
  | dsim_reg_set_ulps (id : Nat) (en : Nat) (lanes : Nat)
  | dsim_reg_set_smddi_ulps (id : Nat) (en : Nat) (lanes : Nat)
  /-- Call `dsim_reg_set_clocks(id, NULL, lanes, enable)`. -/
  | dsim_reg_set_clocks (id : Nat) (lanes : Nat) (enable : Nat)
  | dsim_reg_sw_reset (id : Nat)
  | dsim_reg_set_pkt_go_cnt (id : Nat) (cnt : Nat)
  | dsim_reg_set_pkt_go_enable (id : Nat) (enable : Nat)
  /-- Function `dsim_dump`: prints the special function registers. -/
  | dsim_dump
  /-- Call `spin_lock(&dsim->slock)`. -/
  | spin_lock
  /-- Call `spin_unlock(&dsim->slock)`. -/
  | spin_unlock
  /-- Call `pm_runtime_active(dsim->dev)`. -/
  | pm_runtime_active
  | dev_warn (l : Log)
  | complete (c : Completion)
  | decon_lpd_trig_reset
  deriving DecidableEq, Repr

namespace Event

/-- Calls of the register interface: everything that reads or writes a hardware register. -/
def isReg : Event → Bool
  | readl _ => true
  | dsim_read_mask _ _ _ => true
  | dsim_reg_set_int _ _ => true
  | dsim_reg_clear_int _ _ => true
  | dsim_reg_wr_tx_header _ _ _ _ => true
  | dsim_reg_wr_tx_payload _ _ => true
  | dsim_reg_set_fifo_ctrl _ _ => true
  | dsim_reg_force_dphy_stop_state _ _ => true
  | dsim_reg_init _ _ => true
  | dsim_reg_enable_clocks _ _ => true
  | dsim_reg_set_lanes _ _ _ => true
  | dsim_reg_start _ _ => true
  | dsim_reg_stop _ _ => true
  | dsim_reg_set_hs_clock _ _ => true
  | dsim_reg_set_ulps _ _ _ => true
  | dsim_reg_set_smddi_ulps _ _ _ => true
  | dsim_reg_set_clocks _ _ _ => true
  | dsim_reg_sw_reset _ => true
  | dsim_reg_set_pkt_go_cnt _ _ => true
  | dsim_reg_set_pkt_go_enable _ _ => true
  | dsim_dump => true
  | _ => false

/-- Calls that switch the D-PHY on or off. -/
def isPhy : Event → Bool
  | exynos5_dism_phy_enable _ _ => true
  | _ => false

/-- Calls that enable or disable the interrupt line. -/
def isIrqLine : Event → Bool
  | enable_irq => true
  | disable_irq => true
  | _ => false

/-- Calls that change the runtime power state or a clock. -/
def isRuntimePower : Event → Bool
  | pm_runtime_get_sync => true
  | pm_runtime_put_sync => true
  | clk_prepare_enable _ => true
  | clk_disable_unprepare _ => true
  | _ => false

/-- Writes to the packet header FIFO or to the payload FIFO. -/
def isFifoWrite : Event → Bool
  | dsim_reg_wr_tx_header _ _ _ _ => true
  | dsim_reg_wr_tx_payload _ _ => true
  | _ => false

/-- Writes to the packet header FIFO. -/
def isHeaderWrite : Event → Bool
  | dsim_reg_wr_tx_header _ _ _ _ => true
  | _ => false

/-- Writes to the payload FIFO. -/
def isPayloadWrite : Event → Bool
  | dsim_reg_wr_tx_payload _ _ => true
  | _ => false

end Event

/-- What the outside of the driver decides. -/
structure Env where
  /-- Whether `decon_int_drvdata` is non-NULL. -/
  decon_int_drvdata : Bool
  /-- The byte stored at an address (`*(u8 *)addr`). -/
  mem : Nat → Nat
  /-- The word delivered by the k-th `readl(DSIM_RXFIFO)`. -/
  rxfifo : Nat → Nat
  /-- Whether the k-th `wait_for_completion_timeout` returned non-zero (completed in time). -/
  completion : Nat → Bool
  /-- Whether the k-th `dsim_read_mask` found the asked status bit set. -/
  intsrc : Nat → Bool
  /-- The value returned by `dsim_reg_set_ulps` and by `dsim_reg_set_smddi_ulps`. -/
  ulps_ret : Int
  /-- The address of the local array `data_2a` of `dsim_partial_area_command`. -/
  data_2a : Nat
  /-- The address of the local array `data_2b` of `dsim_partial_area_command`. -/
  data_2b : Nat
  /-- The value returned by `pm_runtime_active(dsim->dev)` in the interrupt handler. -/
  pm_runtime_active : Bool
  /-- The word delivered by `readl(dsim->reg_base + DSIM_INTSRC)` in the interrupt handler. -/
  readl_intsrc : Nat

/-- The compile-time options that select code in the modelled functions.  The option
`CONFIG_LCD_DOZE_MODE` is taken as not set. -/
structure Config where
  CONFIG_PM_RUNTIME : Bool
  CONFIG_DECON_MIPI_DSI_PKTGO : Bool
  CONFIG_FB_WINDOW_UPDATE : Bool
  CONFIG_PANEL_LTM184HL01 : Bool

/-- The device together with the record of the calls made so far and the number of answers
already taken from the environment. -/
structure World where
  dsim : dsim_device
  trace : List Event
  n_wait : Nat
  n_mask : Nat
  n_rx : Nat
  deriving DecidableEq

/-- Records one call. -/
def World.emit (w : World) (e : Event) : World :=
  { w with trace := w.trace ++ [e] }

/-- The calls of the register interface recorded in a trace. -/
def regTrace (t : List Event) : List Event := t.filter Event.isReg

/-- Conversion to `unsigned int`. -/
def u32 (x : Nat) : Nat := x % 2 ^ 32

/-- Conversion of an `unsigned int` value to `int`. -/
def toInt32 (x : Nat) : Int :=
  if x % 2 ^ 32 < 2 ^ 31 then ((x % 2 ^ 32 : Nat) : Int) else ((x % 2 ^ 32 : Nat) : Int) - 2 ^ 32

/-- The load `*(u8 *)addr`. -/
def rd8 (E : Env) (addr : Nat) : Nat := E.mem addr % 256

/-! ## Primitive steps -/

/-- The call `wait_for_completion_timeout(&c, timeout)`: the environment says whether the
completion arrived before the deadline. -/
def wait_for_completion_timeout (E : Env) (w : World) (c : Completion) : Bool × World :=
  (E.completion w.n_wait,
    { w.emit (.wait_for_completion_timeout c) with n_wait := w.n_wait + 1 })

/-- The call `dsim_read_mask(dsim->id, reg, mask)`: the environment says whether a masked bit
is set. -/
def dsim_read_mask (E : Env) (w : World) (r : Reg) (mask : Nat) : Bool × World :=
  (E.intsrc w.n_mask,
    { w.emit (.dsim_read_mask w.dsim.id r mask) with n_mask := w.n_mask + 1 })

/-- The load `readl(dsim->reg_base + DSIM_RXFIFO)` into a `u32`. -/
def readl_rxfifo (E : Env) (w : World) : Nat × World :=
  (u32 (E.rxfifo w.n_rx), { w.emit (.readl .DSIM_RXFIFO) with n_rx := w.n_rx + 1 })

/-! ## Interrupt enable reference count -/

/-- Function `dsim_enable_interrupts`. -/
def dsim_enable_interrupts (K : Consts) (w : World) : World :=
  if w.dsim.state ≠ .DSIM_STATE_HSCLKEN then
    w.emit (.dev_err .not_ready)
  else if w.dsim.mode ≠ K.DECON_VIDEO_MODE then
    w
  else
    let w := w.emit (.mutex_lock .irq_lock)
    let prev_refcount := w.dsim.irq_refcount
    let w := { w with dsim := { w.dsim with irq_refcount := w.dsim.irq_refcount + 1 } }
    let w := if prev_refcount = 0 then w.emit (.dsim_reg_set_int w.dsim.id 1) else w
    w.emit (.mutex_unlock .irq_lock)

/-- Function `dsim_disable_interrupts`. -/
def dsim_disable_interrupts (K : Consts) (w : World) : World :=
  if w.dsim.state ≠ .DSIM_STATE_HSCLKEN then
    w.emit (.dev_err .not_ready)
  else if w.dsim.mode ≠ K.DECON_VIDEO_MODE then
    w
  else
    let w := w.emit (.mutex_lock .irq_lock)
    let w := { w with dsim := { w.dsim with irq_refcount := w.dsim.irq_refcount - 1 } }
    let new_refcount := w.dsim.irq_refcount
    let w := if new_refcount < 0 then w.emit .WARN_ON else w
    let w := if new_refcount = 0 then w.emit (.dsim_reg_set_int w.dsim.id 0) else w
    w.emit (.mutex_unlock .irq_lock)

/-! ## Transmit path -/

/-- The loop `for (data_cnt = 0; data_cnt < data1; data_cnt += 4)` of `dsim_long_data_wr`,
from the given `data_cnt` and `payload` on.  The counter is an `unsigned int`, so the increment
is taken modulo `2 ^ 32`.  The first argument bounds the number of loop tests; `none` means the
bound was reached before the loop ended. -/
def dsim_long_data_wr_loop (E : Env) (data0 data1 : Nat) :
    Nat → Nat → Nat → World → Option World
  | 0, _, _, _ => none
  | fuel + 1, data_cnt, payload, w =>
    if data_cnt < data1 then
      if data1 - data_cnt < 4 then
        let payload :=
          if data1 - data_cnt = 3 then
            u32 (rd8 E (data0 + data_cnt) ||| rd8 E (data0 + (data_cnt + 1)) <<< 8 |||
              rd8 E (data0 + (data_cnt + 2)) <<< 16)
          else if data1 - data_cnt = 2 then
            u32 (rd8 E (data0 + data_cnt) ||| rd8 E (data0 + (data_cnt + 1)) <<< 8)
          else if data1 - data_cnt = 1 then
            u32 (rd8 E (data0 + data_cnt))
          else payload
        dsim_long_data_wr_loop E data0 data1 fuel (u32 (data_cnt + 4)) payload
          (w.emit (.dsim_reg_wr_tx_payload w.dsim.id payload))
      else
        let payload :=
          u32 (rd8 E (data0 + data_cnt) ||| rd8 E (data0 + (data_cnt + 1)) <<< 8 |||
            rd8 E (data0 + (data_cnt + 2)) <<< 16 ||| rd8 E (data0 + (data_cnt + 3)) <<< 24)
        dsim_long_data_wr_loop E data0 data1 fuel (u32 (data_cnt + 4)) payload
          (w.emit (.dsim_reg_wr_tx_payload w.dsim.id payload))
    else some w

/-- Function `dsim_long_data_wr`: `data0` is the address of the payload, `data1` its length. -/
def dsim_long_data_wr (E : Env) (fuel : Nat) (w : World) (data0 data1 : Nat) : Option World :=
  dsim_long_data_wr_loop E data0 data1 fuel 0 0 w

/-- Function `dsim_wait_for_cmd_fifo_empty`; `id = 0` waits for the header FIFO, `id = 1` for
the payload FIFO.  Returns `0` or `-ETIMEDOUT`. -/
def dsim_wait_for_cmd_fifo_empty (K : Consts) (E : Env) (w : World) (id : Nat) : Int × World :=
  if id = 0 then
    let (done, w) := wait_for_completion_timeout E w .dsim_ph_wr_comp
    if !done then
      let (bit, w) := dsim_read_mask E w .DSIM_INTSRC K.DSIM_INTSRC_SFR_PH_FIFO_EMPTY
      if bit then
        let w := w.emit (.INIT_COMPLETION .dsim_ph_wr_comp)
        let w := w.emit (.dsim_reg_clear_int w.dsim.id K.DSIM_INTSRC_SFR_PH_FIFO_EMPTY)
        (0, w)
      else (-(K.ETIMEDOUT : Int), w)
    else (0, w)
  else if id = 1 then
    let (done, w) := wait_for_completion_timeout E w .dsim_wr_comp
    if !done then
      let (bit, w) := dsim_read_mask E w .DSIM_INTSRC K.DSIM_INTSRC_SFR_PL_FIFO_EMPTY
      if bit then
        let w := w.emit (.INIT_COMPLETION .dsim_wr_comp)
        let w := w.emit (.dsim_reg_clear_int w.dsim.id K.DSIM_INTSRC_SFR_PL_FIFO_EMPTY)
        (0, w)
      else (-(K.ETIMEDOUT : Int), w)
    else (0, w)
  else (0, w)

/-- The body shared by the three case groups of `dsim_write_data` that send one packet header
(short write, general command, read request): arm the completion, clear the interrupt, write
the header, wait for the header FIFO.  Returns the value of `ret` at label `exit`. -/
def dsim_write_data_header (K : Consts) (E : Env) (w : World) (data_id data0 data1 : Nat) :
    Int × World :=
  let w := w.emit (.INIT_COMPLETION .dsim_ph_wr_comp)
  let w := w.emit (.dsim_reg_clear_int w.dsim.id K.DSIM_INTSRC_SFR_PH_FIFO_EMPTY)
  let w := w.emit (.dsim_reg_wr_tx_header w.dsim.id data_id data0 data1)
  let (r, w) := dsim_wait_for_cmd_fifo_empty K E w 0
  if r ≠ 0 then
    (-(K.ETIMEDOUT : Int), w.emit (.dev_err (.short_write_timeout data_id data0)))
  else (0, w)

/-- The second half of the case group `MIPI_DSI_GENERIC_LONG_WRITE`, `MIPI_DSI_DCS_LONG_WRITE`
of `dsim_write_data`: put the data id and the byte count into the header FIFO, then wait for the
payload FIFO and for the header FIFO.  Returns the value of `ret` at label `exit`. -/
def dsim_write_data_long_header (K : Consts) (E : Env) (w : World)
    (data_id data0 data1 : Nat) : Int × World :=
  let w := w.emit (.dsim_reg_wr_tx_header w.dsim.id data_id (data1 &&& 0xff)
    ((data1 &&& 0xff00) >>> 8))
  let (r, w) := dsim_wait_for_cmd_fifo_empty K E w 1
  if r ≠ 0 then
    (-(K.ETIMEDOUT : Int), w.emit (.dev_err (.write_timeout data_id (rd8 E data0))))
  else
    let (r, w) := dsim_wait_for_cmd_fifo_empty K E w 0
    if r ≠ 0 then
      (-(K.ETIMEDOUT : Int), w.emit (.dev_err (.short_write_timeout data_id data0)))
    else (0, w)

/-- The case group `MIPI_DSI_GENERIC_LONG_WRITE`, `MIPI_DSI_DCS_LONG_WRITE` of
`dsim_write_data`: a payload shorter than four bytes is sent as one word packed from three
bytes, any other through `dsim_long_data_wr`; the header follows. -/
def dsim_write_data_long (K : Consts) (E : Env) (fuel : Nat) (w : World)
    (data_id data0 data1 : Nat) : Option (Int × World) :=
  let w := w.emit (.INIT_COMPLETION .dsim_wr_comp)
  let w := w.emit (.INIT_COMPLETION .dsim_ph_wr_comp)
  let w := w.emit (.dsim_reg_clear_int w.dsim.id
    (K.DSIM_INTSRC_SFR_PL_FIFO_EMPTY ||| K.DSIM_INTSRC_SFR_PH_FIFO_EMPTY))
  let sent : Option World :=
    if data1 < 4 then
      let payload := u32 (rd8 E data0 ||| rd8 E (data0 + 1) <<< 8 ||| rd8 E (data0 + 2) <<< 16)
      some (w.emit (.dsim_reg_wr_tx_payload w.dsim.id payload))
    else dsim_long_data_wr E fuel w data0 data1
  match sent with
  | none => none
  | some w => some (dsim_write_data_long_header K E w data_id data0 data1)

/-- The statement `switch (data_id)` of `dsim_write_data`.  Returns the value of `ret` at label
`exit`, which every case reaches (by `break` or by `goto exit`). -/
def dsim_write_data_switch (K : Consts) (E : Env) (fuel : Nat) (w : World)
    (data_id data0 data1 : Nat) : Option (Int × World) :=
  if data_id ∈ K.short_write_ids then
    some (dsim_write_data_header K E w data_id data0 data1)
  else if data_id ∈ K.generic_command_ids then
    some (dsim_write_data_header K E w data_id data0 data1)
  else if data_id ∈ K.video_sync_ids then
    some (0, w)
  else if data_id ∈ K.read_request_ids then
    some (dsim_write_data_header K E w data_id data0 data1)
  else if data_id ∈ K.null_blanking_ids then
    some (0, w)
  else if data_id ∈ K.long_write_ids then
    dsim_write_data_long K E fuel w data_id data0 data1
  else if data_id ∈ K.pixel_stream_ids then
    some (0, w)
  else
    some (-(K.EINVAL : Int), w.emit (.dev_err (.not_supported data_id)))

/-- Label `err_exit` of `dsim_write_data`: unlock, release the compositor, return `ret`. -/
def dsim_write_data_err_exit (E : Env) (w : World) (ret : Int) : Int × World :=
  let w := w.emit (.mutex_unlock .dsim_rd_wr_mutex)
  let w := if E.decon_int_drvdata then w.emit .decon_lpd_unblock else w
  (ret, w)

/-- Label `exit` of `dsim_write_data`: on a timeout dump four registers and reset the FIFO
controller, then drop the interrupt reference and fall through to `err_exit`. -/
def dsim_write_data_exit (K : Consts) (E : Env) (w : World) (ret : Int) : Int × World :=
  let w :=
    if w.dsim.state = .DSIM_STATE_HSCLKEN ∧ ret = -(K.ETIMEDOUT : Int) then
      let w := w.emit (.readl .DSIM_STATUS)
      let w := w.emit (.readl .DSIM_INTSRC)
      let w := w.emit (.readl .DSIM_FIFOCTRL)
      let w := w.emit (.readl .DSIM_MULTI_PKT)
      let w := w.emit (.dev_err .fifo_dump)
      w.emit (.dsim_reg_set_fifo_ctrl w.dsim.id K.DSIM_FIFOCTRL_INIT_SFR)
    else w
  let w := dsim_disable_interrupts K w
  dsim_write_data_err_exit E w ret

/-- Function `dsim_write_data`.  `fuel` bounds the loop of `dsim_long_data_wr`; the result is
`none` when that loop does not end within the bound. -/
def dsim_write_data (K : Consts) (E : Env) (fuel : Nat) (w : World)
    (data_id data0 data1 : Nat) : Option (Int × World) :=
  let w := if E.decon_int_drvdata then w.emit .decon_lpd_block_exit else w
  let w := w.emit (.mutex_lock .dsim_rd_wr_mutex)
  if w.dsim.state ≠ .DSIM_STATE_HSCLKEN then
    let w := w.emit (.dev_err .not_ready)
    some (dsim_write_data_err_exit E w (-(K.EINVAL : Int)))
  else
    let w := dsim_enable_interrupts K w
    match dsim_write_data_switch K E fuel w data_id data0 data1 with
    | none => none
    | some (ret, w) => some (dsim_write_data_exit K E w ret)

/-! ## Receive path -/

/-- The caller's buffer `u8 *buf`: the byte stored at each index. -/
abbrev Buf := Nat → Nat

/-- One statement `if (rx_fifo & (1 << bit)) dev_err(...)` of `dsim_rx_err_handler`. -/
def rx_err_report (rx_fifo bit : Nat) (e : RxErr) (w : World) : World :=
  if rx_fifo &&& (1 <<< bit) ≠ 0 then w.emit (.dev_err (.rx_err e)) else w

/-- Function `dsim_rx_err_handler`: bits 15 and 22 are reserved and not tested. -/
def dsim_rx_err_handler (w : World) (rx_fifo : Nat) : World :=
  let w := rx_err_report rx_fifo 8 .SoT_error w
  let w := rx_err_report rx_fifo 9 .SoT_sync_error w
  let w := rx_err_report rx_fifo 10 .EoT_error w
  let w := rx_err_report rx_fifo 11 .Escape_mode_entry_command_error w
  let w := rx_err_report rx_fifo 12 .Low_power_transmit_sync_error w
  let w := rx_err_report rx_fifo 13 .HS_receive_timeout_error w
  let w := rx_err_report rx_fifo 14 .False_control_error w
  let w := rx_err_report rx_fifo 16 .ECC_error_single_bit w
  let w := rx_err_report rx_fifo 17 .ECC_error_multi_bit w
  let w := rx_err_report rx_fifo 18 .Checksum_error w
  let w := rx_err_report rx_fifo 19 .DSI_data_type_not_recognized w
  let w := rx_err_report rx_fifo 20 .DSI_VC_ID_invalid w
  let w := rx_err_report rx_fifo 21 .Invalid_transmission_length w
  rx_err_report rx_fifo 23 .DSI_protocol_violation w

/-- The short response case of `dsim_read_data`:
`for (i = 0; i < count; i++) buf[i] = (rx_fifo >> (8 + i * 8)) & 0xff;`.
For `i >= 3` the C shift count reaches the width of `rx_fifo`; here such a shift yields `0`. -/
def dsim_read_data_short (rx_fifo count : Nat) (buf : Buf) : Buf :=
  (List.range count).foldl
    (fun buf i => Function.update buf i ((rx_fifo >>> (8 + i * 8)) &&& 0xff)) buf

/-- The inner loop `for (j = 0; j < n; j++) buf[base + j] = (u8)(rx_fifo >> (j * 8)) & 0xff;`
of the long response case. -/
def dsim_read_data_unpack (rx_fifo base n : Nat) (buf : Buf) : Buf :=
  (List.range n).foldl
    (fun buf j => Function.update buf (base + j) (((rx_fifo >>> (j * 8)) % 256) &&& 0xff)) buf

/-- The loop `for (i = 0; i < n; i++)` of the long response case of `dsim_read_data` (with
`n = rx_size >> 2`): each pass reads one RX FIFO word and unpacks its four bytes to
`buf[i * 4 ..]`. -/
def dsim_read_data_long_loop (E : Env) (w : World) (n : Nat) (buf : Buf) : World × Buf :=
  (List.range n).foldl
    (fun (st : World × Buf) i =>
      let (rx_fifo, w) := readl_rxfifo E st.1
      (w, dsim_read_data_unpack rx_fifo (i * 4) 4 st.2)) (w, buf)

/-- The long response case of `dsim_read_data`, after `rx_size` was clamped to `count`: one RX
FIFO word per four bytes, then one more word for the remaining `rx_size % 4` bytes. -/
def dsim_read_data_long (E : Env) (w : World) (rx_size : Nat) (buf : Buf) : World × Buf :=
  let (w, buf) := dsim_read_data_long_loop E w (rx_size >>> 2) buf
  let i := rx_size >>> 2
  if rx_size % 4 ≠ 0 then
    let (rx_fifo, w) := readl_rxfifo E w
    (w, dsim_read_data_unpack rx_fifo (4 * i) (rx_size % 4) buf)
  else (w, buf)

/-- Label `exit` of `dsim_read_data`: unlock, release the compositor, return `ret`. -/
def dsim_read_data_exit (E : Env) (w : World) (ret : Int) (buf : Buf) : Int × World × Buf :=
  let w := w.emit (.mutex_unlock .dsim_rd_wr_mutex)
  let w := if E.decon_int_drvdata then w.emit .decon_lpd_unblock else w
  (ret, w, buf)

/-- Label `rx_error` of `dsim_read_data`: pulse the forced stop state, return `-EPERM`. -/
def dsim_read_data_rx_error (K : Consts) (E : Env) (w : World) (buf : Buf) : Int × World × Buf :=
  let w := w.emit (.dsim_reg_force_dphy_stop_state w.dsim.id 1)
  let w := w.emit (.usleep_range 3000 4000)
  let w := w.emit (.dsim_reg_force_dphy_stop_state w.dsim.id 0)
  dsim_read_data_exit E w (-(K.EPERM : Int)) buf

/-- The end of the success path of `dsim_read_data`: one more `readl(DSIM_RXFIFO)`, then
`ret = rx_size`. -/
def dsim_read_data_done (E : Env) (w : World) (rx_size : Nat) (buf : Buf) : Int × World × Buf :=
  let (_, w) := readl_rxfifo E w
  dsim_read_data_exit E w (toInt32 rx_size) buf

/-- The part of `dsim_read_data` that follows a successful wait for the RX completion: read
the first RX FIFO word and decode it by its low byte. -/
def dsim_read_data_decode (K : Consts) (E : Env) (w : World) (count : Nat) (buf : Buf) :
    Int × World × Buf :=
  let w := dsim_disable_interrupts K w
  let w := w.emit (.mutex_lock .dsim_rd_wr_mutex)
  let (rx_fifo, w) := readl_rxfifo E w
  if rx_fifo &&& 0xff = K.MIPI_DSI_RX_ACKNOWLEDGE_AND_ERROR_REPORT then
    let w := dsim_rx_err_handler w rx_fifo
    dsim_read_data_rx_error K E w buf
  else if rx_fifo &&& 0xff = K.MIPI_DSI_RX_END_OF_TRANSMISSION then
    dsim_read_data_done E w 0 buf
  else if rx_fifo &&& 0xff ∈ K.rx_short_ids then
    let buf := dsim_read_data_short rx_fifo count buf
    dsim_read_data_done E w count buf
  else if rx_fifo &&& 0xff ∈ K.rx_long_ids then
    let rx_size := (rx_fifo &&& 0x00ffff00) >>> 8
    let rx_size := if rx_size > count then count else rx_size
    let (w, buf) := dsim_read_data_long E w rx_size buf
    dsim_read_data_done E w rx_size buf
  else
    let w := w.emit (.dev_err .invalid_format)
    dsim_read_data_rx_error K E w buf

/-- The first part of `dsim_read_data` on a ready link: arm the RX completion, take an
interrupt reference, send "set maximum return packet size" with `count`, then the read request
`data_id` with `addr`.  The results of the two calls of `dsim_write_data` are ignored as in the
source; `none` means one of them did not return. -/
def dsim_read_data_request (K : Consts) (E : Env) (fuel : Nat) (w : World)
    (data_id addr count : Nat) : Option World :=
  let w := w.emit (.INIT_COMPLETION .dsim_rd_comp)
  let w := dsim_enable_interrupts K w
  match dsim_write_data K E fuel w K.MIPI_DSI_SET_MAXIMUM_RETURN_PACKET_SIZE count 0 with
  | none => none
  | some (_, w) =>
    match dsim_write_data K E fuel w data_id addr 0 with
    | none => none
    | some (_, w) => some w

/-- Function `dsim_read_data`.  `fuel` is handed to the two calls of `dsim_write_data`. -/
def dsim_read_data (K : Consts) (E : Env) (fuel : Nat) (w : World)
    (data_id addr count : Nat) (buf : Buf) : Option (Int × World × Buf) :=
  let w := if E.decon_int_drvdata then w.emit .decon_lpd_block_exit else w
  if w.dsim.state ≠ .DSIM_STATE_HSCLKEN then
    let w := w.emit (.dev_err .not_ready)
    let w := if E.decon_int_drvdata then w.emit .decon_lpd_unblock else w
    some (-(K.EINVAL : Int), w, buf)
  else
    match dsim_read_data_request K E fuel w data_id addr count with
    | none => none
    | some w =>
      let (done, w) := wait_for_completion_timeout E w .dsim_rd_comp
      if !done then
        let w := dsim_disable_interrupts K w
        let w := w.emit (.dev_err .read_timeout)
        some (-(K.ETIMEDOUT : Int), w, buf)
      else
        some (dsim_read_data_decode K E w count buf)

/-! ## Packet-go, low power state and power transitions -/

/-- The lanes argument `DSIM_LANE_CLOCK | dsim->data_lane`. -/
def dsim_lanes (K : Consts) (w : World) : Nat := K.DSIM_LANE_CLOCK ||| w.dsim.data_lane

/-- Function `dsim_pkt_go_enable` (code under `CONFIG_DECON_MIPI_DSI_PKTGO`). -/
def dsim_pkt_go_enable (K : Consts) (E : Env) (w : World) (enable : Bool) : World :=
  let w := if E.decon_int_drvdata then w.emit .decon_lpd_block else w
  let w :=
    if w.dsim.state ≠ .DSIM_STATE_HSCLKEN then w
    else if enable then
      if w.dsim.pktgo = K.DSIM_PKTGO_ENABLED then w
      else
        let w := w.emit (.dsim_reg_set_pkt_go_cnt w.dsim.id 0xff)
        let w := w.emit (.dsim_reg_set_pkt_go_enable w.dsim.id 1)
        { w with dsim := { w.dsim with pktgo := K.DSIM_PKTGO_ENABLED } }
    else
      if w.dsim.pktgo ≠ K.DSIM_PKTGO_ENABLED then w
      else
        let w := w.emit (.dsim_reg_set_pkt_go_cnt w.dsim.id 0x1)
        let w := w.emit (.dsim_reg_set_pkt_go_enable w.dsim.id 0)
        { w with dsim := { w.dsim with pktgo := K.DSIM_PKTGO_DISABLED } }
  if E.decon_int_drvdata then w.emit .decon_lpd_unblock else w

/-- Function `dsim_d_phy_onoff`. -/
def dsim_d_phy_onoff (w : World) (enable : Nat) : World :=
  w.emit (.exynos5_dism_phy_enable 0 enable)

/-- Function `dsim_runtime_suspend`. -/
def dsim_runtime_suspend (w : World) : World :=
  let w := w.emit (.clk_disable_unprepare .pclk)
  let w := w.emit (.clk_disable_unprepare .rgb_vclk0)
  let w := w.emit (.clk_disable_unprepare .pclk_disp)
  let w := w.emit (.clk_disable_unprepare .dphy_esc)
  w.emit (.clk_disable_unprepare .dphy_byte)

/-- Function `dsim_runtime_resume`. -/
def dsim_runtime_resume (w : World) : World :=
  let w := w.emit (.clk_prepare_enable .pclk)
  let w := w.emit (.clk_prepare_enable .rgb_vclk0)
  w.emit (.clk_prepare_enable .pclk_disp)

/-- The lines `#if defined(CONFIG_PM_RUNTIME) pm_runtime_get_sync(dsim->dev); #else
dsim_runtime_resume(dsim->dev); #endif`. -/
def runtime_power_get (cfg : Config) (w : World) : World :=
  if cfg.CONFIG_PM_RUNTIME then w.emit .pm_runtime_get_sync else dsim_runtime_resume w

/-- The lines `#if defined(CONFIG_PM_RUNTIME) pm_runtime_put_sync(dsim->dev); #else
dsim_runtime_suspend(dsim->dev); #endif`. -/
def runtime_power_put (cfg : Config) (w : World) : World :=
  if cfg.CONFIG_PM_RUNTIME then w.emit .pm_runtime_put_sync else dsim_runtime_suspend w

/-- Function `dsim_reset_panel`. -/
def dsim_reset_panel (w : World) : World := w.emit (.run_list .dsim_reset_panel)

/-- Function `dsim_set_panel_pre_power`. -/
def dsim_set_panel_pre_power (w : World) : World := w.emit (.run_list .dsim_set_panel_pre_power)

/-- Function `dsim_set_panel_power`. -/
def dsim_set_panel_power (w : World) (power_on : Bool) : World :=
  if power_on then w.emit (.run_list .dsim_set_panel_power_enable)
  else w.emit (.run_list .dsim_set_panel_power_disable)

/-- Function `dsim_set_ulps_by_ddi`. -/
def dsim_set_ulps_by_ddi (K : Consts) (E : Env) (w : World) (en : Nat) : Int × World :=
  if w.dsim.ddi_type = K.TYPE_OF_SM_DDI then
    (E.ulps_ret, w.emit (.dsim_reg_set_smddi_ulps w.dsim.id en w.dsim.data_lane))
  else if w.dsim.ddi_type = K.TYPE_OF_MAGNA_DDI then
    (0, w)
  else
    (E.ulps_ret, w.emit (.dsim_reg_set_ulps w.dsim.id en w.dsim.data_lane))

/-- Function `dsim_enter_ulps`. -/
def dsim_enter_ulps (K : Consts) (cfg : Config) (E : Env) (w : World) : Int × World :=
  let w := w.emit .exynos_ss_printk
  if w.dsim.state ≠ .DSIM_STATE_HSCLKEN then
    (-(K.EBUSY : Int), w.emit .exynos_ss_printk)
  else
    let w := if cfg.CONFIG_DECON_MIPI_DSI_PKTGO then dsim_pkt_go_enable K E w false else w
    let w := w.emit (.mutex_lock .dsim_rd_wr_mutex)
    let w := { w with dsim := { w.dsim with state := .DSIM_STATE_ULPS } }
    let w := w.emit (.mutex_unlock .dsim_rd_wr_mutex)
    let w := w.emit (.dsim_reg_set_int w.dsim.id 0)
    let w := w.emit .disable_irq
    let w := w.emit (.dsim_reg_set_hs_clock w.dsim.id 0)
    let (ret, w) := dsim_set_ulps_by_ddi K E w 1
    let (ret, w) := if ret < 0 then ((0 : Int), w.emit .dsim_dump) else (ret, w)
    let w := w.emit (.dsim_reg_set_lanes w.dsim.id (dsim_lanes K w) 0)
    let w := w.emit (.dsim_reg_set_clocks w.dsim.id (dsim_lanes K w) 0)
    let w := w.emit (.dsim_reg_sw_reset w.dsim.id)
    let w := dsim_d_phy_onoff w 0
    let w := runtime_power_put cfg w
    (ret, w.emit .exynos_ss_printk)

/-- Function `dsim_exit_ulps`.  The variable `ret` of the source is assigned but the function
ends with `return 0`. -/
def dsim_exit_ulps (K : Consts) (cfg : Config) (E : Env) (w : World) : Int × World :=
  let w := w.emit .exynos_ss_printk
  if w.dsim.state ≠ .DSIM_STATE_ULPS then
    (0, w.emit .exynos_ss_printk)
  else
    let w := runtime_power_get cfg w
    let w := dsim_d_phy_onoff w 1
    let w := w.emit (.dsim_reg_init w.dsim.id w.dsim.data_lane_cnt)
    let w := w.emit (.dsim_reg_enable_clocks w.dsim.id (dsim_lanes K w))
    let w := w.emit (.clk_prepare_enable .dphy_esc)
    let w := w.emit (.clk_prepare_enable .dphy_byte)
    let w := w.emit (.dsim_reg_set_lanes w.dsim.id (dsim_lanes K w) 1)
    let (ret, w) := dsim_set_ulps_by_ddi K E w 0
    let w := if ret < 0 then w.emit .dsim_dump else w
    let w := w.emit (.dsim_reg_set_hs_clock w.dsim.id 1)
    let w := w.emit .enable_irq
    let w := w.emit (.dsim_reg_set_int w.dsim.id 1)
    let w := { w with dsim := { w.dsim with state := .DSIM_STATE_HSCLKEN } }
    (0, w.emit .exynos_ss_printk)

/-- Function `dsim_enable`, with `CONFIG_LCD_DOZE_MODE` not set. -/
def dsim_enable (K : Consts) (cfg : Config) (w : World) : Int × World :=
  if w.dsim.state = .DSIM_STATE_HSCLKEN then
    (0, w)
  else
    let w := runtime_power_get cfg w
    let w := dsim_set_panel_power w true
    let w := dsim_set_panel_pre_power w
    let w := w.emit (.call_panel_ops .resume)
    let w := dsim_d_phy_onoff w 1
    let w := w.emit (.dsim_reg_init w.dsim.id w.dsim.data_lane_cnt)
    let w := w.emit (.dsim_reg_enable_clocks w.dsim.id (dsim_lanes K w))
    let w := w.emit (.clk_prepare_enable .dphy_esc)
    let w := w.emit (.clk_prepare_enable .dphy_byte)
    let w := w.emit (.dsim_reg_set_lanes w.dsim.id (dsim_lanes K w) 1)
    let w := dsim_reset_panel w
    let w := if cfg.CONFIG_PANEL_LTM184HL01 then w.emit (.call_panel_ops .display_lvds_init) else w
    let w := w.emit (.dsim_reg_start w.dsim.id (dsim_lanes K w))
    let w := { w with dsim := { w.dsim with state := .DSIM_STATE_HSCLKEN } }
    let w := w.emit .enable_irq
    let w := w.emit (.call_panel_ops .displayon)
    (0, w)

/-- The memory while a local array with the given bytes lives at address `addr`. -/
def with_array (E : Env) (addr : Nat) (bytes : List Nat) : Env :=
  { E with mem := fun a =>
      if addr ≤ a ∧ a < addr + bytes.length then bytes.getD (a - addr) 0 else E.mem a }

/-- Logs the error-level line, if there is one. -/
def World.log (w : World) : Option Log → World
  | some l => w.emit (.dev_err l)
  | none => w

/-- One loop `retry = 2; while (dsim_write_data(dsim, MIPI_DSI_DCS_LONG_WRITE, addr, 5) != 0)
{ ...; if (--retry <= 0) { pr_err(...); return -1; } }` of `dsim_partial_area_command`, unrolled:
the second failed write makes `retry` zero.  `each` is the error-level message of every failed
pass, if there is one, and `last` the message before `return -1`.  The flag of the result tells
whether the loop was left by its condition (`true`) or by `return -1` (`false`). -/
def dsim_partial_area_retry (K : Consts) (E : Env) (fuel : Nat) (each : Option Log) (last : Log)
    (addr : Nat) (w : World) : Option (Bool × World) :=
  match dsim_write_data K E fuel w K.MIPI_DSI_DCS_LONG_WRITE addr 5 with
  | none => none
  | some (ret, w) =>
    if ret ≠ 0 then
      let w := w.log each
      match dsim_write_data K E fuel w K.MIPI_DSI_DCS_LONG_WRITE addr 5 with
      | none => none
      | some (ret, w) =>
        if ret ≠ 0 then
          let w := w.log each
          some (false, w.emit (.dev_err last))
        else some (true, w)
    else some (true, w)

/-- Function `dsim_partial_area_command` (code under `CONFIG_FB_WINDOW_UPDATE`).  The fields of
the rectangle are given as 32-bit patterns; the bytes taken from them are the same whether a
field is signed or not. -/
def dsim_partial_area_command (K : Consts) (E : Env) (fuel : Nat) (w : World)
    (x y width height : Nat) : Option (Int × World) :=
  if w.dsim.lcdConnected = K.PANEL_DISCONNEDTED then
    some (0, w)
  else
    let data_2a := [K.MIPI_DCS_SET_COLUMN_ADDRESS, (x >>> 8) &&& 0xff, x &&& 0xff,
      (width >>> 8) &&& 0xff, width &&& 0xff]
    let data_2b := [K.MIPI_DCS_SET_PAGE_ADDRESS, (y >>> 8) &&& 0xff, y &&& 0xff,
      (height >>> 8) &&& 0xff, height &&& 0xff]
    let E := with_array (with_array E E.data_2a data_2a) E.data_2b data_2b
    match dsim_partial_area_retry K E fuel none .size_a_retry_count E.data_2a w with
    | none => none
    | some (false, w) => some (-1, w)
    | some (true, w) =>
      match dsim_partial_area_retry K E fuel (some .window_update_size_b) .size_b_retry_count
          E.data_2b w with
      | none => none
      | some (false, w) => some (-1, w)
      | some (true, w) => some (0, w)

/-- Function `dsim_set_lcd_full_screen`; with `CONFIG_FB_WINDOW_UPDATE` not set it does
nothing.  The result of `dsim_partial_area_command` is ignored as in the source. -/
def dsim_set_lcd_full_screen (K : Consts) (cfg : Config) (E : Env) (fuel : Nat) (w : World) :
    Option World :=
  if cfg.CONFIG_FB_WINDOW_UPDATE then
    match dsim_partial_area_command K E fuel w 0 0 (u32 (w.dsim.xres + (2 ^ 32 - 1)))
        (u32 (w.dsim.yres + (2 ^ 32 - 1))) with
    | none => none
    | some (_, w) => some w
  else some w

/-- Function `dsim_disable`, with `CONFIG_LCD_DOZE_MODE` not set.  `fuel` is handed to the
calls of `dsim_write_data`. -/
def dsim_disable (K : Consts) (cfg : Config) (E : Env) (fuel : Nat) (w : World) :
    Option (Int × World) :=
  if w.dsim.state = .DSIM_STATE_SUSPEND then
    some (0, w)
  else
    let w := if cfg.CONFIG_DECON_MIPI_DSI_PKTGO then dsim_pkt_go_enable K E w false else w
    match dsim_set_lcd_full_screen K cfg E fuel w with
    | none => none
    | some w =>
      let w := w.emit (.call_panel_ops .suspend)
      let w := w.emit (.mutex_lock .dsim_rd_wr_mutex)
      let w := { w with dsim := { w.dsim with state := .DSIM_STATE_SUSPEND } }
      let w := w.emit (.mutex_unlock .dsim_rd_wr_mutex)
      let w := w.emit .disable_irq
      let w := w.emit (.dsim_reg_stop w.dsim.id (dsim_lanes K w))
      let w := dsim_d_phy_onoff w 0
      let w := dsim_set_panel_power w false
      let w := runtime_power_put cfg w
      some (0, w)

/-- Function `dsim_interrupt_handler`; the result is the returned `irqreturn_t`.  The line of
`DISP_SS_EVENT_LOG` is not recorded. -/
def dsim_interrupt_handler (K : Consts) (E : Env) (w : World) : Nat × World :=
  let w := w.emit .spin_lock
  let w := w.emit .pm_runtime_active
  if !E.pm_runtime_active then
    let w := w.emit (.dev_warn .power_off)
    let w := w.emit .spin_unlock
    (K.IRQ_HANDLED, w)
  else
    let int_src := u32 E.readl_intsrc
    let w := w.emit (.readl .DSIM_INTSRC)
    let w :=
      if int_src &&& K.DSIM_INTSRC_SFR_PL_FIFO_EMPTY ≠ 0 then w.emit (.complete .dsim_wr_comp)
      else w
    let w :=
      if int_src &&& K.DSIM_INTSRC_SFR_PH_FIFO_EMPTY ≠ 0 then w.emit (.complete .dsim_ph_wr_comp)
      else w
    let w :=
      if int_src &&& K.DSIM_INTSRC_RX_DAT_DONE ≠ 0 then w.emit (.complete .dsim_rd_comp)
      else w
    let w :=
      if int_src &&& K.DSIM_INTSRC_FRAME_DONE ≠ 0 then
        if E.decon_int_drvdata then w.emit .decon_lpd_trig_reset else w
      else w
    let w :=
      if int_src &&& K.DSIM_INTSRC_ERR_RX_ECC ≠ 0 then w.emit (.dev_err .rx_ecc_multibit)
      else w
    let w := w.emit (.dsim_reg_clear_int w.dsim.id int_src)
    let w := w.emit .spin_unlock
    (K.IRQ_HANDLED, w)

/-- The modelled fields of the device at the end of a successful `dsim_probe`: the structure
comes zeroed from `devm_kzalloc`, `irq_refcount` and `pktgo` are not assigned by the probe, the
state is set to `DSIM_STATE_HSCLKEN` at label `dsim_init_done`, and the other fields are read
from the device tree and the panel. -/
def dsim_probe_done (id mode ddi_type data_lane data_lane_cnt xres yres lcdConnected : Nat) :
    dsim_device :=
  { id := id, state := .DSIM_STATE_HSCLKEN, mode := mode, irq_refcount := 0, pktgo := 0,
    ddi_type := ddi_type, data_lane := data_lane, data_lane_cnt := data_lane_cnt,
    xres := xres, yres := yres, lcdConnected := lcdConnected }

/-- The case `DSIM_IOC_VSYNC` of `dsim_ioctl`. -/
def dsim_ioctl_vsync (K : Consts) (w : World) (arg : Nat) : Int × World :=
  if arg ≠ 0 then (0, dsim_enable_interrupts K w) else (0, dsim_disable_interrupts K w)

/-- The case `DSIM_IOC_ENTER_ULPS` of `dsim_ioctl`. -/
def dsim_ioctl_enter_ulps (K : Consts) (cfg : Config) (E : Env) (w : World) (arg : Nat) :
    Int × World :=
  if arg ≠ 0 then dsim_enter_ulps K cfg E w else dsim_exit_ulps K cfg E w

/-- The operations of the command surface. -/
inductive Op where
  | write (data_id data0 data1 : Nat)
  | read (data_id addr count : Nat) (buf : Buf)
  | enable
  | disable
  | enter_ulps
  | exit_ulps
  | ioctl_vsync (arg : Nat)

/-- One call of an operation; `none` when the call does not return within the bound `fuel`. -/
def Op.run (K : Consts) (cfg : Config) (E : Env) (fuel : Nat) : Op → World → Option World
  | .write data_id data0 data1, w => (dsim_write_data K E fuel w data_id data0 data1).map (·.2)
  | .read data_id addr count buf, w =>
    (dsim_read_data K E fuel w data_id addr count buf).map (·.2.1)
  | .enable, w => some (dsim_enable K cfg w).2
  | .disable, w => (dsim_disable K cfg E fuel w).map (·.2)
  | .enter_ulps, w => some (dsim_enter_ulps K cfg E w).2
  | .exit_ulps, w => some (dsim_exit_ulps K cfg E w).2
  | .ioctl_vsync arg, w => some (dsim_ioctl_vsync K w arg).2

/-- A sequence of calls, one after the other. -/
def Op.runs (K : Consts) (cfg : Config) (E : Env) (fuel : Nat) : List Op → World → Option World
  | [], w => some w
  | op :: ops, w =>
    match op.run K cfg E fuel w with
    | none => none
    | some w => Op.runs K cfg E fuel ops w

/-! ## Notions used to state the properties -/

/-- Byte `j` of the payload that starts at address `data0`. -/
def payload_byte (E : Env) (data0 j : Nat) : Nat := rd8 E (data0 + j)

/-- Little-endian packing of the bytes of `b[0..n)` covered by word `k`, as the specification
words it: the sum over `j` in `0..3` with `4k+j < n` of `b[4k+j] << (8*j)`. -/
def spec_payload_word (b : Nat → Nat) (n k : Nat) : Nat :=
  ∑ j in Finset.range 4, if 4 * k + j < n then b (4 * k + j) <<< (8 * j) else 0

/-- The payload words `dsim_write_data` sends for a payload of `n` bytes at address `data0`:
below four bytes one word packed from the three bytes at `data0`, `data0 + 1`, `data0 + 2`,
otherwise the little-endian words of `dsim_long_data_wr`. -/
def long_write_words (E : Env) (data0 n : Nat) : List Nat :=
  if n < 4 then [spec_payload_word (payload_byte E data0) 3 0]
  else (List.range ((n + 3) / 4)).map (spec_payload_word (payload_byte E data0) n)

/-- The world `w'` is reached from `w` by steps that keep the identity, state and mode of the
link, read nothing from the RX FIFO, and whose FIFO writes, in order, are `l`. -/
structure FifoStep (w w' : World) (l : List Event) : Prop where
  id : w'.dsim.id = w.dsim.id
  state : w'.dsim.state = w.dsim.state
  mode : w'.dsim.mode = w.dsim.mode
  n_rx : w'.n_rx = w.n_rx
  trace : ∃ t, w'.trace = w.trace ++ t ∧ t.filter Event.isFifoWrite = l

/-- Byte `j` (0 is the lowest) of the `k / 4`-th payload word that follows the first word of a
response in the RX FIFO, for buffer index `k`; `r0` is the number of RX FIFO words read before
the first word of the response. -/
def rx_payload_byte (E : Env) (r0 k : Nat) : Nat :=
  (u32 (E.rxfifo (r0 + 1 + k / 4)) >>> (8 * (k % 4))) % 256

/-- The world in which `dsim_read_data`, called on a ready link, starts to wait for the RX
completion; `none` when one of its two writes did not return. -/
def dsim_read_data_before_wait (K : Consts) (E : Env) (fuel : Nat) (w : World)
    (data_id addr count : Nat) : Option World :=
  dsim_read_data_request K E fuel
    (if E.decon_int_drvdata then w.emit .decon_lpd_block_exit else w) data_id addr count

/-- Whether the wait of `dsim_read_data` for the RX completion ends in time: the answer of the
environment to the wait that follows the two writes. -/
def rx_wait_succeeds (K : Consts) (E : Env) (fuel : Nat) (w : World)
    (data_id addr count : Nat) : Bool :=
  match dsim_read_data_before_wait K E fuel w data_id addr count with
  | some w1 => E.completion w1.n_wait
  | none => false

/-- The payload words written to the payload FIFO in a trace, in order. -/
def payload_words (t : List Event) : List Nat :=
  t.filterMap fun e =>
    match e with
    | .dsim_reg_wr_tx_payload _ p => some p
    | _ => none

/-- The payload FIFO words produced by the call `dsim_write_data(dsim, data_id, data0, n)`
(empty when the call does not return). -/
def encoded_words (K : Consts) (E : Env) (fuel : Nat) (w : World) (data_id data0 n : Nat) :
    List Nat :=
  match dsim_write_data K E fuel w data_id data0 n with
  | some (_, w') => payload_words (w'.trace.drop w.trace.length)
  | none => []

/-- The error bits `dsim_rx_err_handler` tests, in source order, each with the line it logs. -/
def rx_err_bits : List (Nat × RxErr) :=
  [(8, .SoT_error), (9, .SoT_sync_error), (10, .EoT_error),
   (11, .Escape_mode_entry_command_error), (12, .Low_power_transmit_sync_error),
   (13, .HS_receive_timeout_error), (14, .False_control_error),
   (16, .ECC_error_single_bit), (17, .ECC_error_multi_bit), (18, .Checksum_error),
   (19, .DSI_data_type_not_recognized), (20, .DSI_VC_ID_invalid),
   (21, .Invalid_transmission_length), (23, .DSI_protocol_violation)]

/-- The flags of an RX word: the lines of the defined error bits that are set in it. -/
def rx_err_flags (rx_fifo : Nat) : List RxErr :=
  (rx_err_bits.filter fun p => rx_fifo &&& (1 <<< p.1) ≠ 0).map Prod.snd

/-- The calls that the interrupt gate and the cases of the switch of `dsim_write_data` make:
the interrupt lock and mask, completions, status reads, FIFO writes and log lines. -/
def Event.isTxBody : Event → Bool
  | .mutex_lock .irq_lock => true
  | .mutex_unlock .irq_lock => true
  | .dsim_reg_set_int _ _ => true
  | .WARN_ON => true
  | .INIT_COMPLETION _ => true
  | .wait_for_completion_timeout _ => true
  | .dsim_read_mask _ _ _ => true
  | .dsim_reg_clear_int _ _ => true
  | .dsim_reg_wr_tx_header _ _ _ _ => true
  | .dsim_reg_wr_tx_payload _ _ => true
  | .dev_err _ => true
  | _ => false

/-- The step from `w` to `w'` appends calls to the trace, all of them of kind `P`. -/
def Emits (P : Event → Bool) (w w' : World) : Prop :=
  ∃ t, w'.trace = w.trace ++ t ∧ ∀ e ∈ t, P e = true

/-- A step that appends calls of kind `P` and leaves every field of the device as it is. -/
structure Keeps (P : Event → Bool) (w w' : World) : Prop where
  dsim : w'.dsim = w.dsim
  emits : Emits P w w'

/-- The calls made on a write timeout at label `exit` of `dsim_write_data`. -/
def timeout_dump (K : Consts) (id : Nat) : List Event :=
  [.readl .DSIM_STATUS, .readl .DSIM_INTSRC, .readl .DSIM_FIFOCTRL, .readl .DSIM_MULTI_PKT,
    .dev_err .fifo_dump, .dsim_reg_set_fifo_ctrl id K.DSIM_FIFOCTRL_INIT_SFR]

/-- Calls that reset the FIFO controller. -/
def Event.isFifoReset : Event → Bool
  | .dsim_reg_set_fifo_ctrl _ _ => true
  | _ => false

/-- The answer of the environment to a FIFO-empty wait that starts when `n_wait` completion
answers and `n_mask` status answers have been taken: no completion within the deadline, and the
status bit found clear. -/
def fifo_wait_times_out (E : Env) (n_wait n_mask : Nat) : Prop :=
  E.completion n_wait = false ∧ E.intsrc n_mask = false

instance (E : Env) (n_wait n_mask : Nat) : Decidable (fifo_wait_times_out E n_wait n_mask) := by
  unfold fifo_wait_times_out; infer_instance

/-- The calls that one call of `dsim_write_data` may make: those of the gate and of the switch,
the compositor hold, the transaction mutex, and on a timeout the reads of the four status
registers and the FIFO-controller reset.  No read of the RX FIFO, no forced stop state and no
sleep is among them. -/
def Event.isTx : Event → Bool
  | .decon_lpd_block_exit => true
  | .decon_lpd_unblock => true
  | .mutex_lock _ => true
  | .mutex_unlock _ => true
  | .readl r => decide (r ≠ .DSIM_RXFIFO)
  | .dsim_reg_set_fifo_ctrl _ _ => true
  | e => e.isTxBody

/-- Reads of the RX FIFO. -/
def Event.isRxRead : Event → Bool
  | .readl .DSIM_RXFIFO => true
  | _ => false

/-- The calls of the recovery pulse of `dsim_read_data`: forcing the stop state and sleeping. -/
def Event.isPulse : Event → Bool
  | .dsim_reg_force_dphy_stop_state _ _ => true
  | .usleep_range _ _ => true
  | _ => false

/-- The three calls of the recovery pulse at label `rx_error` of `dsim_read_data`. -/
def rx_error_pulse (id : Nat) : List Event :=
  [.dsim_reg_force_dphy_stop_state id 1, .usleep_range 3000 4000,
    .dsim_reg_force_dphy_stop_state id 0]

/-- The calls the decoder of `dsim_read_data` makes between taking and releasing the
transaction mutex, for the first RX FIFO word that the environment delivers next. -/
def decode_events (K : Consts) (E : Env) (w : World) (count : Nat) : List Event :=
  let rx_fifo := u32 (E.rxfifo w.n_rx)
  if rx_fifo &&& 0xff = K.MIPI_DSI_RX_ACKNOWLEDGE_AND_ERROR_REPORT then
    [Event.readl .DSIM_RXFIFO] ++ (rx_err_flags rx_fifo).map (fun e => Event.dev_err (.rx_err e))
      ++ rx_error_pulse w.dsim.id
  else if rx_fifo &&& 0xff = K.MIPI_DSI_RX_END_OF_TRANSMISSION then
    [Event.readl .DSIM_RXFIFO, Event.readl .DSIM_RXFIFO]
  else if rx_fifo &&& 0xff ∈ K.rx_short_ids then
    [Event.readl .DSIM_RXFIFO, Event.readl .DSIM_RXFIFO]
  else if rx_fifo &&& 0xff ∈ K.rx_long_ids then
    [Event.readl .DSIM_RXFIFO] ++
      List.replicate ((min ((rx_fifo &&& 0x00ffff00) >>> 8) count + 3) / 4)
        (Event.readl .DSIM_RXFIFO) ++ [Event.readl .DSIM_RXFIFO]
  else
    [Event.readl .DSIM_RXFIFO, Event.dev_err .invalid_format] ++ rx_error_pulse w.dsim.id

/-- In a list of calls, the compositor hold is released as often as it is taken and the
transaction mutex is unlocked as often as it is locked. -/
def Balanced (t : List Event) : Prop :=
  t.count .decon_lpd_block_exit = t.count .decon_lpd_unblock ∧
  t.count (.mutex_lock .dsim_rd_wr_mutex) = t.count (.mutex_unlock .dsim_rd_wr_mutex)

/-- Calls that neither take nor release the compositor hold or the transaction mutex. -/
def Event.isNeutral : Event → Bool
  | .decon_lpd_block_exit => false
  | .decon_lpd_unblock => false
  | .mutex_lock .dsim_rd_wr_mutex => false
  | .mutex_unlock .dsim_rd_wr_mutex => false
  | _ => true

/-- The calls of `dsim_enable_interrupts` and `dsim_disable_interrupts`: the interrupt lock,
the interrupt mask, the warning and the "not ready" log line. -/
def Event.isIrqGate : Event → Bool
  | .mutex_lock .irq_lock => true
  | .mutex_unlock .irq_lock => true
  | .dsim_reg_set_int _ _ => true
  | .WARN_ON => true
  | .dev_err .not_ready => true
  | _ => false

/-- Reads of an interrupt status bit with `dsim_read_mask`. -/
def Event.isStatusRead : Event → Bool
  | .dsim_read_mask _ _ _ => true
  | _ => false

/-- The DDI-specific register calls of `dsim_set_ulps_by_ddi`. -/
def Event.isDdiUlps : Event → Bool
  | .dsim_reg_set_ulps _ _ _ => true
  | .dsim_reg_set_smddi_ulps _ _ _ => true
  | _ => false

/-- Calls that touch the hardware or its power: the register interface, the D-PHY, the
interrupt line, the runtime power state and the clocks. -/
def Event.isHardware (e : Event) : Bool :=
  e.isReg || e.isPhy || e.isIrqLine || e.isRuntimePower

/-- The calls of the lines `pm_runtime_put_sync(dsim->dev)` or `dsim_runtime_suspend(dsim->dev)`,
by the compile-time option. -/
def runtime_power_put_events (cfg : Config) : List Event :=
  if cfg.CONFIG_PM_RUNTIME then [.pm_runtime_put_sync]
  else [.clk_disable_unprepare .pclk, .clk_disable_unprepare .rgb_vclk0,
    .clk_disable_unprepare .pclk_disp, .clk_disable_unprepare .dphy_esc,
    .clk_disable_unprepare .dphy_byte]

/-- The calls of the DDI-specific step of `dsim_enter_ulps` and of the dump that follows a
failure of it. -/
def ulps_entry_events (K : Consts) (E : Env) (d : dsim_device) : List Event :=
  if d.ddi_type = K.TYPE_OF_SM_DDI then
    [Event.dsim_reg_set_smddi_ulps d.id 1 d.data_lane] ++
      (if E.ulps_ret < 0 then [Event.dsim_dump] else [])
  else if d.ddi_type = K.TYPE_OF_MAGNA_DDI then
    []
  else
    [Event.dsim_reg_set_ulps d.id 1 d.data_lane] ++
      (if E.ulps_ret < 0 then [Event.dsim_dump] else [])

/-- The world in which `dsim_enter_ulps`, called on a ready link, takes the transaction mutex:
after the entry log line and, when packet-go is compiled in, after packet-go was switched
off. -/
def enter_ulps_before_lock (K : Consts) (cfg : Config) (E : Env) (w : World) : World :=
  if cfg.CONFIG_DECON_MIPI_DSI_PKTGO then dsim_pkt_go_enable K E (w.emit .exynos_ss_printk) false
  else w.emit .exynos_ss_printk

/-- The invariant of the interrupt reference count: it is non-zero only while the state is
`DSIM_STATE_HSCLKEN`. -/
def irq_inv (d : dsim_device) : Prop :=
  d.irq_refcount ≠ 0 → d.state = .DSIM_STATE_HSCLKEN

instance (d : dsim_device) : Decidable (irq_inv d) := by
  unfold irq_inv; infer_instance

/-- The operations that take the link out of `DSIM_STATE_HSCLKEN`. -/
def Op.leaves_ready : Op → Bool
  | .disable => true
  | .enter_ulps => true
  | _ => false

/-- The operations that change the interrupt reference count on request. -/
def Op.is_vsync : Op → Bool
  | .ioctl_vsync _ => true
  | _ => false

/-- The calls of the lines `pm_runtime_get_sync(dsim->dev)` or `dsim_runtime_resume(dsim->dev)`,
by the compile-time option. -/
def runtime_power_get_events (cfg : Config) : List Event :=
  if cfg.CONFIG_PM_RUNTIME then [.pm_runtime_get_sync]
  else [.clk_prepare_enable .pclk, .clk_prepare_enable .rgb_vclk0,
    .clk_prepare_enable .pclk_disp]

/-- The world in which `dsim_enable`, called on a link that is not ready, assigns
`DSIM_STATE_HSCLKEN` to `dsim->state`: after its calls from the runtime-power resume to
`dsim_reg_start`. -/
def dsim_enable_before_state (K : Consts) (cfg : Config) (w : World) : World :=
  let w := runtime_power_get cfg w
  let w := dsim_set_panel_power w true
  let w := dsim_set_panel_pre_power w
  let w := w.emit (.call_panel_ops .resume)
  let w := dsim_d_phy_onoff w 1
  let w := w.emit (.dsim_reg_init w.dsim.id w.dsim.data_lane_cnt)
  let w := w.emit (.dsim_reg_enable_clocks w.dsim.id (dsim_lanes K w))
  let w := w.emit (.clk_prepare_enable .dphy_esc)
  let w := w.emit (.clk_prepare_enable .dphy_byte)
  let w := w.emit (.dsim_reg_set_lanes w.dsim.id (dsim_lanes K w) 1)
  let w := dsim_reset_panel w
  let w := if cfg.CONFIG_PANEL_LTM184HL01 then w.emit (.call_panel_ops .display_lvds_init) else w
  w.emit (.dsim_reg_start w.dsim.id (dsim_lanes K w))

/-- The calls of `dsim_enable` listed by the specification for a link that is not ready, in its
order: runtime-power resume, panel power on, panel pre-power hook, panel resume hook, DPHY
power on, register init, clock enable (register clocks, then escape and byte clocks), set lanes
active, panel reset, register-level start, enable interrupt line, panel display-on hook. -/
def spec_enable_calls (K : Consts) (cfg : Config) (d : dsim_device) : List Event :=
  runtime_power_get_events cfg ++
  [.run_list .dsim_set_panel_power_enable, .run_list .dsim_set_panel_pre_power,
    .call_panel_ops .resume, .exynos5_dism_phy_enable 0 1,
    .dsim_reg_init d.id d.data_lane_cnt,
    .dsim_reg_enable_clocks d.id (K.DSIM_LANE_CLOCK ||| d.data_lane),
    .clk_prepare_enable .dphy_esc, .clk_prepare_enable .dphy_byte,
    .dsim_reg_set_lanes d.id (K.DSIM_LANE_CLOCK ||| d.data_lane) 1,
    .run_list .dsim_reset_panel,
    .dsim_reg_start d.id (K.DSIM_LANE_CLOCK ||| d.data_lane),
    .enable_irq, .call_panel_ops .displayon]

/-- Signals of a completion. -/
def Event.isComplete : Event → Bool
  | .complete _ => true
  | _ => false

/-- Calls of `dsim_reg_clear_int`. -/
def Event.isClearInt : Event → Bool
  | .dsim_reg_clear_int _ _ => true
  | _ => false

/-- The status word `s` has a bit of `mask` set: the test `int_src & mask` of the interrupt
handler. -/
def bit_set (s mask : Nat) : Prop := s &&& mask ≠ 0

instance (s mask : Nat) : Decidable (bit_set s mask) := by
  unfold bit_set; infer_instance

/-- The offsets `k` of the loads `*(u8 *)(data0 + k)` of the loop of `dsim_long_data_wr`, from
the given `data_cnt` on and in program order (the arguments of `dev_dbg` load the bytes of the
payload expression again and are not listed twice), and whether the loop ended within the bound
on its tests. -/
def dsim_long_data_wr_loop_reads (data1 : Nat) : Nat → Nat → List Nat × Bool
  | 0, _ => ([], false)
  | fuel + 1, data_cnt =>
    if data_cnt < data1 then
      let here :=
        if data1 - data_cnt < 4 then
          if data1 - data_cnt = 3 then [data_cnt, data_cnt + 1, data_cnt + 2]
          else if data1 - data_cnt = 2 then [data_cnt, data_cnt + 1]
          else if data1 - data_cnt = 1 then [data_cnt]
          else []
        else [data_cnt, data_cnt + 1, data_cnt + 2, data_cnt + 3]
      let rest := dsim_long_data_wr_loop_reads data1 fuel (u32 (data_cnt + 4))
      (here ++ rest.1, rest.2)
    else ([], true)

/-- The offsets `k` of the loads `*(u8 *)(data0 + k)` that `dsim_write_data` makes in the case
group of the long writes, on a ready link, in program order: those of the payload (three bytes
when `data1 < 4`, otherwise the loads of `dsim_long_data_wr`), then, when the wait for the
payload FIFO fails, the load `*(u8 *)data0` for the message.  `w` is the world of the call: up
to that wait no answer is taken from the environment, so its counters select the answers the
wait gets. -/
def dsim_write_data_long_reads (E : Env) (fuel : Nat) (w : World) (data1 : Nat) : List Nat :=
  if data1 < 4 then
    [0, 1, 2] ++ (if fifo_wait_times_out E w.n_wait w.n_mask then [0] else [])
  else
    let r := dsim_long_data_wr_loop_reads data1 fuel 0
    r.1 ++ (if r.2 = true ∧ fifo_wait_times_out E w.n_wait w.n_mask then [0] else [])

/-- The lines of `dsim_rx_err_handler`: one per reported error flag. -/
def Event.isRxErrLine : Event → Bool
  | .dev_err (.rx_err _) => true
  | _ => false

/-- Every call but a line of `dsim_rx_err_handler`. -/
def Event.notRxErrLine (e : Event) : Bool := !e.isRxErrLine

/-! ## Concrete inputs -/

/-- A link with the high speed clock enabled, in command mode, no interrupt reference held. -/
def ready_link : World :=
  { dsim :=
      { id := 0, state := .DSIM_STATE_HSCLKEN, mode := 1, irq_refcount := 0, pktgo := 0,
        ddi_type := 2, data_lane := 0x1e, data_lane_cnt := 4, xres := 720, yres := 1280,
        lcdConnected := 1 },
    trace := [], n_wait := 0, n_mask := 0, n_rx := 0 }

/-- A link with the high speed clock enabled, in video mode, no interrupt reference held. -/
def video_link : World :=
  { dsim :=
      { id := 0, state := .DSIM_STATE_HSCLKEN, mode := 0, irq_refcount := 0, pktgo := 0,
        ddi_type := 2, data_lane := 0x1e, data_lane_cnt := 4, xres := 720, yres := 1280,
        lcdConnected := 1 },
    trace := [], n_wait := 0, n_mask := 0, n_rx := 0 }

/-- A suspended link. -/
def suspended_link : World :=
  { dsim :=
      { id := 0, state := .DSIM_STATE_SUSPEND, mode := 0, irq_refcount := 0, pktgo := 0,
        ddi_type := 2, data_lane := 0x1e, data_lane_cnt := 4, xres := 720, yres := 1280,
        lcdConnected := 1 },
    trace := [], n_wait := 0, n_mask := 0, n_rx := 0 }

/-- An environment without compositor in which every wait ends in time, every byte of memory
is `0xAB`, and the RX FIFO delivers the words of `rx` and then zeros. -/
def sample_env (rx : List Nat) : Env :=
  { decon_int_drvdata := false, mem := fun _ => 0xAB, rxfifo := fun k => rx.getD k 0,
    completion := fun _ => true, intsrc := fun _ => false, ulps_ret := 0,
    data_2a := 0x1000, data_2b := 0x1008, pm_runtime_active := true, readl_intsrc := 0 }

/-- An environment like `sample_env` whose memory holds the byte `a + 1` at address `a`. -/
def counting_env (rx : List Nat) : Env :=
  { sample_env rx with mem := fun a => a + 1 }

/-- An environment in which every wait times out and every status read finds its bit set. -/
def late_signal_env : Env :=
  { sample_env [] with completion := fun _ => false, intsrc := fun _ => true }

/-- An environment with a compositor in which the first two waits end in time and every later
wait times out: of a read, the two header waits succeed and the RX wait does not. -/
def rx_timeout_env : Env :=
  { sample_env [] with decon_int_drvdata := true, completion := fun k => decide (k < 2) }

/-- A build with runtime power management, packet-go and window update. -/
def sample_config : Config :=
  { CONFIG_PM_RUNTIME := true, CONFIG_DECON_MIPI_DSI_PKTGO := true,
    CONFIG_FB_WINDOW_UPDATE := true, CONFIG_PANEL_LTM184HL01 := false }

/-- A link in the ultra low power state. -/
def ulps_link : World :=
  { video_link with dsim := { video_link.dsim with state := .DSIM_STATE_ULPS } }

/-- A ready link whose panel has the Magna DDI. -/
def magna_link : World :=
  { ready_link with dsim := { ready_link.dsim with ddi_type := linux.TYPE_OF_MAGNA_DDI } }

/-- An environment like `sample_env` in which the DDI-specific ULPS step fails with -EBUSY. -/
def ulps_fail_env : Env := { sample_env [] with ulps_ret := -16 }

/-- A ready link in video mode that holds one interrupt reference. -/
def held_video_link : World :=
  { video_link with dsim := { video_link.dsim with irq_refcount := 1 } }

/-- A build like `sample_config` for the panel LTM184HL01. -/
def ltm_config : Config := { sample_config with CONFIG_PANEL_LTM184HL01 := true }

/-- An environment without compositor in which the handler finds the power active and reads a
status word with only the frame-done bit. -/
def frame_done_env : Env := { sample_env [] with readl_intsrc := 0x1000000 }

/-- An environment with a compositor in which the handler finds the power active and reads a
status word with the payload-empty, RX-done and frame-done bits. -/
def busy_irq_env : Env :=
  { sample_env [] with decon_int_drvdata := true, readl_intsrc := 0x21040000 }

/-- An environment in which the handler reads a status word with only the ECC error bit. -/
def ecc_env : Env := { sample_env [] with readl_intsrc := 0x8000 }

/-- An environment in which the handler finds the power inactive. -/
def power_off_env : Env :=
  { sample_env [] with pm_runtime_active := false, readl_intsrc := 0x31040000 }

/-- An environment like `counting_env` except for the byte at address 2, which is 0. -/
def beyond_env : Env :=
  { counting_env [] with mem := fun a => if a = 2 then 0 else a + 1 }

/-- An environment in which every wait times out and no status read finds its bit set. -/
def dead_fifo_env : Env := { sample_env [] with completion := fun _ => false }

/-- An environment like `sample_env` in which the DDI-specific ULPS step returns 5. -/
def ulps_positive_env : Env := { sample_env [] with ulps_ret := 5 }

/-! ## Basic facts about the primitive steps -/

@[simp] theorem emit_dsim (w : World) (e : Event) : (w.emit e).dsim = w.dsim := rfl
@[simp] theorem emit_trace (w : World) (e : Event) : (w.emit e).trace = w.trace ++ [e] := rfl
@[simp] theorem emit_n_wait (w : World) (e : Event) : (w.emit e).n_wait = w.n_wait := rfl
@[simp] theorem emit_n_mask (w : World) (e : Event) : (w.emit e).n_mask = w.n_mask := rfl
@[simp] theorem emit_n_rx (w : World) (e : Event) : (w.emit e).n_rx = w.n_rx := rfl

theorem rd8_lt (E : Env) (a : Nat) : rd8 E a < 256 := Nat.mod_lt _ (by norm_num)

theorem or_shl_eq_add (a b k : Nat) (h : a < 2 ^ k) : a ||| b <<< k = a + b * 2 ^ k := by
  rw [Nat.shiftLeft_eq, Nat.lor_comm, Nat.mul_comm, ← Nat.mul_add_lt_is_or h, Nat.add_comm]

theorem pack4 (a b c d : Nat) (ha : a < 256) (hb : b < 256) (hc : c < 256) :
    a ||| b <<< 8 ||| c <<< 16 ||| d <<< 24 = a + b * 256 + c * 65536 + d * 16777216 := by
  rw [or_shl_eq_add a b 8 (by omega), or_shl_eq_add _ c 16 (by omega),
    or_shl_eq_add _ d 24 (by omega)]
  norm_num

theorem pack3 (a b c : Nat) (ha : a < 256) (hb : b < 256) :
    a ||| b <<< 8 ||| c <<< 16 = a + b * 256 + c * 65536 := by
  rw [or_shl_eq_add a b 8 (by omega), or_shl_eq_add _ c 16 (by omega)]
  norm_num

theorem pack2 (a b : Nat) (ha : a < 256) :
    a ||| b <<< 8 = a + b * 256 := by
  rw [or_shl_eq_add a b 8 (by omega)]
  norm_num

theorem full_word_eq (E : Env) (data0 n i : Nat) (h4 : 4 * i < n) (hlt : ¬ n - 4 * i < 4) :
    u32 (rd8 E (data0 + 4 * i) ||| rd8 E (data0 + (4 * i + 1)) <<< 8 |||
      rd8 E (data0 + (4 * i + 2)) <<< 16 ||| rd8 E (data0 + (4 * i + 3)) <<< 24) =
      spec_payload_word (payload_byte E data0) n i := by
  have b0 := rd8_lt E (data0 + 4 * i)
  have b1 := rd8_lt E (data0 + (4 * i + 1))
  have b2 := rd8_lt E (data0 + (4 * i + 2))
  have b3 := rd8_lt E (data0 + (4 * i + 3))
  have e1 : 4 * i + 1 < n := by omega
  have e2 : 4 * i + 2 < n := by omega
  have e3 : 4 * i + 3 < n := by omega
  rw [pack4 _ _ _ _ b0 b1 b2]
  simp only [spec_payload_word, payload_byte, Finset.sum_range_succ, Finset.sum_range_zero,
    Nat.add_zero, h4, e1, e2, e3, if_true, Nat.shiftLeft_eq, u32]
  norm_num
  omega

theorem partial_word_eq (E : Env) (data0 n i p : Nat) (h4 : 4 * i < n) (hlt : n - 4 * i < 4) :
    (if n - 4 * i = 3 then
        u32 (rd8 E (data0 + 4 * i) ||| rd8 E (data0 + (4 * i + 1)) <<< 8 |||
          rd8 E (data0 + (4 * i + 2)) <<< 16)
      else if n - 4 * i = 2 then
        u32 (rd8 E (data0 + 4 * i) ||| rd8 E (data0 + (4 * i + 1)) <<< 8)
      else if n - 4 * i = 1 then
        u32 (rd8 E (data0 + 4 * i))
      else p) = spec_payload_word (payload_byte E data0) n i := by
  have b0 := rd8_lt E (data0 + 4 * i)
  have b1 := rd8_lt E (data0 + (4 * i + 1))
  have b2 := rd8_lt E (data0 + (4 * i + 2))
  have e3 : ¬ 4 * i + 3 < n := by omega
  by_cases h3 : n - 4 * i = 3
  · have e1 : 4 * i + 1 < n := by omega
    have e2 : 4 * i + 2 < n := by omega
    rw [if_pos h3, pack3 _ _ _ b0 b1]
    simp only [spec_payload_word, payload_byte, Finset.sum_range_succ, Finset.sum_range_zero,
      Nat.add_zero, h4, e1, e2, e3, if_true, if_false, Nat.shiftLeft_eq, u32]
    norm_num
    omega
  · by_cases h2 : n - 4 * i = 2
    · have e1 : 4 * i + 1 < n := by omega
      have e2 : ¬ 4 * i + 2 < n := by omega
      rw [if_neg h3, if_pos h2, pack2 _ _ b0]
      simp only [spec_payload_word, payload_byte, Finset.sum_range_succ, Finset.sum_range_zero,
        Nat.add_zero, h4, e1, e2, e3, if_true, if_false, Nat.shiftLeft_eq, u32]
      norm_num
      omega
    · have h1 : n - 4 * i = 1 := by omega
      have e1 : ¬ 4 * i + 1 < n := by omega
      have e2 : ¬ 4 * i + 2 < n := by omega
      rw [if_neg h3, if_neg h2, if_pos h1]
      simp only [spec_payload_word, payload_byte, Finset.sum_range_succ, Finset.sum_range_zero,
        Nat.add_zero, h4, e1, e2, e3, if_true, if_false, Nat.shiftLeft_eq, u32]
      norm_num
      omega

/-- While the counter does not wrap, each pass of the loop of `dsim_long_data_wr` writes the
little-endian packing of the bytes it covers. -/
theorem dsim_long_data_wr_loop_trace (E : Env) (data0 n : Nat) (hn : n + 3 < 2 ^ 32) :
    ∀ (r i fuel p : Nat) (w : World), i + r = (n + 3) / 4 → r < fuel →
      dsim_long_data_wr_loop E data0 n fuel (4 * i) p w =
        some { w with trace := (w.trace ++ (List.range' i r).map
          (fun k => Event.dsim_reg_wr_tx_payload w.dsim.id
            (spec_payload_word (payload_byte E data0) n k))) } := by
  intro r
  induction r with
  | zero =>
    intro i fuel p w hi hf
    obtain ⟨f, rfl⟩ : ∃ f, fuel = f + 1 := ⟨fuel - 1, by omega⟩
    have h4 : ¬ 4 * i < n := by omega
    simp [dsim_long_data_wr_loop, h4]
  | succ r ih =>
    intro i fuel p w hi hf
    obtain ⟨f, rfl⟩ : ∃ f, fuel = f + 1 := ⟨fuel - 1, by omega⟩
    have h4 : 4 * i < n := by omega
    have hw : u32 (4 * i + 4) = 4 * (i + 1) := by
      unfold u32; rw [Nat.mod_eq_of_lt (by omega)]; ring
    rw [dsim_long_data_wr_loop]
    simp only [h4, if_true, hw]
    by_cases hlt : n - 4 * i < 4
    · simp only [hlt, if_true]
      rw [partial_word_eq E data0 n i p h4 hlt, ih (i + 1) f _ _ (by omega) (by omega)]
      simp [World.emit, List.range'_succ]
    · simp only [hlt, if_false]
      rw [full_word_eq E data0 n i h4 hlt, ih (i + 1) f _ _ (by omega) (by omega)]
      simp [World.emit, List.range'_succ]

/-- The link is beyond the last length the 32-bit counter can pass: the loop test never fails. -/
theorem dsim_long_data_wr_loop_none (E : Env) (data0 n : Nat) (hn : 2 ^ 32 - 3 ≤ n) :
    ∀ (fuel c p : Nat) (w : World), c % 4 = 0 → c < 2 ^ 32 →
      dsim_long_data_wr_loop E data0 n fuel c p w = none := by
  intro fuel
  induction fuel with
  | zero => intro c p w _ _; rfl
  | succ f ih =>
    intro c p w hc hlt
    have h4 : c < n := by omega
    have h1 : u32 (c + 4) % 4 = 0 := by unfold u32; omega
    have h2 : u32 (c + 4) < 2 ^ 32 := Nat.mod_lt _ (by norm_num)
    rw [dsim_long_data_wr_loop]
    simp only [h4, if_true]
    split_ifs <;> exact ih _ _ _ h1 h2

theorem FifoStep.refl (w : World) : FifoStep w w [] :=
  ⟨Eq.refl _, Eq.refl _, Eq.refl _, Eq.refl _, ⟨[], by simp⟩⟩

theorem FifoStep.trans {w w1 w2 : World} {l1 l2 : List Event}
    (h1 : FifoStep w w1 l1) (h2 : FifoStep w1 w2 l2) : FifoStep w w2 (l1 ++ l2) := by
  obtain ⟨t1, ht1, hf1⟩ := h1.trace
  obtain ⟨t2, ht2, hf2⟩ := h2.trace
  refine ⟨h2.id.trans h1.id, h2.state.trans h1.state, h2.mode.trans h1.mode,
    h2.n_rx.trans h1.n_rx, t1 ++ t2, ?_, ?_⟩
  · rw [ht2, ht1, List.append_assoc]
  · rw [List.filter_append, hf1, hf2]

theorem FifoStep.emit (w : World) (e : Event) :
    FifoStep w (w.emit e) (if e.isFifoWrite then [e] else []) :=
  ⟨Eq.refl _, Eq.refl _, Eq.refl _, Eq.refl _,
    ⟨[e], by simp, by cases h : e.isFifoWrite <;> simp [h]⟩⟩

theorem FifoStep.cast {w w' : World} {l l' : List Event} (h : FifoStep w w' l) (e : l = l') :
    FifoStep w w' l' := e ▸ h

theorem FifoStep.emit_fifo (w : World) (e : Event) (h : e.isFifoWrite = true) :
    FifoStep w (w.emit e) [e] := (FifoStep.emit w e).cast (by simp [h])

theorem FifoStep.emit_other (w : World) (e : Event) (h : e.isFifoWrite = false) :
    FifoStep w (w.emit e) [] := (FifoStep.emit w e).cast (by simp [h])

theorem filter_payload_map (id : Nat) (f : Nat → Nat) (l : List Nat) :
    (l.map (fun k => Event.dsim_reg_wr_tx_payload id (f k))).filter Event.isFifoWrite =
      l.map (fun k => Event.dsim_reg_wr_tx_payload id (f k)) := by
  induction l with
  | nil => rfl
  | cons a l ih => simp [List.filter_cons, Event.isFifoWrite, ih]

theorem FifoStep.append (w : World) (t l : List Event)
    (h : t.filter Event.isFifoWrite = l) :
    FifoStep w { w with trace := w.trace ++ t } l :=
  ⟨Eq.refl _, Eq.refl _, Eq.refl _, Eq.refl _, ⟨t, Eq.refl _, h⟩⟩

theorem enable_fifoStep (K : Consts) (w : World) : FifoStep w (dsim_enable_interrupts K w) [] := by
  unfold dsim_enable_interrupts
  dsimp only
  split_ifs <;> refine ⟨by simp, by simp, by simp, by simp, ?_⟩ <;>
    simp [World.emit, Event.isFifoWrite]

theorem disable_fifoStep (K : Consts) (w : World) :
    FifoStep w (dsim_disable_interrupts K w) [] := by
  unfold dsim_disable_interrupts
  dsimp only
  split_ifs <;> refine ⟨by simp, by simp, by simp, by simp, ?_⟩ <;>
    simp [World.emit, Event.isFifoWrite]

theorem wait_fifoStep (K : Consts) (E : Env) (w : World) (id : Nat) :
    FifoStep w (dsim_wait_for_cmd_fifo_empty K E w id).2 [] := by
  unfold dsim_wait_for_cmd_fifo_empty wait_for_completion_timeout dsim_read_mask
  dsimp only
  split_ifs <;> refine ⟨by simp, by simp, by simp, by simp, ?_⟩ <;>
    simp [World.emit, Event.isFifoWrite]

theorem header_fifoStep (K : Consts) (E : Env) (w : World) (d a b : Nat) :
    FifoStep w (dsim_write_data_header K E w d a b).2
      [.dsim_reg_wr_tx_header w.dsim.id d a b] := by
  have s3 : FifoStep w (((w.emit (.INIT_COMPLETION .dsim_ph_wr_comp)).emit
      (.dsim_reg_clear_int w.dsim.id K.DSIM_INTSRC_SFR_PH_FIFO_EMPTY)).emit
      (.dsim_reg_wr_tx_header w.dsim.id d a b)) [.dsim_reg_wr_tx_header w.dsim.id d a b] := by
    simpa [Event.isFifoWrite] using
      ((FifoStep.emit w _).trans (FifoStep.emit _ _)).trans (FifoStep.emit _ _)
  have s4 := s3.trans (wait_fifoStep K E _ 0)
  unfold dsim_write_data_header
  dsimp only
  split_ifs
  · simpa [Event.isFifoWrite] using s4.trans (FifoStep.emit _ (.dev_err (.short_write_timeout d a)))
  · simpa using s4

theorem err_exit_fifoStep (E : Env) (w : World) (ret : Int) :
    FifoStep w (dsim_write_data_err_exit E w ret).2 [] := by
  unfold dsim_write_data_err_exit
  dsimp only
  split_ifs
  · simpa [Event.isFifoWrite] using (FifoStep.emit w _).trans (FifoStep.emit _ _)
  · simpa [Event.isFifoWrite] using FifoStep.emit w (.mutex_unlock .dsim_rd_wr_mutex)

theorem exit_fst (K : Consts) (E : Env) (w : World) (ret : Int) :
    (dsim_write_data_exit K E w ret).1 = ret := rfl

theorem exit_fifoStep (K : Consts) (E : Env) (w : World) (ret : Int) :
    FifoStep w (dsim_write_data_exit K E w ret).2 [] := by
  have key : ∀ w1 : World, FifoStep w w1 [] →
      FifoStep w (dsim_write_data_err_exit E (dsim_disable_interrupts K w1) ret).2 [] := by
    intro w1 h1
    simpa using (h1.trans (disable_fifoStep K w1)).trans (err_exit_fifoStep E _ ret)
  unfold dsim_write_data_exit
  dsimp only
  by_cases h : w.dsim.state = .DSIM_STATE_HSCLKEN ∧ ret = -(K.ETIMEDOUT : Int)
  · rw [if_pos h]
    apply key
    simpa [Event.isFifoWrite] using
      (((((FifoStep.emit w (.readl .DSIM_STATUS)).trans (FifoStep.emit _ (.readl .DSIM_INTSRC))).trans
        (FifoStep.emit _ (.readl .DSIM_FIFOCTRL))).trans
        (FifoStep.emit _ (.readl .DSIM_MULTI_PKT))).trans
        (FifoStep.emit _ (.dev_err .fifo_dump))).trans
        (FifoStep.emit _ (.dsim_reg_set_fifo_ctrl w.dsim.id K.DSIM_FIFOCTRL_INIT_SFR))
  · rw [if_neg h]
    exact key w (FifoStep.refl w)

theorem dsim_long_data_wr_trace (E : Env) (fuel : Nat) (w : World) (data0 n : Nat)
    (hn : n + 3 < 2 ^ 32) (hf : (n + 3) / 4 < fuel) :
    dsim_long_data_wr E fuel w data0 n =
      some { w with trace := (w.trace ++ (List.range ((n + 3) / 4)).map
        (fun k => Event.dsim_reg_wr_tx_payload w.dsim.id
          (spec_payload_word (payload_byte E data0) n k))) } := by
  have hl := dsim_long_data_wr_loop_trace E data0 n hn ((n + 3) / 4) 0 fuel 0 w
    (Nat.zero_add _) hf
  rw [Nat.mul_zero] at hl
  rw [dsim_long_data_wr, hl, List.range_eq_range']

theorem long_header_fifoStep (K : Consts) (E : Env) (w : World) (d data0 n : Nat) :
    FifoStep w (dsim_write_data_long_header K E w d data0 n).2
      [.dsim_reg_wr_tx_header w.dsim.id d (n &&& 0xff) ((n &&& 0xff00) >>> 8)] := by
  have s1 : FifoStep w (w.emit (.dsim_reg_wr_tx_header w.dsim.id d (n &&& 0xff)
      ((n &&& 0xff00) >>> 8))) [.dsim_reg_wr_tx_header w.dsim.id d (n &&& 0xff)
      ((n &&& 0xff00) >>> 8)] := by
    simpa [Event.isFifoWrite] using FifoStep.emit w
      (.dsim_reg_wr_tx_header w.dsim.id d (n &&& 0xff) ((n &&& 0xff00) >>> 8))
  have s2 := s1.trans (wait_fifoStep K E _ 1)
  have s3 := s2.trans (wait_fifoStep K E _ 0)
  unfold dsim_write_data_long_header
  dsimp only
  split_ifs
  · simpa [Event.isFifoWrite] using s2.trans (FifoStep.emit _ (.dev_err (.write_timeout d (rd8 E data0))))
  · simpa [Event.isFifoWrite] using s3.trans (FifoStep.emit _ (.dev_err (.short_write_timeout d data0)))
  · simpa using s3

theorem three_word_eq (E : Env) (data0 : Nat) :
    u32 (rd8 E data0 ||| rd8 E (data0 + 1) <<< 8 ||| rd8 E (data0 + 2) <<< 16) =
      spec_payload_word (payload_byte E data0) 3 0 := by
  have h := partial_word_eq E data0 3 0 0 (by norm_num) (by norm_num)
  simpa using h

theorem long_fifoStep (K : Consts) (E : Env) (fuel : Nat) (w : World) (d data0 n : Nat)
    (hn : n + 3 < 2 ^ 32) (hf : (n + 3) / 4 < fuel) :
    ∃ r w', dsim_write_data_long K E fuel w d data0 n = some (r, w') ∧
      FifoStep w w' ((long_write_words E data0 n).map (.dsim_reg_wr_tx_payload w.dsim.id) ++
        [.dsim_reg_wr_tx_header w.dsim.id d (n &&& 0xff) ((n &&& 0xff00) >>> 8)]) := by
  have s3 : FifoStep w (((w.emit (.INIT_COMPLETION .dsim_wr_comp)).emit
      (.INIT_COMPLETION .dsim_ph_wr_comp)).emit (.dsim_reg_clear_int w.dsim.id
        (K.DSIM_INTSRC_SFR_PL_FIFO_EMPTY ||| K.DSIM_INTSRC_SFR_PH_FIFO_EMPTY))) [] :=
    (((FifoStep.emit_other w (.INIT_COMPLETION .dsim_wr_comp) rfl).trans
      (FifoStep.emit_other _ (.INIT_COMPLETION .dsim_ph_wr_comp) rfl)).trans
      (FifoStep.emit_other _ (.dsim_reg_clear_int w.dsim.id
        (K.DSIM_INTSRC_SFR_PL_FIFO_EMPTY ||| K.DSIM_INTSRC_SFR_PH_FIFO_EMPTY)) rfl)).cast rfl
  unfold dsim_write_data_long
  dsimp only
  by_cases h4 : n < 4
  · rw [if_pos h4]
    dsimp only
    refine ⟨_, _, rfl, ?_⟩
    have e1 : (long_write_words E data0 n).map (Event.dsim_reg_wr_tx_payload w.dsim.id) =
        [Event.dsim_reg_wr_tx_payload w.dsim.id
          (u32 (rd8 E data0 ||| rd8 E (data0 + 1) <<< 8 ||| rd8 E (data0 + 2) <<< 16))] := by
      rw [long_write_words, if_pos h4, three_word_eq]; rfl
    rw [e1]
    exact ((s3.trans (FifoStep.emit_fifo _ (Event.dsim_reg_wr_tx_payload w.dsim.id
      (u32 (rd8 E data0 ||| rd8 E (data0 + 1) <<< 8 ||| rd8 E (data0 + 2) <<< 16))) rfl)).trans
      (long_header_fifoStep K E _ d data0 n)).cast rfl
  · rw [if_neg h4, dsim_long_data_wr_trace E fuel _ data0 n hn hf]
    dsimp only
    refine ⟨_, _, rfl, ?_⟩
    have e1 : (long_write_words E data0 n).map (Event.dsim_reg_wr_tx_payload w.dsim.id) =
        (List.range ((n + 3) / 4)).map (fun k => Event.dsim_reg_wr_tx_payload w.dsim.id
          (spec_payload_word (payload_byte E data0) n k)) := by
      rw [long_write_words, if_neg h4, List.map_map]; rfl
    rw [e1]
    exact ((s3.trans (FifoStep.append _ _ _
      (filter_payload_map w.dsim.id (spec_payload_word (payload_byte E data0) n) _))).trans
      (long_header_fifoStep K E _ d data0 n)).cast rfl

theorem switch_short (K : Consts) (E : Env) (fuel : Nat) (w : World) (d a b : Nat)
    (hd : d ∈ K.short_write_ids) :
    dsim_write_data_switch K E fuel w d a b = some (dsim_write_data_header K E w d a b) := by
  rw [dsim_write_data_switch, if_pos hd]

theorem switch_long (K : Consts) (E : Env) (fuel : Nat) (w : World) (d a b : Nat)
    (hK : K.WF) (hd : d ∈ K.long_write_ids) :
    dsim_write_data_switch K E fuel w d a b = dsim_write_data_long K E fuel w d a b := by
  have hN := hK.1
  simp only [Consts.tx_ids, List.nodup_append, List.disjoint_left] at hN
  have h1 : d ∉ K.short_write_ids := fun h =>
    hN.1.2.2 (List.mem_append_left _ (List.mem_append_left _ (List.mem_append_left _
      (List.mem_append_left _ h)))) hd
  have h2 : d ∉ K.generic_command_ids := fun h =>
    hN.1.2.2 (List.mem_append_left _ (List.mem_append_left _ (List.mem_append_left _
      (List.mem_append_right _ h)))) hd
  have h3 : d ∉ K.video_sync_ids := fun h =>
    hN.1.2.2 (List.mem_append_left _ (List.mem_append_left _ (List.mem_append_right _ h))) hd
  have h4 : d ∉ K.read_request_ids := fun h =>
    hN.1.2.2 (List.mem_append_left _ (List.mem_append_right _ h)) hd
  have h5 : d ∉ K.null_blanking_ids := fun h =>
    hN.1.2.2 (List.mem_append_right _ h) hd
  rw [dsim_write_data_switch, if_neg h1, if_neg h2, if_neg h3, if_neg h4, if_neg h5, if_pos hd]

theorem switch_unknown (K : Consts) (E : Env) (fuel : Nat) (w : World) (d a b : Nat)
    (hd : d ∉ K.tx_ids) :
    dsim_write_data_switch K E fuel w d a b =
      some (-(K.EINVAL : Int), w.emit (.dev_err (.not_supported d))) := by
  simp only [Consts.tx_ids, List.mem_append, not_or] at hd
  rw [dsim_write_data_switch, if_neg hd.1.1.1.1.1.1, if_neg hd.1.1.1.1.1.2, if_neg hd.1.1.1.1.2,
    if_neg hd.1.1.1.2, if_neg hd.1.1.2, if_neg hd.1.2, if_neg hd.2]

/-- The frame of `dsim_write_data` around the `switch`: on a link with the high speed clock
enabled, the FIFO writes of the call are those of the `switch`. -/
theorem write_data_fifoStep (K : Consts) (E : Env) (fuel : Nat) (w : World) (d a b : Nat)
    (l : List Event) (hs : w.dsim.state = .DSIM_STATE_HSCLKEN)
    (H : ∀ w1 : World, w1.dsim.id = w.dsim.id →
      ∃ r w2, dsim_write_data_switch K E fuel w1 d a b = some (r, w2) ∧ FifoStep w1 w2 l) :
    ∃ ret w', dsim_write_data K E fuel w d a b = some (ret, w') ∧ FifoStep w w' l := by
  have s1 : FifoStep w (if E.decon_int_drvdata = true then w.emit .decon_lpd_block_exit else w)
      [] := by
    split_ifs
    · exact FifoStep.emit_other w _ rfl
    · exact FifoStep.refl w
  have s2 := (s1.trans (FifoStep.emit_other _ (.mutex_lock .dsim_rd_wr_mutex) rfl)).trans
    (enable_fifoStep K _)
  obtain ⟨r, w2, hsw, s3⟩ := H _ s2.id
  have hst : ¬ ((if E.decon_int_drvdata = true then w.emit .decon_lpd_block_exit else w).emit
      (.mutex_lock .dsim_rd_wr_mutex)).dsim.state ≠ .DSIM_STATE_HSCLKEN := by
    rw [emit_dsim, s1.state, hs]; exact fun h => h rfl
  unfold dsim_write_data
  dsimp only
  rw [if_neg hst, hsw]
  exact ⟨_, _, rfl, ((s2.trans s3).trans (exit_fifoStep K E w2 r)).cast (by simp)⟩

theorem filter_header_of_fifo (t : List Event) :
    t.filter Event.isHeaderWrite = (t.filter Event.isFifoWrite).filter Event.isHeaderWrite := by
  rw [List.filter_filter]
  congr 1
  funext e
  cases e <;> rfl

theorem filter_payload_of_fifo (t : List Event) :
    t.filter Event.isPayloadWrite = (t.filter Event.isFifoWrite).filter Event.isPayloadWrite := by
  rw [List.filter_filter]
  congr 1
  funext e
  cases e <;> rfl

theorem filter_isPayload_map (id : Nat) (l : List Nat) :
    (l.map (Event.dsim_reg_wr_tx_payload id)).filter Event.isPayloadWrite =
      l.map (Event.dsim_reg_wr_tx_payload id) := by
  induction l with
  | nil => rfl
  | cons a l ih => simp [List.filter_cons, Event.isPayloadWrite, ih]

theorem filter_isHeader_map (id : Nat) (l : List Nat) :
    (l.map (Event.dsim_reg_wr_tx_payload id)).filter Event.isHeaderWrite = [] := by
  induction l with
  | nil => rfl
  | cons a l ih => simp [List.filter_cons, Event.isHeaderWrite, ih]

theorem header_bytes (n : Nat) : (n &&& 0xff00) >>> 8 = (n >>> 8) &&& 0xff := by
  apply Nat.eq_of_testBit_eq
  intro i
  have h : (0xff00 : Nat) = 0xff <<< 8 := by decide
  rw [h]
  simp only [Nat.testBit_shiftRight, Nat.testBit_and, Nat.testBit_shiftLeft]
  simp

theorem long_write_words_length (E : Env) (data0 n : Nat) :
    (long_write_words E data0 n).length = if n < 4 then 1 else (n + 3) / 4 := by
  unfold long_write_words
  split_ifs <;> simp

/-- On a link with the high speed clock enabled, a long write of `n <= 2^32 - 4` bytes returns
and its FIFO writes are the payload words, in order, followed by one header carrying the two
low bytes of `n`. -/
theorem dsim_write_data_long_fifo (K : Consts) (E : Env) (fuel : Nat) (w : World)
    (data_id data0 n : Nat) (hK : K.WF) (hs : w.dsim.state = .DSIM_STATE_HSCLKEN)
    (hd : data_id ∈ K.long_write_ids) (hn : n + 3 < 2 ^ 32) (hf : (n + 3) / 4 < fuel) :
    ∃ ret w' t, dsim_write_data K E fuel w data_id data0 n = some (ret, w') ∧
      w'.trace = w.trace ++ t ∧
      t.filter Event.isFifoWrite =
        (long_write_words E data0 n).map (Event.dsim_reg_wr_tx_payload w.dsim.id) ++
          [Event.dsim_reg_wr_tx_header w.dsim.id data_id (n &&& 0xff) ((n >>> 8) &&& 0xff)] := by
  obtain ⟨ret, w', hr, hstep⟩ := write_data_fifoStep K E fuel w data_id data0 n
    ((long_write_words E data0 n).map (Event.dsim_reg_wr_tx_payload w.dsim.id) ++
      [Event.dsim_reg_wr_tx_header w.dsim.id data_id (n &&& 0xff) ((n &&& 0xff00) >>> 8)]) hs
    (fun w1 h1 => by
      rw [switch_long K E fuel w1 data_id data0 n hK hd, ← h1]
      exact long_fifoStep K E fuel w1 data_id data0 n hn hf)
  obtain ⟨t, ht, hfil⟩ := hstep.trace
  exact ⟨ret, w', t, hr, ht, by rw [hfil, header_bytes]⟩

/-- When the payload length is one of the last three `unsigned int` values, the counter of
`dsim_long_data_wr` wraps to `0` before it reaches the length: the call does not return. -/
theorem dsim_write_data_long_none (K : Consts) (E : Env) (fuel : Nat) (w : World)
    (data_id data0 n : Nat) (hK : K.WF) (hs : w.dsim.state = .DSIM_STATE_HSCLKEN)
    (hd : data_id ∈ K.long_write_ids) (hn : 2 ^ 32 - 3 ≤ n) :
    dsim_write_data K E fuel w data_id data0 n = none := by
  have h4 : ¬ n < 4 := by
    have : (4 : Nat) ≤ 2 ^ 32 - 3 := by norm_num
    omega
  have hst : ¬ ((if E.decon_int_drvdata = true then w.emit .decon_lpd_block_exit else w).emit
      (.mutex_lock .dsim_rd_wr_mutex)).dsim.state ≠ .DSIM_STATE_HSCLKEN := by
    rw [emit_dsim]
    split_ifs <;> simp [hs]
  unfold dsim_write_data
  dsimp only
  rw [if_neg hst, switch_long K E fuel _ data_id data0 n hK hd]
  unfold dsim_write_data_long
  dsimp only
  rw [if_neg h4, dsim_long_data_wr,
    dsim_long_data_wr_loop_none E data0 n hn fuel 0 0 _ (by norm_num) (by norm_num)]

theorem unpack_apply (rx base n : Nat) (buf : Buf) (k : Nat) :
    dsim_read_data_unpack rx base n buf k =
      if base ≤ k ∧ k < base + n then (rx >>> ((k - base) * 8)) % 256 else buf k := by
  unfold dsim_read_data_unpack
  induction n generalizing k with
  | zero =>
    have h : ¬ (base ≤ k ∧ k < base + 0) := by omega
    rw [if_neg h]
    rfl
  | succ n ih =>
    rw [List.range_succ, List.foldl_append, List.foldl_cons, List.foldl_nil]
    by_cases hk : k = base + n
    · subst hk
      have h : base ≤ base + n ∧ base + n < base + (n + 1) := by omega
      rw [Function.update_same, if_pos h, Nat.add_sub_cancel_left]
      have : (255 : Nat) = 2 ^ 8 - 1 := by norm_num
      rw [this, Nat.and_pow_two_sub_one_eq_mod]
      norm_num
    · rw [Function.update_noteq hk, ih]
      by_cases h1 : base ≤ k ∧ k < base + n
      · have h2 : base ≤ k ∧ k < base + (n + 1) := by omega
        rw [if_pos h1, if_pos h2]
      · have h2 : ¬ (base ≤ k ∧ k < base + (n + 1)) := by omega
        rw [if_neg h1, if_neg h2]

theorem read_long_loop_spec (E : Env) (m : Nat) (w : World) (buf : Buf) :
    (dsim_read_data_long_loop E w m buf).1 =
        { w with trace := w.trace ++ List.replicate m (Event.readl Reg.DSIM_RXFIFO),
                 n_rx := w.n_rx + m } ∧
      ∀ k, (dsim_read_data_long_loop E w m buf).2 k =
        if k < 4 * m then (u32 (E.rxfifo (w.n_rx + k / 4)) >>> (8 * (k % 4))) % 256
        else buf k := by
  induction m with
  | zero =>
    refine ⟨by simp [dsim_read_data_long_loop], fun k => ?_⟩
    simp [dsim_read_data_long_loop]
  | succ m ih =>
    obtain ⟨ih1, ih2⟩ := ih
    have hstep : dsim_read_data_long_loop E w (m + 1) buf =
        ((readl_rxfifo E (dsim_read_data_long_loop E w m buf).1).2,
          dsim_read_data_unpack (readl_rxfifo E (dsim_read_data_long_loop E w m buf).1).1 (m * 4) 4
            (dsim_read_data_long_loop E w m buf).2) := by
      unfold dsim_read_data_long_loop
      rw [List.range_succ, List.foldl_append, List.foldl_cons, List.foldl_nil]
    rw [hstep]
    refine ⟨?_, fun k => ?_⟩
    · simp only [readl_rxfifo, ih1, World.emit]
      simp [List.replicate_succ', Nat.add_assoc]
    · simp only [unpack_apply, ih2, readl_rxfifo, ih1]
      by_cases h1 : m * 4 ≤ k ∧ k < m * 4 + 4
      · have h2 : k < 4 * (m + 1) := by omega
        have h3 : k / 4 = m := by omega
        have h4 : (k - m * 4) * 8 = 8 * (k % 4) := by omega
        rw [if_pos h1, if_pos h2, h3, h4]
      · rw [if_neg h1]
        by_cases h2 : k < 4 * m
        · have h3 : k < 4 * (m + 1) := by omega
          rw [if_pos h2, if_pos h3]
        · have h3 : ¬ k < 4 * (m + 1) := by omega
          rw [if_neg h2, if_neg h3]

theorem read_long_spec (E : Env) (size : Nat) (w : World) (buf : Buf) :
    (dsim_read_data_long E w size buf).1 =
        { w with trace := w.trace ++ List.replicate ((size + 3) / 4) (Event.readl Reg.DSIM_RXFIFO),
                 n_rx := w.n_rx + (size + 3) / 4 } ∧
      ∀ k, (dsim_read_data_long E w size buf).2 k =
        if k < size then (u32 (E.rxfifo (w.n_rx + k / 4)) >>> (8 * (k % 4))) % 256
        else buf k := by
  have hs : size >>> 2 = size / 4 := by rw [Nat.shiftRight_eq_div_pow]
  obtain ⟨h1, h2⟩ := read_long_loop_spec E (size / 4) w buf
  unfold dsim_read_data_long
  dsimp only
  rw [hs]
  by_cases hr : size % 4 ≠ 0
  · rw [if_pos hr]
    dsimp only
    refine ⟨?_, fun k => ?_⟩
    · simp only [readl_rxfifo, h1, World.emit]
      have e : (size + 3) / 4 = size / 4 + 1 := by omega
      simp [e, List.replicate_succ', Nat.add_assoc]
    · simp only [unpack_apply, h2, readl_rxfifo, h1]
      by_cases c1 : 4 * (size / 4) ≤ k ∧ k < 4 * (size / 4) + size % 4
      · have c2 : k < size := by omega
        have c3 : k / 4 = size / 4 := by omega
        have c4 : (k - 4 * (size / 4)) * 8 = 8 * (k % 4) := by omega
        rw [if_pos c1, if_pos c2, c3, c4]
      · rw [if_neg c1]
        by_cases c2 : k < 4 * (size / 4)
        · have c3 : k < size := by omega
          rw [if_pos c2, if_pos c3]
        · have c3 : ¬ k < size := by omega
          rw [if_neg c2, if_neg c3]
  · rw [if_neg hr]
    have e : (size + 3) / 4 = size / 4 := by omega
    refine ⟨?_, fun k => ?_⟩
    · rw [h1, e]
    · rw [h2]
      by_cases c2 : k < 4 * (size / 4)
      · have c3 : k < size := by omega
        rw [if_pos c2, if_pos c3]
      · have c3 : ¬ k < size := by omega
        rw [if_neg c2, if_neg c3]

theorem long_small (K : Consts) (E : Env) (fuel : Nat) (w : World) (d a b : Nat) (hb : b < 4) :
    ∃ r w', dsim_write_data_long K E fuel w d a b = some (r, w') ∧
      FifoStep w w' ([Event.dsim_reg_wr_tx_payload w.dsim.id
          (u32 (rd8 E a ||| rd8 E (a + 1) <<< 8 ||| rd8 E (a + 2) <<< 16))] ++
        [Event.dsim_reg_wr_tx_header w.dsim.id d (b &&& 0xff) ((b &&& 0xff00) >>> 8)]) := by
  have s3 : FifoStep w (((w.emit (.INIT_COMPLETION .dsim_wr_comp)).emit
      (.INIT_COMPLETION .dsim_ph_wr_comp)).emit (.dsim_reg_clear_int w.dsim.id
        (K.DSIM_INTSRC_SFR_PL_FIFO_EMPTY ||| K.DSIM_INTSRC_SFR_PH_FIFO_EMPTY))) [] :=
    (((FifoStep.emit_other w (.INIT_COMPLETION .dsim_wr_comp) rfl).trans
      (FifoStep.emit_other _ (.INIT_COMPLETION .dsim_ph_wr_comp) rfl)).trans
      (FifoStep.emit_other _ (.dsim_reg_clear_int w.dsim.id
        (K.DSIM_INTSRC_SFR_PL_FIFO_EMPTY ||| K.DSIM_INTSRC_SFR_PH_FIFO_EMPTY)) rfl)).cast rfl
  unfold dsim_write_data_long
  dsimp only
  rw [if_pos hb]
  dsimp only
  refine ⟨_, _, rfl, ?_⟩
  exact ((s3.trans (FifoStep.emit_fifo _ (Event.dsim_reg_wr_tx_payload w.dsim.id
      (u32 (rd8 E a ||| rd8 E (a + 1) <<< 8 ||| rd8 E (a + 2) <<< 16))) rfl)).trans
      (long_header_fifoStep K E _ d a b)).cast rfl

theorem switch_small (K : Consts) (E : Env) (fuel : Nat) (w : World) (d a b : Nat) (hb : b < 4) :
    ∃ l, ∀ w1 : World, w1.dsim.id = w.dsim.id →
      ∃ r w2, dsim_write_data_switch K E fuel w1 d a b = some (r, w2) ∧ FifoStep w1 w2 l := by
  unfold dsim_write_data_switch
  by_cases h1 : d ∈ K.short_write_ids
  · exact ⟨_, fun w1 e => ⟨_, _, by rw [if_pos h1], e ▸ header_fifoStep K E w1 d a b⟩⟩
  by_cases h2 : d ∈ K.generic_command_ids
  · exact ⟨_, fun w1 e => ⟨_, _, by rw [if_neg h1, if_pos h2], e ▸ header_fifoStep K E w1 d a b⟩⟩
  by_cases h3 : d ∈ K.video_sync_ids
  · exact ⟨_, fun w1 _ => ⟨_, _, by rw [if_neg h1, if_neg h2, if_pos h3], FifoStep.refl w1⟩⟩
  by_cases h4 : d ∈ K.read_request_ids
  · exact ⟨_, fun w1 e => ⟨_, _, by rw [if_neg h1, if_neg h2, if_neg h3, if_pos h4],
      e ▸ header_fifoStep K E w1 d a b⟩⟩
  by_cases h5 : d ∈ K.null_blanking_ids
  · exact ⟨_, fun w1 _ => ⟨_, _, by rw [if_neg h1, if_neg h2, if_neg h3, if_neg h4, if_pos h5],
      FifoStep.refl w1⟩⟩
  by_cases h6 : d ∈ K.long_write_ids
  · refine ⟨[Event.dsim_reg_wr_tx_payload w.dsim.id
          (u32 (rd8 E a ||| rd8 E (a + 1) <<< 8 ||| rd8 E (a + 2) <<< 16))] ++
        [Event.dsim_reg_wr_tx_header w.dsim.id d (b &&& 0xff) ((b &&& 0xff00) >>> 8)],
      fun w1 e => ?_⟩
    rw [if_neg h1, if_neg h2, if_neg h3, if_neg h4, if_neg h5, if_pos h6]
    exact e ▸ long_small K E fuel w1 d a b hb
  by_cases h7 : d ∈ K.pixel_stream_ids
  · exact ⟨_, fun w1 _ => ⟨_, _,
      by rw [if_neg h1, if_neg h2, if_neg h3, if_neg h4, if_neg h5, if_neg h6, if_pos h7],
      FifoStep.refl w1⟩⟩
  · exact ⟨_, fun w1 _ => ⟨_, _,
      by rw [if_neg h1, if_neg h2, if_neg h3, if_neg h4, if_neg h5, if_neg h6, if_neg h7],
      FifoStep.emit_other w1 (.dev_err (.not_supported d)) rfl⟩⟩

/-- A write with `data1 < 4` never enters the loop of `dsim_long_data_wr`: it returns. -/
theorem write_data_small (K : Consts) (E : Env) (fuel : Nat) (w : World) (d a b : Nat)
    (hb : b < 4) (hs : w.dsim.state = .DSIM_STATE_HSCLKEN) :
    ∃ ret w' l, dsim_write_data K E fuel w d a b = some (ret, w') ∧ FifoStep w w' l := by
  obtain ⟨l, H⟩ := switch_small K E fuel w d a b hb
  obtain ⟨ret, w', h1, h2⟩ := write_data_fifoStep K E fuel w d a b l hs H
  exact ⟨ret, w', l, h1, h2⟩

/-- On a ready link the request part of `dsim_read_data` returns, keeps the link as it is and
reads nothing from the RX FIFO. -/
theorem read_request_some (K : Consts) (E : Env) (fuel : Nat) (w : World)
    (data_id addr count : Nat) (hs : w.dsim.state = .DSIM_STATE_HSCLKEN) :
    ∃ w1 l, dsim_read_data_request K E fuel w data_id addr count = some w1 ∧
      FifoStep w w1 l := by
  have s1 := (FifoStep.emit_other w (.INIT_COMPLETION .dsim_rd_comp) rfl).trans
    (enable_fifoStep K _)
  obtain ⟨r1, w1, l1, e1, t1⟩ := write_data_small K E fuel _
    K.MIPI_DSI_SET_MAXIMUM_RETURN_PACKET_SIZE count 0 (by norm_num) (s1.state.trans hs)
  obtain ⟨r2, w2, l2, e2, t2⟩ := write_data_small K E fuel w1 data_id addr 0 (by norm_num)
    (t1.state.trans (s1.state.trans hs))
  refine ⟨w2, _, ?_, (s1.trans t1).trans t2⟩
  unfold dsim_read_data_request
  dsimp only
  rw [e1]
  dsimp only
  rw [e2]

theorem rx_long_not_other (K : Consts) (hK : K.WF) (c : Nat) (hc : c ∈ K.rx_long_ids) :
    c ≠ K.MIPI_DSI_RX_ACKNOWLEDGE_AND_ERROR_REPORT ∧ c ≠ K.MIPI_DSI_RX_END_OF_TRANSMISSION ∧
      c ∉ K.rx_short_ids := by
  have hN := hK.2.1
  simp only [Consts.rx_ids, List.nodup_append, List.disjoint_left] at hN
  have hd := hN.2.2
  refine ⟨fun h => ?_, fun h => ?_, fun h => ?_⟩
  · exact hd (List.mem_append_left _ (by simp [h])) (h ▸ hc)
  · exact hd (List.mem_append_left _ (by simp [h])) (h ▸ hc)
  · exact hd (List.mem_append_right _ h) hc

theorem rx_short_not_other (K : Consts) (hK : K.WF) (c : Nat) (hc : c ∈ K.rx_short_ids) :
    c ≠ K.MIPI_DSI_RX_ACKNOWLEDGE_AND_ERROR_REPORT ∧ c ≠ K.MIPI_DSI_RX_END_OF_TRANSMISSION := by
  have hN := hK.2.1
  simp only [Consts.rx_ids, List.nodup_append, List.disjoint_left] at hN
  have hd := hN.1.2.2
  refine ⟨fun h => ?_, fun h => ?_⟩
  · exact hd (by simp [h]) (h ▸ hc)
  · exact hd (by simp [h]) (h ▸ hc)

theorem disable_n_rx (K : Consts) (w : World) : (dsim_disable_interrupts K w).n_rx = w.n_rx :=
  (disable_fifoStep K w).n_rx

theorem toInt32_small (m : Nat) (h : m < 2 ^ 31) : toInt32 m = (m : Int) := by
  unfold toInt32
  have h1 : m % 2 ^ 32 = m := Nat.mod_eq_of_lt (by omega)
  rw [h1, if_pos h]

theorem rx_size_lt (x : Nat) : (x &&& 0x00ffff00) >>> 8 < 65536 := by
  have h : x &&& 0x00ffff00 ≤ 0x00ffff00 := Nat.and_le_right
  rw [Nat.shiftRight_eq_div_pow]
  omega

@[simp] theorem readl_rxfifo_fst (E : Env) (w : World) :
    (readl_rxfifo E w).1 = u32 (E.rxfifo w.n_rx) := rfl

@[simp] theorem readl_rxfifo_n_rx (E : Env) (w : World) :
    (readl_rxfifo E w).2.n_rx = w.n_rx + 1 := rfl

@[simp] theorem readl_rxfifo_dsim (E : Env) (w : World) :
    (readl_rxfifo E w).2.dsim = w.dsim := rfl

@[simp] theorem readl_rxfifo_trace (E : Env) (w : World) :
    (readl_rxfifo E w).2.trace = w.trace ++ [Event.readl Reg.DSIM_RXFIFO] := rfl

@[simp] theorem read_exit_fst (E : Env) (w : World) (ret : Int) (buf : Buf) :
    (dsim_read_data_exit E w ret buf).1 = ret := rfl

@[simp] theorem read_exit_buf (E : Env) (w : World) (ret : Int) (buf : Buf) :
    (dsim_read_data_exit E w ret buf).2.2 = buf := rfl

@[simp] theorem read_exit_n_rx (E : Env) (w : World) (ret : Int) (buf : Buf) :
    (dsim_read_data_exit E w ret buf).2.1.n_rx = w.n_rx := by
  unfold dsim_read_data_exit
  dsimp only
  split_ifs <;> rfl

@[simp] theorem read_done_fst (E : Env) (w : World) (n : Nat) (buf : Buf) :
    (dsim_read_data_done E w n buf).1 = toInt32 n := rfl

@[simp] theorem read_done_buf (E : Env) (w : World) (n : Nat) (buf : Buf) :
    (dsim_read_data_done E w n buf).2.2 = buf := rfl

@[simp] theorem read_done_n_rx (E : Env) (w : World) (n : Nat) (buf : Buf) :
    (dsim_read_data_done E w n buf).2.1.n_rx = w.n_rx + 1 := by
  unfold dsim_read_data_done
  dsimp only
  rw [read_exit_n_rx, readl_rxfifo_n_rx]

/-- A long response: the decoder returns the declared size clamped to `count` and copies that
many bytes of the following RX FIFO words, lowest byte first. -/
theorem decode_long (K : Consts) (E : Env) (w : World) (count : Nat) (buf : Buf) (hK : K.WF)
    (hx : u32 (E.rxfifo w.n_rx) &&& 0xff ∈ K.rx_long_ids) :
    (dsim_read_data_decode K E w count buf).1 =
        ((min ((u32 (E.rxfifo w.n_rx) &&& 0x00ffff00) >>> 8) count : Nat) : Int) ∧
      (∀ k, (dsim_read_data_decode K E w count buf).2.2 k =
        if k < min ((u32 (E.rxfifo w.n_rx) &&& 0x00ffff00) >>> 8) count
        then rx_payload_byte E w.n_rx k else buf k) ∧
      (dsim_read_data_decode K E w count buf).2.1.n_rx =
        w.n_rx + 1 + (min ((u32 (E.rxfifo w.n_rx) &&& 0x00ffff00) >>> 8) count + 3) / 4 + 1 := by
  obtain ⟨n1, n2, n3⟩ := rx_long_not_other K hK _ hx
  have hm : (if (u32 (E.rxfifo w.n_rx) &&& 0x00ffff00) >>> 8 > count then count
      else (u32 (E.rxfifo w.n_rx) &&& 0x00ffff00) >>> 8) =
      min ((u32 (E.rxfifo w.n_rx) &&& 0x00ffff00) >>> 8) count := by
    split_ifs <;> omega
  have hlt := rx_size_lt (u32 (E.rxfifo w.n_rx))
  obtain ⟨m, hmdef, hmlt⟩ : ∃ m, min ((u32 (E.rxfifo w.n_rx) &&& 0x00ffff00) >>> 8) count = m ∧
      m < 65536 := ⟨_, rfl, by omega⟩
  rw [hmdef] at hm ⊢
  have hr : ((dsim_disable_interrupts K w).emit (.mutex_lock .dsim_rd_wr_mutex)).n_rx = w.n_rx := by
    rw [emit_n_rx, disable_n_rx]
  obtain ⟨l1, l2⟩ := read_long_spec E m
    (readl_rxfifo E ((dsim_disable_interrupts K w).emit (.mutex_lock .dsim_rd_wr_mutex))).2 buf
  unfold dsim_read_data_decode
  dsimp only
  rw [readl_rxfifo_fst, hr, if_neg n1, if_neg n2, if_neg n3, if_pos hx, hm]
  refine ⟨?_, ?_, ?_⟩
  · rw [read_done_fst]
    exact toInt32_small m (by omega)
  · intro k
    rw [read_done_buf, l2 k, readl_rxfifo_n_rx, hr]
    rfl
  · rw [read_done_n_rx, l1]
    simp only [readl_rxfifo_n_rx, hr]

theorem wait_completion_fifoStep (E : Env) (w : World) (c : Completion) :
    FifoStep w (wait_for_completion_timeout E w c).2 [] :=
  ⟨rfl, rfl, rfl, rfl, ⟨[Event.wait_for_completion_timeout c], rfl, rfl⟩⟩

/-- A read on a ready link whose wait for the RX completion ends in time continues with the
decoder, in a world that has the same link state and has read nothing from the RX FIFO. -/
theorem read_data_of_rx_wait (K : Consts) (E : Env) (fuel : Nat) (w : World)
    (data_id addr count : Nat) (buf : Buf) (hs : w.dsim.state = .DSIM_STATE_HSCLKEN)
    (hw : rx_wait_succeeds K E fuel w data_id addr count = true) :
    ∃ w1 l, FifoStep w w1 l ∧
      dsim_read_data K E fuel w data_id addr count buf =
        some (dsim_read_data_decode K E w1 count buf) := by
  have s0 : FifoStep w (if E.decon_int_drvdata = true then w.emit .decon_lpd_block_exit else w)
      [] := by
    split_ifs
    · exact FifoStep.emit_other w _ rfl
    · exact FifoStep.refl w
  obtain ⟨w1, l, e1, s1⟩ := read_request_some K E fuel _ data_id addr count (s0.state.trans hs)
  have hst : ¬ (if E.decon_int_drvdata = true then w.emit .decon_lpd_block_exit else w).dsim.state
      ≠ .DSIM_STATE_HSCLKEN := by
    rw [s0.state, hs]; exact fun h => h rfl
  have hc : E.completion w1.n_wait = true := by
    unfold rx_wait_succeeds dsim_read_data_before_wait at hw
    rw [e1] at hw
    exact hw
  refine ⟨(wait_for_completion_timeout E w1 .dsim_rd_comp).2, _,
    (s0.trans s1).trans (wait_completion_fifoStep E w1 .dsim_rd_comp), ?_⟩
  unfold dsim_read_data
  dsimp only
  rw [if_neg hst, e1]
  dsimp only
  have hd : (wait_for_completion_timeout E w1 .dsim_rd_comp).1 = true := hc
  rw [hd]
  rfl

/-- A read on a ready link whose wait for the RX completion times out returns `-ETIMEDOUT`
and leaves the buffer as it was. -/
theorem read_data_of_rx_timeout (K : Consts) (E : Env) (fuel : Nat) (w : World)
    (data_id addr count : Nat) (buf : Buf) (hs : w.dsim.state = .DSIM_STATE_HSCLKEN)
    (hw : rx_wait_succeeds K E fuel w data_id addr count = false) :
    ∃ w', dsim_read_data K E fuel w data_id addr count buf =
      some (-(K.ETIMEDOUT : Int), w', buf) := by
  have s0 : FifoStep w (if E.decon_int_drvdata = true then w.emit .decon_lpd_block_exit else w)
      [] := by
    split_ifs
    · exact FifoStep.emit_other w _ rfl
    · exact FifoStep.refl w
  obtain ⟨w1, l, e1, s1⟩ := read_request_some K E fuel _ data_id addr count (s0.state.trans hs)
  have hst : ¬ (if E.decon_int_drvdata = true then w.emit .decon_lpd_block_exit else w).dsim.state
      ≠ .DSIM_STATE_HSCLKEN := by
    rw [s0.state, hs]; exact fun h => h rfl
  have hc : E.completion w1.n_wait = false := by
    unfold rx_wait_succeeds dsim_read_data_before_wait at hw
    rw [e1] at hw
    exact hw
  unfold dsim_read_data
  dsimp only
  rw [if_neg hst, e1]
  dsimp only
  have hd : (wait_for_completion_timeout E w1 .dsim_rd_comp).1 = false := hc
  rw [hd]
  exact ⟨_, rfl⟩

theorem spec_word_byte (b : Nat → Nat) (hb : ∀ i, b i < 256) (n q j : Nat) (hj : j < 4)
    (h : 4 * q + j < n) :
    (u32 (spec_payload_word b n q) >>> (8 * j)) % 256 = b (4 * q + j) := by
  have b0 := hb (4 * q)
  have b1 := hb (4 * q + 1)
  have b2 := hb (4 * q + 2)
  have b3 := hb (4 * q + 3)
  simp only [spec_payload_word, Finset.sum_range_succ, Finset.sum_range_zero, Nat.shiftLeft_eq,
    Nat.add_zero, Nat.zero_add, u32, Nat.shiftRight_eq_div_pow]
  interval_cases j <;> split_ifs <;> norm_num <;> omega

theorem payload_words_of_fifo (t : List Event) :
    payload_words t = payload_words (t.filter Event.isFifoWrite) := by
  unfold payload_words
  rw [List.filterMap_filter]
  congr 1
  funext e
  cases e <;> rfl

theorem payload_words_map (id : Nat) (l : List Nat) (e : Event)
    (he : payload_words [e] = []) :
    payload_words (l.map (Event.dsim_reg_wr_tx_payload id) ++ [e]) = l := by
  unfold payload_words at he ⊢
  rw [List.filterMap_append, he, List.append_nil, List.filterMap_map]
  induction l with
  | nil => rfl
  | cons a l ih => simp [List.filterMap_cons, ih]

/-- The payload words a long write of at most `2^32 - 4` bytes sends on a ready link. -/
theorem encoded_words_eq (K : Consts) (E : Env) (fuel : Nat) (w : World)
    (data_id data0 n : Nat) (hK : K.WF) (hs : w.dsim.state = .DSIM_STATE_HSCLKEN)
    (hd : data_id ∈ K.long_write_ids) (hn : n + 3 < 2 ^ 32) (hf : (n + 3) / 4 < fuel) :
    encoded_words K E fuel w data_id data0 n = long_write_words E data0 n := by
  obtain ⟨ret, w', t, hr, ht, hfil⟩ :=
    dsim_write_data_long_fifo K E fuel w data_id data0 n hK hs hd hn hf
  unfold encoded_words
  rw [hr]
  dsimp only
  rw [ht, List.drop_left, payload_words_of_fifo, hfil]
  exact payload_words_map _ _ _ rfl

/-- Round trip for any length below `2^16`: the words a long write sends, read back as the
payload words of a long response that declares `n` bytes, give the payload bytes back. -/
theorem long_write_read_roundtrip (K : Consts) (Ew Er : Env) (fuel : Nat) (w wr : World)
    (wid rid data0 addr count n : Nat) (buf : Buf) (hK : K.WF) (hn : n < 65536)
    (hf : (n + 3) / 4 < fuel)
    (hws : w.dsim.state = .DSIM_STATE_HSCLKEN) (hwid : wid ∈ K.long_write_ids)
    (hrs : wr.dsim.state = .DSIM_STATE_HSCLKEN)
    (hwait : rx_wait_succeeds K Er fuel wr rid addr count = true)
    (hcode : u32 (Er.rxfifo wr.n_rx) &&& 0xff ∈ K.rx_long_ids)
    (hsize : (u32 (Er.rxfifo wr.n_rx) &&& 0x00ffff00) >>> 8 = n)
    (hstream : ∀ i, i < (encoded_words K Ew fuel w wid data0 n).length →
      Er.rxfifo (wr.n_rx + 1 + i) = (encoded_words K Ew fuel w wid data0 n).getD i 0)
    (hcount : n ≤ count) :
    ∃ w' buf', dsim_read_data K Er fuel wr rid addr count buf = some ((n : Int), w', buf') ∧
      ∀ k, k < n → buf' k = payload_byte Ew data0 k := by
  have hn32 : n + 3 < 2 ^ 32 := by
    have : (65536 : Nat) + 3 < 2 ^ 32 := by norm_num
    omega
  rw [encoded_words_eq K Ew fuel w wid data0 n hK hws hwid hn32 hf] at hstream
  obtain ⟨w1, l, s1, e1⟩ := read_data_of_rx_wait K Er fuel wr rid addr count buf hrs hwait
  have hr : w1.n_rx = wr.n_rx := s1.n_rx
  rw [← hr] at hcode hsize
  obtain ⟨d1, d2, _⟩ := decode_long K Er w1 count buf hK hcode
  rw [hsize, Nat.min_eq_left hcount] at d1 d2
  refine ⟨(dsim_read_data_decode K Er w1 count buf).2.1,
    (dsim_read_data_decode K Er w1 count buf).2.2, ?_, fun k hk => ?_⟩
  · rw [e1, ← d1]
  · rw [d2 k, if_pos hk, rx_payload_byte, hr]
    have hb : ∀ i, payload_byte Ew data0 i < 256 := fun i => rd8_lt Ew _
    by_cases h4 : n < 4
    · have hlen : k / 4 < (long_write_words Ew data0 n).length := by
        rw [long_write_words_length, if_pos h4]; omega
      rw [hstream _ hlen]
      have hq : k / 4 = 0 := by omega
      have hw : (long_write_words Ew data0 n).getD (k / 4) 0 =
          spec_payload_word (payload_byte Ew data0) 3 0 := by
        rw [hq, long_write_words, if_pos h4]; rfl
      rw [hw]
      have := spec_word_byte (payload_byte Ew data0) hb 3 0 (k % 4) (by omega) (by omega)
      rw [this]
      congr 1
      omega
    · have hlen : k / 4 < (long_write_words Ew data0 n).length := by
        rw [long_write_words_length, if_neg h4]; omega
      rw [hstream _ hlen]
      have hw : (long_write_words Ew data0 n).getD (k / 4) 0 =
          spec_payload_word (payload_byte Ew data0) n (k / 4) := by
        have hl : k / 4 < (n + 3) / 4 := by omega
        rw [long_write_words, if_neg h4, List.getD_eq_getElem?_getD, List.getElem?_map,
          List.getElem?_range hl]
        rfl
      rw [hw]
      have := spec_word_byte (payload_byte Ew data0) hb n (k / 4) (k % 4) (by omega) (by omega)
      rw [this]
      congr 1
      omega

theorem short_apply (x count : Nat) (buf : Buf) (k : Nat) :
    dsim_read_data_short x count buf k =
      if k < count then (x >>> (8 + k * 8)) &&& 0xff else buf k := by
  unfold dsim_read_data_short
  induction count generalizing k with
  | zero => rfl
  | succ n ih =>
    rw [List.range_succ, List.foldl_append, List.foldl_cons, List.foldl_nil]
    by_cases hk : k = n
    · subst hk
      rw [Function.update_same, if_pos (Nat.lt_succ_self _)]
    · rw [Function.update_noteq hk, ih]
      by_cases h1 : k < n
      · rw [if_pos h1, if_pos (by omega)]
      · rw [if_neg h1, if_neg (by omega)]

theorem and_255 (x : Nat) : x &&& 0xff = x % 256 := by
  have : (255 : Nat) = 2 ^ 8 - 1 := by norm_num
  rw [this, Nat.and_pow_two_sub_one_eq_mod]

/-- A short response: the decoder returns `count` and copies `count` bytes out of the first
word, starting at bits `[8:16)`. -/
theorem decode_short (K : Consts) (E : Env) (w : World) (count : Nat) (buf : Buf) (hK : K.WF)
    (hx : u32 (E.rxfifo w.n_rx) &&& 0xff ∈ K.rx_short_ids) :
    (dsim_read_data_decode K E w count buf).1 = toInt32 count ∧
      (dsim_read_data_decode K E w count buf).2.2 =
        dsim_read_data_short (u32 (E.rxfifo w.n_rx)) count buf := by
  obtain ⟨n1, n2⟩ := rx_short_not_other K hK _ hx
  have hr : ((dsim_disable_interrupts K w).emit (.mutex_lock .dsim_rd_wr_mutex)).n_rx = w.n_rx := by
    rw [emit_n_rx, disable_n_rx]
  unfold dsim_read_data_decode
  dsimp only
  rw [readl_rxfifo_fst, hr, if_neg n1, if_neg n2, if_pos hx]
  exact ⟨rfl, rfl⟩

/-- An end-of-transmission packet: the decoder returns `0` and leaves the buffer. -/
theorem decode_eot (K : Consts) (E : Env) (w : World) (count : Nat) (buf : Buf) (hK : K.WF)
    (hx : u32 (E.rxfifo w.n_rx) &&& 0xff = K.MIPI_DSI_RX_END_OF_TRANSMISSION) :
    (dsim_read_data_decode K E w count buf).1 = 0 ∧
      (dsim_read_data_decode K E w count buf).2.2 = buf := by
  have n1 : u32 (E.rxfifo w.n_rx) &&& 0xff ≠ K.MIPI_DSI_RX_ACKNOWLEDGE_AND_ERROR_REPORT := by
    have hN := hK.2.1
    simp only [Consts.rx_ids, List.cons_append, List.nil_append, List.nodup_cons] at hN
    intro h
    exact hN.1 (by rw [← h, hx]; simp)
  have hr : ((dsim_disable_interrupts K w).emit (.mutex_lock .dsim_rd_wr_mutex)).n_rx = w.n_rx := by
    rw [emit_n_rx, disable_n_rx]
  unfold dsim_read_data_decode
  dsimp only
  rw [readl_rxfifo_fst, hr, if_neg n1, if_pos hx]
  exact ⟨rfl, rfl⟩

/-- A first word with an unknown low byte: the decoder returns `-EPERM` and leaves the
buffer. -/
theorem decode_unknown (K : Consts) (E : Env) (w : World) (count : Nat) (buf : Buf)
    (hx : u32 (E.rxfifo w.n_rx) &&& 0xff ∉ K.rx_ids) :
    (dsim_read_data_decode K E w count buf).1 = -(K.EPERM : Int) ∧
      (dsim_read_data_decode K E w count buf).2.2 = buf := by
  simp only [Consts.rx_ids, List.cons_append, List.nil_append, List.mem_cons, List.mem_append,
    not_or] at hx
  have hr : ((dsim_disable_interrupts K w).emit (.mutex_lock .dsim_rd_wr_mutex)).n_rx = w.n_rx := by
    rw [emit_n_rx, disable_n_rx]
  unfold dsim_read_data_decode
  dsimp only
  rw [readl_rxfifo_fst, hr, if_neg hx.1, if_neg hx.2.1, if_neg hx.2.2.1, if_neg hx.2.2.2]
  exact ⟨rfl, rfl⟩

/-- An acknowledge and error report: the decoder returns `-EPERM` and leaves the buffer. -/
theorem decode_ack (K : Consts) (E : Env) (w : World) (count : Nat) (buf : Buf)
    (hx : u32 (E.rxfifo w.n_rx) &&& 0xff = K.MIPI_DSI_RX_ACKNOWLEDGE_AND_ERROR_REPORT) :
    (dsim_read_data_decode K E w count buf).1 = -(K.EPERM : Int) ∧
      (dsim_read_data_decode K E w count buf).2.2 = buf := by
  have hr : ((dsim_disable_interrupts K w).emit (.mutex_lock .dsim_rd_wr_mutex)).n_rx = w.n_rx := by
    rw [emit_n_rx, disable_n_rx]
  unfold dsim_read_data_decode
  dsimp only
  rw [readl_rxfifo_fst, hr, if_pos hx]
  exact ⟨rfl, rfl⟩

theorem EPERM_pos (K : Consts) (hK : K.WF) : -(K.EPERM : Int) < 0 := by
  have h := hK.2.2.2
  simp only [List.nodup_cons, List.mem_cons, not_or] at h
  have : K.EPERM ≠ 0 := fun e => h.1.1 e.symm
  omega

theorem rx_err_report_eq (x bit : Nat) (e : RxErr) (w : World) :
    rx_err_report x bit e w =
      { w with trace := w.trace ++
          (if x &&& (1 <<< bit) ≠ 0 then [Event.dev_err (Log.rx_err e)] else []) } := by
  unfold rx_err_report
  split_ifs
  · rfl
  · simp

theorem filter_cons_append {α : Type} (p : α → Bool) (a : α) (l : List α) :
    (a :: l).filter p = (if p a then [a] else []) ++ l.filter p := by
  rw [List.filter_cons]
  split_ifs <;> rfl

theorem map_ite_singleton {α β : Type} (f : α → β) (c : Prop) [Decidable c] (a : α) :
    List.map f (if c then [a] else []) = if c then [f a] else [] := by
  split_ifs <;> rfl

/-- The handler logs exactly the flags of the word, in the order of the bits. -/
theorem dsim_rx_err_handler_trace (w : World) (x : Nat) :
    dsim_rx_err_handler w x =
      { w with trace := w.trace ++
          (rx_err_flags x).map (fun e => Event.dev_err (Log.rx_err e)) } := by
  unfold dsim_rx_err_handler rx_err_flags rx_err_bits
  simp only [rx_err_report_eq, filter_cons_append, List.filter_nil, List.map_append,
    List.map_nil, map_ite_singleton, List.append_assoc, List.append_nil, decide_eq_true_eq]

theorem and_bit_ne_zero (x k : Nat) : x &&& (1 <<< k) ≠ 0 ↔ x.testBit k = true := by
  rw [Nat.one_shiftLeft]
  constructor
  · intro h
    by_contra hb
    apply h
    apply Nat.eq_of_testBit_eq
    intro i
    rw [Nat.testBit_and, Nat.testBit_two_pow, Nat.zero_testBit]
    by_cases hki : k = i
    · subst hki; simp [hb]
    · simp [hki]
  · intro hb h
    have := congrArg (fun y => Nat.testBit y k) h
    simp [Nat.testBit_and, Nat.testBit_two_pow, hb] at this

/-- The flags of a word that has, above its low byte, only bit 13 set. -/
theorem rx_err_flags_bit13 (c : Nat) (hc : c < 256) :
    rx_err_flags (c ||| 1 <<< 13) = [RxErr.HS_receive_timeout_error] := by
  have hbit : ∀ k, 8 ≤ k → ((c ||| 1 <<< 13) &&& (1 <<< k) ≠ 0 ↔ k = 13) := by
    intro k hk
    rw [and_bit_ne_zero, Nat.testBit_or, Nat.one_shiftLeft, Nat.testBit_two_pow,
      Nat.testBit_lt_two_pow (lt_of_lt_of_le hc (by
        have : (256 : Nat) = 2 ^ 8 := by norm_num
        rw [this]; exact Nat.pow_le_pow_right (by norm_num) hk))]
    simp [eq_comm]
  have hge : ∀ p ∈ rx_err_bits, 8 ≤ p.1 := by decide
  have hcongr : (rx_err_bits.filter fun p => (c ||| 1 <<< 13) &&& (1 <<< p.1) ≠ 0) =
      rx_err_bits.filter fun p => p.1 = 13 := by
    apply List.filter_congr
    intro p hp
    exact decide_eq_decide.2 (hbit p.1 (hge p hp))
  unfold rx_err_flags
  rw [hcongr]
  decide

theorem low_byte_bit13 (c : Nat) (hc : c < 256) : (c ||| 1 <<< 13) &&& 0xff = c := by
  rw [or_shl_eq_add c 1 13 (by omega), and_255]
  omega

theorem mem_rx_err_flags (y b : Nat) (e : RxErr) (h : (b, e) ∈ rx_err_bits) :
    e ∈ rx_err_flags y ↔ y.testBit b = true := by
  unfold rx_err_bits at h
  simp only [List.mem_cons, Prod.mk.injEq, List.mem_singleton, List.not_mem_nil, or_false] at h
  rcases h with h | h | h | h | h | h | h | h | h | h | h | h | h | h <;>
    obtain ⟨rfl, rfl⟩ := h <;>
    simp [rx_err_flags, rx_err_bits, ← and_bit_ne_zero]

theorem Emits.none (P : Event → Bool) (w : World) : Emits P w w :=
  ⟨[], by simp, by simp⟩

theorem Emits.andThen {P : Event → Bool} {w w1 w2 : World} (h1 : Emits P w w1)
    (h2 : Emits P w1 w2) : Emits P w w2 := by
  obtain ⟨t1, e1, p1⟩ := h1
  obtain ⟨t2, e2, p2⟩ := h2
  refine ⟨t1 ++ t2, by rw [e2, e1, List.append_assoc], ?_⟩
  intro e he
  rcases List.mem_append.1 he with h | h
  · exact p1 e h
  · exact p2 e h

theorem Emits.one {P : Event → Bool} (w : World) (e : Event) (h : P e = true) :
    Emits P w (w.emit e) :=
  ⟨[e], rfl, by simpa using h⟩

theorem Emits.of_trace {P : Event → Bool} {w w1 w2 : World} (h : Emits P w w1)
    (e : w2.trace = w1.trace) : Emits P w w2 := by
  obtain ⟨t, e1, p1⟩ := h
  exact ⟨t, by rw [e, e1], p1⟩

theorem Emits.weaken {P Q : Event → Bool} {w w' : World} (h : Emits P w w')
    (hPQ : ∀ e, P e = true → Q e = true) : Emits Q w w' := by
  obtain ⟨t, e1, p1⟩ := h
  exact ⟨t, e1, fun e he => hPQ e (p1 e he)⟩

theorem Keeps.same (P : Event → Bool) (w : World) : Keeps P w w :=
  ⟨rfl, Emits.none P w⟩

theorem Keeps.seq {P : Event → Bool} {w w1 w2 : World} (h1 : Keeps P w w1)
    (h2 : Keeps P w1 w2) : Keeps P w w2 :=
  ⟨h2.dsim.trans h1.dsim, h1.emits.andThen h2.emits⟩

theorem Keeps.call {P : Event → Bool} (w : World) (e : Event) (h : P e = true) :
    Keeps P w (w.emit e) :=
  ⟨rfl, Emits.one w e h⟩

theorem Keeps.of_eq {P : Event → Bool} {w w1 w2 : World} (h : Keeps P w w1)
    (hd : w2.dsim = w1.dsim) (ht : w2.trace = w1.trace) : Keeps P w w2 :=
  ⟨hd.trans h.dsim, h.emits.of_trace ht⟩

theorem Keeps.widen {P Q : Event → Bool} {w w' : World} (h : Keeps P w w')
    (hPQ : ∀ e, P e = true → Q e = true) : Keeps Q w w' :=
  ⟨h.dsim, h.emits.weaken hPQ⟩

theorem enable_emits (K : Consts) (w : World) :
    Emits Event.isTxBody w (dsim_enable_interrupts K w) := by
  unfold dsim_enable_interrupts
  dsimp only
  split_ifs
  · exact Emits.one _ _ rfl
  · exact Emits.none _ _
  · exact ((Emits.one w _ rfl).of_trace rfl |>.andThen
      ((Emits.one _ _ rfl).andThen (Emits.one _ _ rfl)))
  · exact ((Emits.one w _ rfl).of_trace rfl |>.andThen (Emits.one _ _ rfl))

theorem disable_emits (K : Consts) (w : World) :
    Emits Event.isTxBody w (dsim_disable_interrupts K w) := by
  unfold dsim_disable_interrupts
  dsimp only
  split_ifs
  · exact Emits.one _ _ rfl
  · exact Emits.none _ _
  all_goals
    first
    | exact ((Emits.one w _ rfl).of_trace rfl |>.andThen
        ((Emits.one _ _ rfl).andThen ((Emits.one _ _ rfl).andThen (Emits.one _ _ rfl))))
    | exact ((Emits.one w _ rfl).of_trace rfl |>.andThen
        ((Emits.one _ _ rfl).andThen (Emits.one _ _ rfl)))
    | exact ((Emits.one w _ rfl).of_trace rfl |>.andThen (Emits.one _ _ rfl))

theorem enable_dsim (K : Consts) (w : World) :
    (dsim_enable_interrupts K w).dsim =
      if w.dsim.state = .DSIM_STATE_HSCLKEN ∧ w.dsim.mode = K.DECON_VIDEO_MODE then
        { w.dsim with irq_refcount := w.dsim.irq_refcount + 1 }
      else w.dsim := by
  unfold dsim_enable_interrupts
  dsimp only
  split_ifs <;> first | rfl | (exfalso; tauto)

theorem disable_dsim (K : Consts) (w : World) :
    (dsim_disable_interrupts K w).dsim =
      if w.dsim.state = .DSIM_STATE_HSCLKEN ∧ w.dsim.mode = K.DECON_VIDEO_MODE then
        { w.dsim with irq_refcount := w.dsim.irq_refcount - 1 }
      else w.dsim := by
  unfold dsim_disable_interrupts
  dsimp only
  split_ifs <;> first | rfl | (exfalso; tauto)

/-- An interrupt reference taken by `dsim_enable_interrupts` is given back by
`dsim_disable_interrupts`, whatever was emitted in between. -/
theorem disable_enable_dsim (K : Consts) (w w2 : World)
    (h : w2.dsim = (dsim_enable_interrupts K w).dsim) :
    (dsim_disable_interrupts K w2).dsim = w.dsim := by
  rw [disable_dsim, h, enable_dsim]
  by_cases hc : w.dsim.state = .DSIM_STATE_HSCLKEN ∧ w.dsim.mode = K.DECON_VIDEO_MODE
  · rw [if_pos hc]
    have e : ∀ d : dsim_device,
        ({ d with irq_refcount := d.irq_refcount + 1 - 1 } : dsim_device) = d := by
      intro d; cases d; simp
    exact (if_pos hc).trans (e w.dsim)
  · rw [if_neg hc, if_neg hc]

theorem wait_completion_keeps (E : Env) (w : World) (c : Completion) :
    Keeps Event.isTxBody w (wait_for_completion_timeout E w c).2 :=
  (Keeps.call w _ rfl).of_eq rfl rfl

theorem read_mask_keeps (E : Env) (w : World) (r : Reg) (m : Nat) :
    Keeps Event.isTxBody w (dsim_read_mask E w r m).2 :=
  (Keeps.call w _ rfl).of_eq rfl rfl

theorem wait_keeps (K : Consts) (E : Env) (w : World) (id : Nat) :
    Keeps Event.isTxBody w (dsim_wait_for_cmd_fifo_empty K E w id).2 := by
  unfold dsim_wait_for_cmd_fifo_empty
  dsimp only
  split_ifs
  all_goals
    first
    | exact Keeps.same _ _
    | exact wait_completion_keeps E w _
    | exact (wait_completion_keeps E w _).seq (read_mask_keeps E _ _ _)
    | exact (wait_completion_keeps E w _).seq ((read_mask_keeps E _ _ _).seq
        ((Keeps.call _ _ rfl).seq (Keeps.call _ _ rfl)))

/-- The result of a FIFO-empty wait is decided by the next answers of the environment. -/
theorem wait_fst (K : Consts) (E : Env) (w : World) (id : Nat) (hid : id = 0 ∨ id = 1) :
    (dsim_wait_for_cmd_fifo_empty K E w id).1 =
      if E.completion w.n_wait = false ∧ E.intsrc w.n_mask = false then -(K.ETIMEDOUT : Int)
      else 0 := by
  unfold dsim_wait_for_cmd_fifo_empty wait_for_completion_timeout dsim_read_mask
  rcases hid with h | h <;> subst h <;>
    cases hc : E.completion w.n_wait <;> cases hm : E.intsrc w.n_mask <;> simp [hc, hm, World.emit]

theorem wait_counters (K : Consts) (E : Env) (w : World) (id : Nat) (hid : id = 0 ∨ id = 1) :
    (dsim_wait_for_cmd_fifo_empty K E w id).2.n_wait = w.n_wait + 1 ∧
    (dsim_wait_for_cmd_fifo_empty K E w id).2.n_mask =
      w.n_mask + (if E.completion w.n_wait then 0 else 1) := by
  unfold dsim_wait_for_cmd_fifo_empty wait_for_completion_timeout dsim_read_mask
  rcases hid with h | h <;> subst h <;>
    cases hc : E.completion w.n_wait <;> cases hm : E.intsrc w.n_mask <;> simp [hc, hm, World.emit]

theorem header_keeps (K : Consts) (E : Env) (w : World) (d a b : Nat) :
    Keeps Event.isTxBody w (dsim_write_data_header K E w d a b).2 := by
  have s4 := (((Keeps.call w (.INIT_COMPLETION .dsim_ph_wr_comp) (P := Event.isTxBody) rfl).seq
    (Keeps.call _ (.dsim_reg_clear_int w.dsim.id K.DSIM_INTSRC_SFR_PH_FIFO_EMPTY) rfl)).seq
    (Keeps.call _ (.dsim_reg_wr_tx_header w.dsim.id d a b) rfl)).seq (wait_keeps K E _ 0)
  unfold dsim_write_data_header
  dsimp only
  split_ifs
  · exact s4.seq (Keeps.call _ _ rfl)
  · exact s4

theorem long_header_keeps (K : Consts) (E : Env) (w : World) (d data0 n : Nat) :
    Keeps Event.isTxBody w (dsim_write_data_long_header K E w d data0 n).2 := by
  have s2 := (Keeps.call w (.dsim_reg_wr_tx_header w.dsim.id d (n &&& 0xff)
    ((n &&& 0xff00) >>> 8)) (P := Event.isTxBody) rfl).seq (wait_keeps K E _ 1)
  have s3 := s2.seq (wait_keeps K E _ 0)
  unfold dsim_write_data_long_header
  dsimp only
  split_ifs
  · exact s2.seq (Keeps.call _ _ rfl)
  · exact s3.seq (Keeps.call _ _ rfl)
  · exact s3

theorem loop_keeps (E : Env) (data0 data1 : Nat) :
    ∀ (fuel c p : Nat) (w w' : World),
      dsim_long_data_wr_loop E data0 data1 fuel c p w = some w' →
        Keeps Event.isTxBody w w' := by
  intro fuel
  induction fuel with
  | zero => intro c p w w' h; simp [dsim_long_data_wr_loop] at h
  | succ n ih =>
    intro c p w w' h
    unfold dsim_long_data_wr_loop at h
    dsimp only at h
    split_ifs at h
    all_goals
      first
      | exact (Keeps.call w _ rfl).seq (ih _ _ _ _ h)
      | (injection h with h; subst h; exact Keeps.same _ _)

theorem long_keeps (K : Consts) (E : Env) (fuel : Nat) (w : World) (d data0 n : Nat)
    (r : Int) (w' : World) (h : dsim_write_data_long K E fuel w d data0 n = some (r, w')) :
    Keeps Event.isTxBody w w' := by
  have s3 : Keeps Event.isTxBody w (((w.emit (.INIT_COMPLETION .dsim_wr_comp)).emit
      (.INIT_COMPLETION .dsim_ph_wr_comp)).emit (.dsim_reg_clear_int w.dsim.id
        (K.DSIM_INTSRC_SFR_PL_FIFO_EMPTY ||| K.DSIM_INTSRC_SFR_PH_FIFO_EMPTY))) :=
    ((Keeps.call w _ rfl).seq (Keeps.call _ _ rfl)).seq (Keeps.call _ _ rfl)
  unfold dsim_write_data_long at h
  dsimp only at h
  by_cases h4 : n < 4
  · rw [if_pos h4] at h
    dsimp only at h
    injection h with h
    have h2 := congrArg Prod.snd h
    dsimp only at h2
    rw [← h2]
    exact (s3.seq (Keeps.call _ (.dsim_reg_wr_tx_payload w.dsim.id
      (u32 (rd8 E data0 ||| rd8 E (data0 + 1) <<< 8 ||| rd8 E (data0 + 2) <<< 16))) rfl)).seq
      (long_header_keeps K E _ d data0 n)
  · rw [if_neg h4] at h
    split at h
    · exact absurd h (by simp)
    · rename_i w1 hl
      injection h with h
      have h2 := congrArg Prod.snd h
      dsimp only at h2
      rw [← h2]
      exact (s3.seq (loop_keeps E data0 n fuel 0 0 _ w1 hl)).seq
        (long_header_keeps K E _ d data0 n)

theorem switch_keeps (K : Consts) (E : Env) (fuel : Nat) (w : World) (d a b : Nat)
    (r : Int) (w' : World) (h : dsim_write_data_switch K E fuel w d a b = some (r, w')) :
    Keeps Event.isTxBody w w' := by
  unfold dsim_write_data_switch at h
  split_ifs at h
  all_goals
    first
    | exact long_keeps K E fuel w d a b r w' h
    | (injection h with h
       have h2 := congrArg Prod.snd h
       dsimp only at h2
       rw [← h2]
       first
       | exact header_keeps K E w d a b
       | exact Keeps.same _ _
       | exact Keeps.call _ _ rfl)

theorem err_exit_eq (E : Env) (w : World) (ret : Int) :
    dsim_write_data_err_exit E w ret =
      (ret, { w with trace := w.trace ++ ([.mutex_unlock .dsim_rd_wr_mutex] ++
        (if E.decon_int_drvdata then [.decon_lpd_unblock] else [])) }) := by
  unfold dsim_write_data_err_exit
  dsimp only
  split_ifs <;> simp [World.emit]

theorem exit_shape (K : Consts) (E : Env) (w : World) (ret : Int) :
    ∃ tc : List Event, (∀ e ∈ tc, Event.isTxBody e = true) ∧
      (dsim_write_data_exit K E w ret).1 = ret ∧
      (dsim_write_data_exit K E w ret).2.dsim = (dsim_disable_interrupts K w).dsim ∧
      (dsim_write_data_exit K E w ret).2.trace = w.trace ++
        ((if w.dsim.state = .DSIM_STATE_HSCLKEN ∧ ret = -(K.ETIMEDOUT : Int) then
          timeout_dump K w.dsim.id else []) ++ tc ++
        ([.mutex_unlock .dsim_rd_wr_mutex] ++
          (if E.decon_int_drvdata then [.decon_lpd_unblock] else []))) := by
  obtain ⟨w3, hw3⟩ : ∃ w3 : World, w3 =
      if w.dsim.state = .DSIM_STATE_HSCLKEN ∧ ret = -(K.ETIMEDOUT : Int) then
        { w with trace := w.trace ++ timeout_dump K w.dsim.id } else w := ⟨_, rfl⟩
  have e : dsim_write_data_exit K E w ret =
      dsim_write_data_err_exit E (dsim_disable_interrupts K w3) ret := by
    rw [hw3]
    unfold dsim_write_data_exit
    dsimp only
    split_ifs <;> simp [World.emit, timeout_dump]
  have hd3 : w3.dsim = w.dsim := by rw [hw3]; split_ifs <;> rfl
  have ht3 : w3.trace = w.trace ++
      (if w.dsim.state = .DSIM_STATE_HSCLKEN ∧ ret = -(K.ETIMEDOUT : Int) then
        timeout_dump K w.dsim.id else []) := by
    rw [hw3]; split_ifs <;> simp
  obtain ⟨tc, htc, pc⟩ := disable_emits K w3
  rw [e, err_exit_eq]
  refine ⟨tc, pc, rfl, ?_, ?_⟩
  · dsimp only
    rw [disable_dsim, disable_dsim, hd3]
  · dsimp only
    rw [htc, ht3]
    simp only [List.append_assoc]

/-- The shape of the trace of one call of `dsim_write_data`: the compositor hold and the
transaction mutex frame the call, the register dump and the FIFO reset appear exactly when the
link is ready and the result is `-ETIMEDOUT`, every other call is one of the interrupt gate or
of the switch, and the device fields are as before. -/
theorem write_data_shape (K : Consts) (E : Env) (fuel : Nat) (w : World) (d a b : Nat)
    (ret : Int) (w' : World) (h : dsim_write_data K E fuel w d a b = some (ret, w')) :
    w'.dsim = w.dsim ∧ ∃ t1 t2 : List Event,
      (∀ e ∈ t1, Event.isTxBody e = true) ∧ (∀ e ∈ t2, Event.isTxBody e = true) ∧
      w'.trace = w.trace ++ ((if E.decon_int_drvdata then [.decon_lpd_block_exit] else []) ++
        [.mutex_lock .dsim_rd_wr_mutex] ++ t1 ++
        (if w.dsim.state = .DSIM_STATE_HSCLKEN ∧ ret = -(K.ETIMEDOUT : Int) then
          timeout_dump K w.dsim.id else []) ++ t2 ++
        ([.mutex_unlock .dsim_rd_wr_mutex] ++
          (if E.decon_int_drvdata then [.decon_lpd_unblock] else []))) := by
  obtain ⟨w0, hw0, hd0, ht0⟩ : ∃ w0 : World,
      w0 = (if E.decon_int_drvdata = true then w.emit .decon_lpd_block_exit else w).emit
        (.mutex_lock .dsim_rd_wr_mutex) ∧ w0.dsim = w.dsim ∧
      w0.trace = w.trace ++ ((if E.decon_int_drvdata then [.decon_lpd_block_exit] else []) ++
        [.mutex_lock .dsim_rd_wr_mutex]) := by
    refine ⟨_, rfl, ?_, ?_⟩ <;> split_ifs <;> simp [World.emit]
  unfold dsim_write_data at h
  dsimp only at h
  rw [← hw0] at h
  by_cases hs : w.dsim.state = .DSIM_STATE_HSCLKEN
  · have hs0 : ¬ w0.dsim.state ≠ .DSIM_STATE_HSCLKEN := by rw [hd0, hs]; exact fun h => h rfl
    rw [if_neg hs0] at h
    cases hsw : dsim_write_data_switch K E fuel (dsim_enable_interrupts K w0) d a b with
    | none => rw [hsw] at h; exact absurd h (by simp)
    | some p =>
      obtain ⟨r, w2⟩ := p
      rw [hsw] at h
      dsimp only at h
      injection h with h
      have k2 := switch_keeps K E fuel _ d a b r w2 hsw
      obtain ⟨ta, hta, pa⟩ := enable_emits K w0
      obtain ⟨tb, htb, pb⟩ := k2.emits
      obtain ⟨tc, pc, x1, x2, x3⟩ := exit_shape K E w2 r
      rw [h] at x1 x2 x3
      dsimp only at x1 x2 x3
      subst x1
      have hs2 : w2.dsim.state = w.dsim.state := by
        rw [k2.dsim, enable_dsim, hd0]; split_ifs <;> rfl
      have hid2 : w2.dsim.id = w.dsim.id := by
        rw [k2.dsim, enable_dsim, hd0]; split_ifs <;> rfl
      refine ⟨?_, ta ++ tb, tc, ?_, pc, ?_⟩
      · rw [x2]
        exact (disable_enable_dsim K w0 _ k2.dsim).trans hd0
      · intro e he
        rcases List.mem_append.1 he with h1 | h1
        · exact pa e h1
        · exact pb e h1
      · rw [x3, htb, hta, ht0, hs2, hid2]
        simp only [List.append_assoc]
  · have hs0 : w0.dsim.state ≠ .DSIM_STATE_HSCLKEN := by rw [hd0]; exact hs
    rw [if_pos hs0, err_exit_eq] at h
    injection h with h
    have hw : w'.trace = _ := (congrArg (fun p => p.2.trace) h).symm
    have hwd : w'.dsim = _ := (congrArg (fun p => p.2.dsim) h).symm
    dsimp only at hw hwd
    refine ⟨?_, [.dev_err .not_ready], [], ?_, ?_, ?_⟩
    · rw [hwd]; exact hd0
    · intro e he
      rw [List.mem_singleton.1 he]; rfl
    · intro e he; cases he
    · rw [hw, if_neg (show ¬ (w.dsim.state = .DSIM_STATE_HSCLKEN ∧ ret = -(K.ETIMEDOUT : Int))
        from fun hc => hs hc.1)]
      simp only [World.emit, ht0, List.append_assoc, List.cons_append, List.nil_append,
        List.append_nil]

theorem filter_eq_nil_of_kind {P Q : Event → Bool} (t : List Event)
    (h : ∀ e ∈ t, P e = true) (hPQ : ∀ e, P e = true → Q e = false) : t.filter Q = [] := by
  rw [List.filter_eq_nil_iff]
  intro e he
  rw [hPQ e (h e he)]
  exact Bool.false_ne_true

theorem switch_header (K : Consts) (E : Env) (fuel : Nat) (w : World) (d a b : Nat)
    (hK : K.WF)
    (hd : d ∈ K.short_write_ids ∨ d ∈ K.generic_command_ids ∨ d ∈ K.read_request_ids) :
    dsim_write_data_switch K E fuel w d a b = some (dsim_write_data_header K E w d a b) := by
  have hN := hK.1
  simp only [Consts.tx_ids, List.nodup_append, List.disjoint_left] at hN
  unfold dsim_write_data_switch
  by_cases h1 : d ∈ K.short_write_ids
  · rw [if_pos h1]
  rw [if_neg h1]
  by_cases h2 : d ∈ K.generic_command_ids
  · rw [if_pos h2]
  rw [if_neg h2]
  have h4 : d ∈ K.read_request_ids := by tauto
  have h3 : d ∉ K.video_sync_ids := fun h => hN.1.1.1.2.2 (List.mem_append_right _ h) h4
  rw [if_neg h3, if_pos h4]

theorem wait_fst_eq (K : Consts) (E : Env) (w : World) (id : Nat) (hid : id = 0 ∨ id = 1) :
    (dsim_wait_for_cmd_fifo_empty K E w id).1 =
      if fifo_wait_times_out E w.n_wait w.n_mask then -(K.ETIMEDOUT : Int) else 0 :=
  wait_fst K E w id hid

theorem header_fst (K : Consts) (E : Env) (w : World) (d a b : Nat) :
    (dsim_write_data_header K E w d a b).1 =
      if fifo_wait_times_out E w.n_wait w.n_mask then -(K.ETIMEDOUT : Int) else 0 := by
  obtain ⟨w1, hw1⟩ : ∃ w1 : World, w1 = ((w.emit (.INIT_COMPLETION .dsim_ph_wr_comp)).emit
    (.dsim_reg_clear_int w.dsim.id K.DSIM_INTSRC_SFR_PH_FIFO_EMPTY)).emit
    (.dsim_reg_wr_tx_header w.dsim.id d a b) := ⟨_, rfl⟩
  have hp := wait_fst_eq K E w1 0 (Or.inl rfl)
  have e1 : w1.n_wait = w.n_wait := by rw [hw1]; rfl
  have e2 : w1.n_mask = w.n_mask := by rw [hw1]; rfl
  rw [e1, e2] at hp
  have e : dsim_write_data_header K E w d a b =
      if (dsim_wait_for_cmd_fifo_empty K E w1 0).1 ≠ 0 then
        (-(K.ETIMEDOUT : Int), (dsim_wait_for_cmd_fifo_empty K E w1 0).2.emit
          (.dev_err (.short_write_timeout d a)))
      else (0, (dsim_wait_for_cmd_fifo_empty K E w1 0).2) := by
    rw [hw1]; rfl
  rw [e, hp]
  by_cases t1 : fifo_wait_times_out E w.n_wait w.n_mask <;>
    by_cases hz : (K.ETIMEDOUT : Int) = 0 <;> simp [t1, hz]

theorem long_header_fst (K : Consts) (E : Env) (w : World) (d data0 n : Nat) :
    (dsim_write_data_long_header K E w d data0 n).1 =
      if fifo_wait_times_out E w.n_wait w.n_mask ∨
        fifo_wait_times_out E (w.n_wait + 1)
          (w.n_mask + (if E.completion w.n_wait then 0 else 1)) then
        -(K.ETIMEDOUT : Int) else 0 := by
  obtain ⟨w1, hw1⟩ : ∃ w1 : World, w1 = w.emit (.dsim_reg_wr_tx_header w.dsim.id d (n &&& 0xff)
    ((n &&& 0xff00) >>> 8)) := ⟨_, rfl⟩
  have hp := wait_fst_eq K E w1 1 (Or.inr rfl)
  have hc := wait_counters K E w1 1 (Or.inr rfl)
  have hq := wait_fst_eq K E (dsim_wait_for_cmd_fifo_empty K E w1 1).2 0 (Or.inl rfl)
  rw [hc.1, hc.2] at hq
  have e1 : w1.n_wait = w.n_wait := by rw [hw1]; rfl
  have e2 : w1.n_mask = w.n_mask := by rw [hw1]; rfl
  rw [e1, e2] at hp hq
  have e : dsim_write_data_long_header K E w d data0 n =
      if (dsim_wait_for_cmd_fifo_empty K E w1 1).1 ≠ 0 then
        (-(K.ETIMEDOUT : Int), (dsim_wait_for_cmd_fifo_empty K E w1 1).2.emit
          (.dev_err (.write_timeout d (rd8 E data0))))
      else if (dsim_wait_for_cmd_fifo_empty K E
          (dsim_wait_for_cmd_fifo_empty K E w1 1).2 0).1 ≠ 0 then
        (-(K.ETIMEDOUT : Int), (dsim_wait_for_cmd_fifo_empty K E
          (dsim_wait_for_cmd_fifo_empty K E w1 1).2 0).2.emit
          (.dev_err (.short_write_timeout d data0)))
      else (0, (dsim_wait_for_cmd_fifo_empty K E
          (dsim_wait_for_cmd_fifo_empty K E w1 1).2 0).2) := by
    rw [hw1]; rfl
  rw [e, hp, hq]
  by_cases t1 : fifo_wait_times_out E w.n_wait w.n_mask <;>
    by_cases t2 : fifo_wait_times_out E (w.n_wait + 1)
      (w.n_mask + (if E.completion w.n_wait then 0 else 1)) <;>
    by_cases hz : (K.ETIMEDOUT : Int) = 0 <;> simp [t1, t2, hz]

theorem enable_counters (K : Consts) (w : World) :
    (dsim_enable_interrupts K w).n_wait = w.n_wait ∧
    (dsim_enable_interrupts K w).n_mask = w.n_mask := by
  unfold dsim_enable_interrupts
  dsimp only
  split_ifs <;> exact ⟨rfl, rfl⟩

/-- The result of the long-write case: it returns when the payload loop ends, and the value
is decided by the two FIFO-empty waits. -/
theorem long_fst (K : Consts) (E : Env) (fuel : Nat) (w : World) (d data0 n : Nat)
    (hn : n + 3 < 2 ^ 32) (hf : (n + 3) / 4 < fuel) :
    ∃ w', dsim_write_data_long K E fuel w d data0 n =
      some ((if fifo_wait_times_out E w.n_wait w.n_mask ∨
        fifo_wait_times_out E (w.n_wait + 1)
          (w.n_mask + (if E.completion w.n_wait then 0 else 1)) then
        -(K.ETIMEDOUT : Int) else 0), w') := by
  unfold dsim_write_data_long
  dsimp only
  by_cases h4 : n < 4
  · rw [if_pos h4]
    dsimp only
    refine ⟨_, congrArg some (Prod.ext ?_ rfl)⟩
    rw [long_header_fst]
    rfl
  · rw [if_neg h4, dsim_long_data_wr_trace E fuel _ data0 n hn hf]
    dsimp only
    refine ⟨_, congrArg some (Prod.ext ?_ rfl)⟩
    rw [long_header_fst]
    rfl

theorem write_data_ready_eq (K : Consts) (E : Env) (fuel : Nat) (w : World) (d a b : Nat)
    (hs : w.dsim.state = .DSIM_STATE_HSCLKEN) :
    ∃ w1 : World, w1.n_wait = w.n_wait ∧ w1.n_mask = w.n_mask ∧
      ∀ r w2, dsim_write_data_switch K E fuel w1 d a b = some (r, w2) →
        dsim_write_data K E fuel w d a b = some (dsim_write_data_exit K E w2 r) := by
  have hst : ¬ ((if E.decon_int_drvdata = true then w.emit .decon_lpd_block_exit else w).emit
      (.mutex_lock .dsim_rd_wr_mutex)).dsim.state ≠ .DSIM_STATE_HSCLKEN := by
    rw [emit_dsim]
    split_ifs <;> simp [hs]
  refine ⟨dsim_enable_interrupts K ((if E.decon_int_drvdata = true then
    w.emit .decon_lpd_block_exit else w).emit (.mutex_lock .dsim_rd_wr_mutex)), ?_, ?_, ?_⟩
  · rw [(enable_counters K _).1]; split_ifs <;> rfl
  · rw [(enable_counters K _).2]; split_ifs <;> rfl
  · intro r w2 hsw
    unfold dsim_write_data
    dsimp only
    rw [if_neg hst, hsw]

theorem filter_reset_shape (K : Consts) (id : Nat) (c1 : Bool) (c2 : Prop) [Decidable c2]
    (t1 t2 : List Event) (h1 : ∀ e ∈ t1, Event.isTxBody e = true)
    (h2 : ∀ e ∈ t2, Event.isTxBody e = true) :
    ((if c1 then [Event.decon_lpd_block_exit] else []) ++
        [Event.mutex_lock .dsim_rd_wr_mutex] ++ t1 ++
        (if c2 then timeout_dump K id else []) ++ t2 ++
        ([Event.mutex_unlock .dsim_rd_wr_mutex] ++
          (if c1 then [Event.decon_lpd_unblock] else []))).filter Event.isFifoReset =
      if c2 then [Event.dsim_reg_set_fifo_ctrl id K.DSIM_FIFOCTRL_INIT_SFR] else [] := by
  have hb : ∀ e, Event.isTxBody e = true → Event.isFifoReset e = false := by
    intro e; cases e <;> simp [Event.isTxBody, Event.isFifoReset]
  simp only [List.filter_append, filter_eq_nil_of_kind t1 h1 hb, filter_eq_nil_of_kind t2 h2 hb]
  cases c1 <;> by_cases h : c2 <;> simp [h, timeout_dump, Event.isFifoReset]

theorem isTx_of_body (e : Event) (h : e.isTxBody = true) : e.isTx = true := by
  cases e <;> simp_all [Event.isTx, Event.isTxBody]

theorem forall_mem_append_kind {P : Event → Bool} {l1 l2 : List Event}
    (h1 : ∀ e ∈ l1, P e = true) (h2 : ∀ e ∈ l2, P e = true) : ∀ e ∈ l1 ++ l2, P e = true := by
  intro e he
  rcases List.mem_append.1 he with h | h
  · exact h1 e h
  · exact h2 e h

/-- One call of `dsim_write_data` keeps the device fields and makes calls of kind `isTx`
only. -/
theorem write_data_keeps (K : Consts) (E : Env) (fuel : Nat) (w : World) (d a b : Nat)
    (ret : Int) (w' : World) (h : dsim_write_data K E fuel w d a b = some (ret, w')) :
    Keeps Event.isTx w w' := by
  obtain ⟨hd, t1, t2, p1, p2, ht⟩ := write_data_shape K E fuel w d a b ret w' h
  refine ⟨hd, _, ht, ?_⟩
  refine forall_mem_append_kind (forall_mem_append_kind (forall_mem_append_kind
    (forall_mem_append_kind (forall_mem_append_kind ?_ ?_) ?_) ?_) ?_) ?_
  · intro e he; split_ifs at he <;> simp_all [Event.isTx]
  · intro e he; simp_all [Event.isTx]
  · exact fun e he => isTx_of_body e (p1 e he)
  · intro e he
    split_ifs at he
    · simp only [timeout_dump, List.mem_cons, List.mem_singleton, List.not_mem_nil,
        or_false] at he
      rcases he with h | h | h | h | h | h <;> subst h <;> rfl
    · cases he
  · exact fun e he => isTx_of_body e (p2 e he)
  · intro e he
    rcases List.mem_append.1 he with h1 | h1
    · simp_all [Event.isTx]
    · split_ifs at h1 <;> simp_all [Event.isTx]

theorem read_exit_trace (E : Env) (w : World) (ret : Int) (buf : Buf) :
    (dsim_read_data_exit E w ret buf).2.1.trace = w.trace ++
      ([Event.mutex_unlock .dsim_rd_wr_mutex] ++
        (if E.decon_int_drvdata then [Event.decon_lpd_unblock] else [])) := by
  unfold dsim_read_data_exit
  dsimp only
  split_ifs <;> simp [World.emit]

theorem read_exit_dsim (E : Env) (w : World) (ret : Int) (buf : Buf) :
    (dsim_read_data_exit E w ret buf).2.1.dsim = w.dsim := by
  unfold dsim_read_data_exit
  dsimp only
  split_ifs <;> rfl

theorem rx_error_eq (K : Consts) (E : Env) (w : World) (buf : Buf) :
    (dsim_read_data_rx_error K E w buf).1 = -(K.EPERM : Int) ∧
    (dsim_read_data_rx_error K E w buf).2.2 = buf ∧
    (dsim_read_data_rx_error K E w buf).2.1.dsim = w.dsim ∧
    (dsim_read_data_rx_error K E w buf).2.1.trace = w.trace ++ (rx_error_pulse w.dsim.id ++
      ([Event.mutex_unlock .dsim_rd_wr_mutex] ++
        (if E.decon_int_drvdata then [Event.decon_lpd_unblock] else []))) := by
  unfold dsim_read_data_rx_error
  dsimp only
  refine ⟨rfl, rfl, ?_, ?_⟩
  · rw [read_exit_dsim]; rfl
  · rw [read_exit_trace]
    simp [World.emit, rx_error_pulse]

theorem read_done_trace (E : Env) (w : World) (n : Nat) (buf : Buf) :
    (dsim_read_data_done E w n buf).2.1.trace = w.trace ++ ([Event.readl .DSIM_RXFIFO] ++
      ([Event.mutex_unlock .dsim_rd_wr_mutex] ++
        (if E.decon_int_drvdata then [Event.decon_lpd_unblock] else []))) := by
  unfold dsim_read_data_done
  dsimp only
  rw [read_exit_trace, readl_rxfifo_trace, List.append_assoc]

theorem read_done_dsim (E : Env) (w : World) (n : Nat) (buf : Buf) :
    (dsim_read_data_done E w n buf).2.1.dsim = w.dsim := by
  unfold dsim_read_data_done
  dsimp only
  rw [read_exit_dsim, readl_rxfifo_dsim]

/-- The calls of the decoder: after dropping the interrupt reference it takes the transaction
mutex, makes the calls of `decode_events`, and releases the mutex and the compositor hold. -/
theorem decode_trace (K : Consts) (E : Env) (w : World) (count : Nat) (buf : Buf) :
    (dsim_read_data_decode K E w count buf).2.1.dsim = (dsim_disable_interrupts K w).dsim ∧
    (dsim_read_data_decode K E w count buf).2.1.trace = (dsim_disable_interrupts K w).trace ++
      ([Event.mutex_lock .dsim_rd_wr_mutex] ++ decode_events K E w count ++
        ([Event.mutex_unlock .dsim_rd_wr_mutex] ++
          (if E.decon_int_drvdata then [Event.decon_lpd_unblock] else []))) := by
  obtain ⟨w1, hw1⟩ : ∃ w1 : World,
      w1 = (dsim_disable_interrupts K w).emit (.mutex_lock .dsim_rd_wr_mutex) := ⟨_, rfl⟩
  have hr : w1.n_rx = w.n_rx := by rw [hw1, emit_n_rx, disable_n_rx]
  have hd : w1.dsim = (dsim_disable_interrupts K w).dsim := by rw [hw1]; rfl
  have hid : w1.dsim.id = w.dsim.id := by
    rw [hd, disable_dsim]; split_ifs <;> rfl
  have ht : w1.trace = (dsim_disable_interrupts K w).trace ++
      [Event.mutex_lock .dsim_rd_wr_mutex] := by rw [hw1]; rfl
  unfold dsim_read_data_decode decode_events
  dsimp only
  rw [← hw1, readl_rxfifo_fst, hr]
  by_cases h1 : u32 (E.rxfifo w.n_rx) &&& 0xff = K.MIPI_DSI_RX_ACKNOWLEDGE_AND_ERROR_REPORT
  · rw [if_pos h1, if_pos h1]
    obtain ⟨_, _, e3, e4⟩ := rx_error_eq K E
      (dsim_rx_err_handler (readl_rxfifo E w1).2 (u32 (E.rxfifo w.n_rx))) buf
    rw [e3, e4, dsim_rx_err_handler_trace]
    refine ⟨hd, ?_⟩
    dsimp only
    rw [readl_rxfifo_trace, readl_rxfifo_dsim, hid, ht]
    simp only [List.append_assoc, List.cons_append, List.nil_append]
  rw [if_neg h1, if_neg h1]
  by_cases h2 : u32 (E.rxfifo w.n_rx) &&& 0xff = K.MIPI_DSI_RX_END_OF_TRANSMISSION
  · rw [if_pos h2, if_pos h2]
    rw [read_done_trace, read_done_dsim, readl_rxfifo_trace, readl_rxfifo_dsim, ht]
    refine ⟨hd, ?_⟩
    simp only [List.append_assoc, List.cons_append, List.nil_append]
  rw [if_neg h2, if_neg h2]
  by_cases h3 : u32 (E.rxfifo w.n_rx) &&& 0xff ∈ K.rx_short_ids
  · rw [if_pos h3, if_pos h3]
    rw [read_done_trace, read_done_dsim, readl_rxfifo_trace, readl_rxfifo_dsim, ht]
    refine ⟨hd, ?_⟩
    simp only [List.append_assoc, List.cons_append, List.nil_append]
  rw [if_neg h3, if_neg h3]
  by_cases h4 : u32 (E.rxfifo w.n_rx) &&& 0xff ∈ K.rx_long_ids
  · rw [if_pos h4, if_pos h4]
    have hm : (if (u32 (E.rxfifo w.n_rx) &&& 0x00ffff00) >>> 8 > count then count
        else (u32 (E.rxfifo w.n_rx) &&& 0x00ffff00) >>> 8) =
        min ((u32 (E.rxfifo w.n_rx) &&& 0x00ffff00) >>> 8) count := by
      split_ifs <;> omega
    rw [hm]
    obtain ⟨l1, _⟩ := read_long_spec E (min ((u32 (E.rxfifo w.n_rx) &&& 0x00ffff00) >>> 8) count)
      (readl_rxfifo E w1).2 buf
    rw [read_done_trace, read_done_dsim, l1]
    dsimp only
    rw [readl_rxfifo_trace, readl_rxfifo_dsim, ht]
    refine ⟨hd, ?_⟩
    simp only [List.append_assoc, List.cons_append, List.nil_append]
  · rw [if_neg h4, if_neg h4]
    obtain ⟨_, _, e3, e4⟩ := rx_error_eq K E
      ((readl_rxfifo E w1).2.emit (.dev_err .invalid_format)) buf
    rw [e3, e4]
    refine ⟨hd, ?_⟩
    rw [emit_trace, emit_dsim, readl_rxfifo_trace, readl_rxfifo_dsim, hid, ht]
    simp only [List.append_assoc, List.cons_append, List.nil_append]

theorem disable_gate (K : Consts) (w : World) :
    Emits Event.isIrqGate w (dsim_disable_interrupts K w) := by
  unfold dsim_disable_interrupts
  dsimp only
  split_ifs
  · exact Emits.one _ _ rfl
  · exact Emits.none _ _
  all_goals
    first
    | exact ((Emits.one w _ rfl).of_trace rfl |>.andThen
        ((Emits.one _ _ rfl).andThen ((Emits.one _ _ rfl).andThen (Emits.one _ _ rfl))))
    | exact ((Emits.one w _ rfl).of_trace rfl |>.andThen
        ((Emits.one _ _ rfl).andThen (Emits.one _ _ rfl)))
    | exact ((Emits.one w _ rfl).of_trace rfl |>.andThen (Emits.one _ _ rfl))

theorem isTxBody_of_gate (e : Event) (h : e.isIrqGate = true) : e.isTxBody = true := by
  cases e <;> first | rfl | (exfalso; simp [Event.isIrqGate] at h; done) |
    (rename_i m; cases m <;> first | rfl | (exfalso; simp [Event.isIrqGate] at h))

theorem Balanced.nil : Balanced [] := ⟨rfl, rfl⟩

theorem Balanced.concat {t1 t2 : List Event} (h1 : Balanced t1) (h2 : Balanced t2) :
    Balanced (t1 ++ t2) := by
  unfold Balanced at *
  simp only [List.count_append]
  omega

theorem Balanced.of_neutral {t : List Event} (h : ∀ e ∈ t, Event.isNeutral e = true) :
    Balanced t := by
  have h0 : ∀ x : Event, x.isNeutral = false → t.count x = 0 := by
    intro x hx
    rw [List.count_eq_zero]
    intro hm
    rw [h x hm] at hx
    exact absurd hx (by simp)
  unfold Balanced
  rw [h0 .decon_lpd_block_exit rfl, h0 .decon_lpd_unblock rfl,
    h0 (.mutex_lock .dsim_rd_wr_mutex) rfl, h0 (.mutex_unlock .dsim_rd_wr_mutex) rfl]
  exact ⟨rfl, rfl⟩

theorem isNeutral_of_body (e : Event) (h : e.isTxBody = true) : e.isNeutral = true := by
  cases e <;> first | rfl | (exfalso; simp [Event.isTxBody] at h; done) |
    (rename_i m; cases m <;> first | rfl | (exfalso; simp [Event.isTxBody] at h))

theorem Balanced.of_body {t : List Event} (h : ∀ e ∈ t, Event.isTxBody e = true) :
    Balanced t :=
  Balanced.of_neutral (fun e he => isNeutral_of_body e (h e he))

theorem Balanced.frame (c : Bool) {t : List Event} (h : Balanced t) :
    Balanced ((if c then [Event.decon_lpd_block_exit] else []) ++
      [Event.mutex_lock .dsim_rd_wr_mutex] ++ t ++
      ([Event.mutex_unlock .dsim_rd_wr_mutex] ++
        (if c then [Event.decon_lpd_unblock] else []))) := by
  unfold Balanced at *
  cases c <;> simp [List.count_append, List.count_cons, h.1, h.2]

theorem Balanced.timeout_dump (K : Consts) (id : Nat) : Balanced (timeout_dump K id) :=
  Balanced.of_neutral (by
    intro e he
    simp only [Dsim.timeout_dump, List.mem_cons, List.mem_singleton, List.not_mem_nil,
      or_false] at he
    rcases he with h | h | h | h | h | h <;> subst h <;> rfl)

/-- One call of `dsim_write_data` that returns has released the compositor hold as often as
it has taken it, and the transaction mutex likewise, on every path. -/
theorem write_data_balanced (K : Consts) (E : Env) (fuel : Nat) (w : World) (d a b : Nat)
    (ret : Int) (w' : World) (h : dsim_write_data K E fuel w d a b = some (ret, w')) :
    ∃ t, w'.trace = w.trace ++ t ∧ (∀ e ∈ t, Event.isTx e = true) ∧ Balanced t := by
  obtain ⟨t, ht, pt⟩ := (write_data_keeps K E fuel w d a b ret w' h).emits
  obtain ⟨_, t1, t2, p1, p2, ht2⟩ := write_data_shape K E fuel w d a b ret w' h
  refine ⟨t, ht, pt, ?_⟩
  have e : t = _ := List.append_cancel_left (ht.symm.trans ht2)
  rw [e]
  have hb : Balanced (t1 ++ (if w.dsim.state = .DSIM_STATE_HSCLKEN ∧ ret = -(K.ETIMEDOUT : Int)
      then timeout_dump K w.dsim.id else []) ++ t2) := by
    refine ((Balanced.of_body p1).concat ?_).concat (Balanced.of_body p2)
    split_ifs
    · exact Balanced.timeout_dump K _
    · exact Balanced.nil
  have := Balanced.frame E.decon_int_drvdata hb
  simpa only [List.append_assoc] using this

/-- The request part of `dsim_read_data` makes calls of kind `isTx` only, and releases what it
takes. -/
theorem request_step (K : Consts) (E : Env) (fuel : Nat) (w : World)
    (data_id addr count : Nat) (w1 : World)
    (h : dsim_read_data_request K E fuel w data_id addr count = some w1) :
    (∃ t, w1.trace = w.trace ++ t ∧ (∀ e ∈ t, Event.isTx e = true) ∧ Balanced t) ∧
      w1.dsim = (dsim_enable_interrupts K (w.emit (.INIT_COMPLETION .dsim_rd_comp))).dsim := by
  unfold dsim_read_data_request at h
  dsimp only at h
  split at h
  · exact absurd h (by simp)
  · rename_i r1 wa h1
    split at h
    · exact absurd h (by simp)
    · rename_i r2 wb h2
      injection h with h
      subst h
      have k1 := write_data_keeps K E fuel _ _ _ _ r1 wa h1
      have k2 := write_data_keeps K E fuel _ _ _ _ r2 wb h2
      obtain ⟨ta, hta, pa, ba⟩ := write_data_balanced K E fuel _ _ _ _ r1 wa h1
      obtain ⟨tb, htb, pb, bb⟩ := write_data_balanced K E fuel _ _ _ _ r2 wb h2
      obtain ⟨te, hte, pe⟩ := enable_emits K (w.emit (.INIT_COMPLETION .dsim_rd_comp))
      refine ⟨⟨[Event.INIT_COMPLETION .dsim_rd_comp] ++ te ++ ta ++ tb, ?_, ?_, ?_⟩,
        k2.dsim.trans k1.dsim⟩
      · rw [htb, hta, hte, emit_trace]
        simp only [List.append_assoc]
      · refine forall_mem_append_kind (forall_mem_append_kind (forall_mem_append_kind ?_ ?_)
          pa) pb
        · intro e he; rw [List.mem_singleton.1 he]; rfl
        · exact fun e he => isTx_of_body e (pe e he)
      · refine ((Balanced.concat ?_ (Balanced.of_body pe)).concat ba).concat bb
        exact Balanced.of_body (by intro e he; rw [List.mem_singleton.1 he]; rfl)

/-- A read on a ready link whose wait for the RX completion ends in time: the world handed to
the decoder, with the calls made up to there. -/
theorem read_data_decode_step (K : Consts) (E : Env) (fuel : Nat) (w : World)
    (data_id addr count : Nat) (buf : Buf) (hs : w.dsim.state = .DSIM_STATE_HSCLKEN)
    (hw : rx_wait_succeeds K E fuel w data_id addr count = true) :
    ∃ (w1 : World) (treq : List Event),
      dsim_read_data K E fuel w data_id addr count buf =
        some (dsim_read_data_decode K E w1 count buf) ∧
      w1.n_rx = w.n_rx ∧ w1.dsim = (dsim_enable_interrupts K w).dsim ∧
      (∀ e ∈ treq, Event.isTx e = true) ∧ Balanced treq ∧
      w1.trace = w.trace ++ ((if E.decon_int_drvdata then [Event.decon_lpd_block_exit] else [])
        ++ treq ++ [Event.wait_for_completion_timeout .dsim_rd_comp]) := by
  obtain ⟨w0, hw0, hd0, ht0⟩ : ∃ w0 : World,
      w0 = (if E.decon_int_drvdata = true then w.emit .decon_lpd_block_exit else w) ∧
      w0.dsim = w.dsim ∧
      w0.trace = w.trace ++ (if E.decon_int_drvdata then [Event.decon_lpd_block_exit] else []) := by
    refine ⟨_, rfl, ?_, ?_⟩ <;> split_ifs <;> simp [World.emit]
  obtain ⟨wr, l, e1, s1⟩ := read_request_some K E fuel w0 data_id addr count (hd0 ▸ hs)
  obtain ⟨⟨treq, htr, ptr, btr⟩, hdr⟩ := request_step K E fuel w0 data_id addr count wr e1
  have hst : ¬ w0.dsim.state ≠ .DSIM_STATE_HSCLKEN := by
    rw [hd0, hs]; exact fun h => h rfl
  have hc : E.completion wr.n_wait = true := by
    unfold rx_wait_succeeds dsim_read_data_before_wait at hw
    rw [← hw0, e1] at hw
    exact hw
  have hn0 : w0.n_rx = w.n_rx := by rw [hw0]; split_ifs <;> rfl
  refine ⟨(wait_for_completion_timeout E wr .dsim_rd_comp).2, treq, ?_, ?_, ?_, ptr, btr, ?_⟩
  · unfold dsim_read_data
    dsimp only
    rw [← hw0, if_neg hst, e1]
    dsimp only
    have hd : (wait_for_completion_timeout E wr .dsim_rd_comp).1 = true := hc
    rw [hd]
    rfl
  · exact s1.n_rx.trans hn0
  · show wr.dsim = _
    rw [hdr, enable_dsim, enable_dsim, emit_dsim, hd0]
  · show wr.trace ++ [_] = _
    rw [htr, ht0]
    simp only [List.append_assoc]

/-- A read on a ready link whose wait for the RX completion times out: the result is
`-ETIMEDOUT`, the buffer and the device fields are as before, and the calls are those of the
request, the wait, the release of the interrupt reference and the log line; the compositor
hold taken at entry is not released. -/
theorem read_data_timeout_step (K : Consts) (E : Env) (fuel : Nat) (w : World)
    (data_id addr count : Nat) (buf : Buf) (hs : w.dsim.state = .DSIM_STATE_HSCLKEN)
    (hw : rx_wait_succeeds K E fuel w data_id addr count = false) :
    ∃ (w' : World) (treq tdis : List Event),
      dsim_read_data K E fuel w data_id addr count buf =
        some (-(K.ETIMEDOUT : Int), w', buf) ∧
      w'.dsim = w.dsim ∧
      (∀ e ∈ treq, Event.isTx e = true) ∧ Balanced treq ∧
      (∀ e ∈ tdis, Event.isIrqGate e = true) ∧
      w'.trace = w.trace ++ ((if E.decon_int_drvdata then [Event.decon_lpd_block_exit] else [])
        ++ treq ++ [Event.wait_for_completion_timeout .dsim_rd_comp] ++ tdis ++
        [Event.dev_err .read_timeout]) := by
  obtain ⟨w0, hw0, hd0, ht0⟩ : ∃ w0 : World,
      w0 = (if E.decon_int_drvdata = true then w.emit .decon_lpd_block_exit else w) ∧
      w0.dsim = w.dsim ∧
      w0.trace = w.trace ++ (if E.decon_int_drvdata then [Event.decon_lpd_block_exit] else []) := by
    refine ⟨_, rfl, ?_, ?_⟩ <;> split_ifs <;> simp [World.emit]
  obtain ⟨wr, l, e1, s1⟩ := read_request_some K E fuel w0 data_id addr count (hd0 ▸ hs)
  obtain ⟨⟨treq, htr, ptr, btr⟩, hdr⟩ := request_step K E fuel w0 data_id addr count wr e1
  have hst : ¬ w0.dsim.state ≠ .DSIM_STATE_HSCLKEN := by
    rw [hd0, hs]; exact fun h => h rfl
  have hc : E.completion wr.n_wait = false := by
    unfold rx_wait_succeeds dsim_read_data_before_wait at hw
    rw [← hw0, e1] at hw
    exact hw
  obtain ⟨tdis, htd, ptd⟩ := disable_gate K (wait_for_completion_timeout E wr .dsim_rd_comp).2
  refine ⟨(dsim_disable_interrupts K (wait_for_completion_timeout E wr .dsim_rd_comp).2).emit
    (.dev_err .read_timeout), treq, tdis, ?_, ?_, ptr, btr, ptd, ?_⟩
  · unfold dsim_read_data
    dsimp only
    rw [← hw0, if_neg hst, e1]
    dsimp only
    have hd : (wait_for_completion_timeout E wr .dsim_rd_comp).1 = false := hc
    rw [hd]
    rfl
  · rw [emit_dsim]
    refine (disable_enable_dsim K (w0.emit (.INIT_COMPLETION .dsim_rd_comp)) _ ?_).trans hd0
    exact hdr
  · rw [emit_trace, htd]
    show wr.trace ++ [_] ++ tdis ++ _ = _
    rw [htr, ht0]
    simp only [List.append_assoc]

theorem filter_pulse_of_tx (t : List Event) (h : ∀ e ∈ t, Event.isTx e = true) :
    t.filter Event.isPulse = [] :=
  filter_eq_nil_of_kind t h (by intro e; cases e <;> simp [Event.isTx, Event.isTxBody, Event.isPulse])

theorem filter_rxread_of_tx (t : List Event) (h : ∀ e ∈ t, Event.isTx e = true) :
    t.filter Event.isRxRead = [] :=
  filter_eq_nil_of_kind t h (by
    intro e; cases e <;> simp [Event.isTx, Event.isTxBody, Event.isRxRead]
    rename_i r; cases r <;> simp)

theorem filter_map_dev_err (p : Event → Bool) (hp : ∀ l, p (.dev_err l) = false)
    (l : List RxErr) : (l.map (fun e => Event.dev_err (.rx_err e))).filter p = [] := by
  rw [List.filter_eq_nil_iff]
  intro e he
  obtain ⟨x, _, rfl⟩ := List.mem_map.1 he
  rw [hp]
  exact Bool.false_ne_true

theorem decode_events_neutral (K : Consts) (E : Env) (w : World) (count : Nat) :
    ∀ e ∈ decode_events K E w count, Event.isNeutral e = true := by
  intro e he
  unfold decode_events rx_error_pulse at he
  dsimp only at he
  split_ifs at he
  all_goals
    simp only [List.mem_append, List.mem_cons, List.mem_singleton, List.not_mem_nil, or_false,
      List.mem_map, List.mem_replicate] at he
  · rcases he with (h | ⟨x, _, h⟩) | h | h | h <;> subst h <;> rfl
  · rcases he with h | h <;> subst h <;> rfl
  · rcases he with h | h <;> subst h <;> rfl
  · rcases he with (h | ⟨_, h⟩) | h <;> subst h <;> rfl
  · rcases he with (h | h) | h | h | h <;> subst h <;> rfl

/-- The calls of a read on a ready link whose wait for the RX completion ends in time. -/
theorem read_data_ok_shape (K : Consts) (E : Env) (fuel : Nat) (w : World)
    (data_id addr count : Nat) (buf : Buf) (hs : w.dsim.state = .DSIM_STATE_HSCLKEN)
    (hw : rx_wait_succeeds K E fuel w data_id addr count = true) :
    ∃ (w1 : World) (treq tdis : List Event),
      dsim_read_data K E fuel w data_id addr count buf =
        some (dsim_read_data_decode K E w1 count buf) ∧
      w1.n_rx = w.n_rx ∧ w1.dsim.id = w.dsim.id ∧
      (dsim_read_data_decode K E w1 count buf).2.1.dsim = w.dsim ∧
      (∀ e ∈ treq, Event.isTx e = true) ∧ Balanced treq ∧
      (∀ e ∈ tdis, Event.isTxBody e = true) ∧
      (dsim_read_data_decode K E w1 count buf).2.1.trace = w.trace ++
        ((if E.decon_int_drvdata then [Event.decon_lpd_block_exit] else []) ++
          (treq ++ [Event.wait_for_completion_timeout .dsim_rd_comp] ++ tdis ++
            ([Event.mutex_lock .dsim_rd_wr_mutex] ++ decode_events K E w1 count ++
              [Event.mutex_unlock .dsim_rd_wr_mutex])) ++
          (if E.decon_int_drvdata then [Event.decon_lpd_unblock] else [])) := by
  obtain ⟨w1, treq, e1, n1, d1, ptr, btr, t1⟩ :=
    read_data_decode_step K E fuel w data_id addr count buf hs hw
  obtain ⟨dd, dt⟩ := decode_trace K E w1 count buf
  obtain ⟨tdis, htd, ptd⟩ := disable_emits K w1
  refine ⟨w1, treq, tdis, e1, n1, ?_, ?_, ptr, btr, ptd, ?_⟩
  · rw [d1, enable_dsim]; split_ifs <;> rfl
  · rw [dd]
    exact disable_enable_dsim K w w1 d1
  · rw [dt, htd, t1]
    simp only [List.append_assoc]

theorem Balanced.hold (c : Bool) {t : List Event} (h : Balanced t) :
    Balanced ((if c then [Event.decon_lpd_block_exit] else []) ++ t ++
      (if c then [Event.decon_lpd_unblock] else [])) := by
  unfold Balanced at *
  cases c <;> simp [List.count_append, List.count_cons, h.1, h.2]

theorem Balanced.mutex {t : List Event} (h : Balanced t) :
    Balanced ([Event.mutex_lock .dsim_rd_wr_mutex] ++ t ++
      [Event.mutex_unlock .dsim_rd_wr_mutex]) := by
  unfold Balanced at *
  simp [List.count_append, List.count_cons, h.1, h.2]

/-- The compositor hold over one call of `dsim_read_data` that returns: the hold is released
as often as it is taken on every path but one; when a compositor is present, the link is ready
and the wait for the RX completion times out, one hold is left unreleased. -/
theorem read_data_hold (K : Consts) (E : Env) (fuel : Nat) (w : World)
    (data_id addr count : Nat) (buf : Buf) :
    ∃ r t, dsim_read_data K E fuel w data_id addr count buf = some r ∧
      r.2.1.trace = w.trace ++ t ∧
      t.count .decon_lpd_block_exit = t.count .decon_lpd_unblock +
        (if E.decon_int_drvdata = true ∧ w.dsim.state = .DSIM_STATE_HSCLKEN ∧
          rx_wait_succeeds K E fuel w data_id addr count = false then 1 else 0) := by
  by_cases hs : w.dsim.state = .DSIM_STATE_HSCLKEN
  · cases hw : rx_wait_succeeds K E fuel w data_id addr count
    · obtain ⟨w', treq, tdis, e1, _, ptr, btr, ptd, ht⟩ :=
        read_data_timeout_step K E fuel w data_id addr count buf hs hw
      refine ⟨_, _, e1, ht, ?_⟩
      have b2 := (Balanced.of_body (fun e he => isTxBody_of_gate e (ptd e he))).1
      have b1 := btr.1
      cases hc : E.decon_int_drvdata <;>
        simp [List.count_append, List.count_cons, hs, b1, b2]
    · obtain ⟨w1, treq, tdis, e1, _, _, _, ptr, btr, ptd, ht⟩ :=
        read_data_ok_shape K E fuel w data_id addr count buf hs hw
      refine ⟨_, _, e1, ht, ?_⟩
      have hb := Balanced.hold E.decon_int_drvdata (((btr.concat (Balanced.of_body (t :=
        [Event.wait_for_completion_timeout .dsim_rd_comp])
        (by intro e he; rw [List.mem_singleton.1 he]; rfl))).concat
        (Balanced.of_body ptd)).concat
        (Balanced.mutex (Balanced.of_neutral (decode_events_neutral K E w1 count))))
      rw [hb.1]
      simp
  · have hst : (if E.decon_int_drvdata = true then w.emit .decon_lpd_block_exit else w).dsim.state
        ≠ .DSIM_STATE_HSCLKEN := by split_ifs <;> exact hs
    have e : dsim_read_data K E fuel w data_id addr count buf = some (-(K.EINVAL : Int),
        { w with trace := w.trace ++
          ((if E.decon_int_drvdata then [Event.decon_lpd_block_exit] else []) ++
          [Event.dev_err .not_ready] ++
          (if E.decon_int_drvdata then [Event.decon_lpd_unblock] else [])) }, buf) := by
      unfold dsim_read_data
      dsimp only
      rw [if_pos hst]
      split_ifs <;> simp [World.emit]
    refine ⟨_, _, e, rfl, ?_⟩
    cases hc : E.decon_int_drvdata <;> simp [List.count_append, List.count_cons, hs]

theorem pkt_go_disable_eq (K : Consts) (E : Env) (w : World) :
    dsim_pkt_go_enable K E w false =
      { w with
        dsim := { w.dsim with pktgo :=
          if w.dsim.state = .DSIM_STATE_HSCLKEN ∧ w.dsim.pktgo = K.DSIM_PKTGO_ENABLED then
            K.DSIM_PKTGO_DISABLED else w.dsim.pktgo },
        trace := w.trace ++ ((if E.decon_int_drvdata then [Event.decon_lpd_block] else []) ++
          (if w.dsim.state = .DSIM_STATE_HSCLKEN ∧ w.dsim.pktgo = K.DSIM_PKTGO_ENABLED then
            [Event.dsim_reg_set_pkt_go_cnt w.dsim.id 0x1,
              Event.dsim_reg_set_pkt_go_enable w.dsim.id 0] else []) ++
          (if E.decon_int_drvdata then [Event.decon_lpd_unblock] else [])) } := by
  obtain ⟨⟨id, st, mode, rc, pg, ddi, dl, dlc, xr, yr, lc⟩, tr, nw, nm, nr⟩ := w
  unfold dsim_pkt_go_enable
  cases hc : E.decon_int_drvdata <;>
    by_cases hs : st = .DSIM_STATE_HSCLKEN <;>
    by_cases hp : pg = K.DSIM_PKTGO_ENABLED <;>
    simp [World.emit, hs, hp]

theorem runtime_power_put_eq (cfg : Config) (w : World) :
    runtime_power_put cfg w = { w with trace := w.trace ++ runtime_power_put_events cfg } := by
  unfold runtime_power_put runtime_power_put_events dsim_runtime_suspend
  split_ifs <;> simp [World.emit]

theorem enter_ulps_before_lock_spec (K : Consts) (cfg : Config) (E : Env) (w : World) :
    (enter_ulps_before_lock K cfg E w).dsim.state = w.dsim.state ∧
    (enter_ulps_before_lock K cfg E w).dsim.irq_refcount = w.dsim.irq_refcount ∧
    (enter_ulps_before_lock K cfg E w).dsim.id = w.dsim.id ∧
    (enter_ulps_before_lock K cfg E w).dsim.ddi_type = w.dsim.ddi_type ∧
    (enter_ulps_before_lock K cfg E w).dsim.data_lane = w.dsim.data_lane ∧
    ∃ t, (enter_ulps_before_lock K cfg E w).trace = w.trace ++ t ∧
      t.filter Event.isDdiUlps = [] := by
  unfold enter_ulps_before_lock
  split_ifs
  · rw [pkt_go_disable_eq]
    refine ⟨rfl, rfl, rfl, rfl, rfl, _, by simp only [emit_trace, List.append_assoc]; rfl, ?_⟩
    simp only [List.filter_append]
    cases E.decon_int_drvdata <;> split_ifs <;> simp [Event.isDdiUlps]
  · exact ⟨rfl, rfl, rfl, rfl, rfl, [.exynos_ss_printk], rfl, rfl⟩

/-- On a ready link `dsim_enter_ulps` goes through the whole sequence; its result is the
value of the DDI-specific step unless that is negative. -/
theorem enter_ulps_ready_eq (K : Consts) (cfg : Config) (E : Env) (w : World)
    (hs : w.dsim.state = .DSIM_STATE_HSCLKEN) :
    dsim_enter_ulps K cfg E w =
      ((if w.dsim.ddi_type ≠ K.TYPE_OF_SM_DDI ∧ w.dsim.ddi_type = K.TYPE_OF_MAGNA_DDI then 0
        else if E.ulps_ret < 0 then 0 else E.ulps_ret),
      { enter_ulps_before_lock K cfg E w with
        dsim := { (enter_ulps_before_lock K cfg E w).dsim with state := .DSIM_STATE_ULPS },
        trace := (enter_ulps_before_lock K cfg E w).trace ++
          ([Event.mutex_lock .dsim_rd_wr_mutex, Event.mutex_unlock .dsim_rd_wr_mutex,
            Event.dsim_reg_set_int w.dsim.id 0, Event.disable_irq,
            Event.dsim_reg_set_hs_clock w.dsim.id 0] ++
          ulps_entry_events K E w.dsim ++
          [Event.dsim_reg_set_lanes w.dsim.id (dsim_lanes K w) 0,
            Event.dsim_reg_set_clocks w.dsim.id (dsim_lanes K w) 0,
            Event.dsim_reg_sw_reset w.dsim.id, Event.exynos5_dism_phy_enable 0 0] ++
          runtime_power_put_events cfg ++ [Event.exynos_ss_printk]) }) := by
  obtain ⟨h1, _, h3, h4, h5, _⟩ := enter_ulps_before_lock_spec K cfg E w
  obtain ⟨w1, hw1⟩ : ∃ w1, w1 = enter_ulps_before_lock K cfg E w := ⟨_, rfl⟩
  rw [← hw1] at h1 h3 h4 h5 ⊢
  have e : dsim_enter_ulps K cfg E w =
      (let w := w1
       let w := w.emit (.mutex_lock .dsim_rd_wr_mutex)
       let w := { w with dsim := { w.dsim with state := .DSIM_STATE_ULPS } }
       let w := w.emit (.mutex_unlock .dsim_rd_wr_mutex)
       let w := w.emit (.dsim_reg_set_int w.dsim.id 0)
       let w := w.emit .disable_irq
       let w := w.emit (.dsim_reg_set_hs_clock w.dsim.id 0)
       let (ret, w) := dsim_set_ulps_by_ddi K E w 1
       let (ret, w) := if ret < 0 then ((0 : Int), w.emit .dsim_dump) else (ret, w)
       let w := w.emit (.dsim_reg_set_lanes w.dsim.id (dsim_lanes K w) 0)
       let w := w.emit (.dsim_reg_set_clocks w.dsim.id (dsim_lanes K w) 0)
       let w := w.emit (.dsim_reg_sw_reset w.dsim.id)
       let w := dsim_d_phy_onoff w 0
       let w := runtime_power_put cfg w
       (ret, w.emit .exynos_ss_printk)) := by
    rw [hw1]
    unfold dsim_enter_ulps enter_ulps_before_lock
    have : ¬ (w.emit .exynos_ss_printk).dsim.state ≠ .DSIM_STATE_HSCLKEN := by
      rw [emit_dsim, hs]; exact fun h => h rfl
    simp only [this, if_false]
  rw [e]
  obtain ⟨⟨id, st, mode, rc, pg, ddi, dl, dlc, xr, yr, lc⟩, tr, nw, nm, nr⟩ := w1
  simp only at h1 h3 h4 h5
  unfold dsim_set_ulps_by_ddi ulps_entry_events dsim_d_phy_onoff dsim_lanes
  simp only [runtime_power_put_eq, ← h3, ← h4, ← h5]
  clear h4 hw1 e
  by_cases c1 : ddi = K.TYPE_OF_SM_DDI
  · subst c1
    by_cases c3 : E.ulps_ret < 0 <;> simp [World.emit, c3]
  · by_cases c2 : ddi = K.TYPE_OF_MAGNA_DDI
    · subst c2
      simp [World.emit, c1]
    · by_cases c3 : E.ulps_ret < 0 <;> simp [World.emit, c1, c2, c3]

theorem read_data_dsim (K : Consts) (E : Env) (fuel : Nat) (w : World)
    (data_id addr count : Nat) (buf : Buf) (r : Int × World × Buf)
    (h : dsim_read_data K E fuel w data_id addr count buf = some r) : r.2.1.dsim = w.dsim := by
  by_cases hs : w.dsim.state = .DSIM_STATE_HSCLKEN
  · cases hw : rx_wait_succeeds K E fuel w data_id addr count
    · obtain ⟨w', _, _, e1, hd, _⟩ :=
        read_data_timeout_step K E fuel w data_id addr count buf hs hw
      rw [e1] at h
      injection h with h
      rw [← h]
      exact hd
    · obtain ⟨w1, _, _, e1, _, _, hd, _⟩ :=
        read_data_ok_shape K E fuel w data_id addr count buf hs hw
      rw [e1] at h
      injection h with h
      rw [← h]
      exact hd
  · have hst : (if E.decon_int_drvdata = true then w.emit .decon_lpd_block_exit else w).dsim.state
        ≠ .DSIM_STATE_HSCLKEN := by split_ifs <;> exact hs
    unfold dsim_read_data at h
    dsimp only at h
    rw [if_pos hst] at h
    injection h with h
    rw [← h]
    dsimp only
    split_ifs <;> rfl

theorem dsim_enable_dsim (K : Consts) (cfg : Config) (w : World) :
    (dsim_enable K cfg w).2.dsim =
      if w.dsim.state = .DSIM_STATE_HSCLKEN then w.dsim
      else { w.dsim with state := .DSIM_STATE_HSCLKEN } := by
  unfold dsim_enable runtime_power_get dsim_runtime_resume dsim_set_panel_power
    dsim_set_panel_pre_power dsim_d_phy_onoff dsim_reset_panel
  dsimp only
  split_ifs <;> rfl

theorem dsim_exit_ulps_dsim (K : Consts) (cfg : Config) (E : Env) (w : World) :
    (dsim_exit_ulps K cfg E w).2.dsim =
      if w.dsim.state = .DSIM_STATE_ULPS then { w.dsim with state := .DSIM_STATE_HSCLKEN }
      else w.dsim := by
  unfold dsim_exit_ulps runtime_power_get dsim_runtime_resume dsim_d_phy_onoff
    dsim_set_ulps_by_ddi
  dsimp only
  split_ifs <;> first | rfl | (exfalso; simp_all)

theorem dsim_enter_ulps_dsim (K : Consts) (cfg : Config) (E : Env) (w : World) :
    (dsim_enter_ulps K cfg E w).2.dsim.irq_refcount = w.dsim.irq_refcount ∧
    (dsim_enter_ulps K cfg E w).2.dsim.state =
      if w.dsim.state = .DSIM_STATE_HSCLKEN then .DSIM_STATE_ULPS else w.dsim.state := by
  by_cases hs : w.dsim.state = .DSIM_STATE_HSCLKEN
  · obtain ⟨_, h2, _⟩ := enter_ulps_before_lock_spec K cfg E w
    rw [enter_ulps_ready_eq K cfg E w hs, if_pos hs]
    exact ⟨h2, rfl⟩
  · rw [if_neg hs]
    unfold dsim_enter_ulps
    have : (w.emit .exynos_ss_printk).dsim.state ≠ .DSIM_STATE_HSCLKEN := hs
    simp only [this, if_true, ne_eq, not_false_eq_true]
    exact ⟨rfl, rfl⟩

theorem log_dsim (w : World) (o : Option Log) : (w.log o).dsim = w.dsim := by
  cases o <;> rfl

theorem partial_area_retry_dsim (K : Consts) (E : Env) (fuel : Nat) (each : Option Log)
    (last : Log) (addr : Nat) (w : World) (b : Bool) (w' : World)
    (h : dsim_partial_area_retry K E fuel each last addr w = some (b, w')) :
    w'.dsim = w.dsim := by
  unfold dsim_partial_area_retry at h
  cases h1 : dsim_write_data K E fuel w K.MIPI_DSI_DCS_LONG_WRITE addr 5 with
  | none => rw [h1] at h; exact absurd h (by simp)
  | some p1 =>
    obtain ⟨r1, w1⟩ := p1
    have k1 := (write_data_keeps K E fuel _ _ _ _ r1 w1 h1).dsim
    rw [h1] at h
    dsimp only at h
    by_cases c1 : r1 ≠ 0
    · rw [if_pos c1] at h
      cases h2 : dsim_write_data K E fuel (w1.log each) K.MIPI_DSI_DCS_LONG_WRITE addr 5 with
      | none => rw [h2] at h; exact absurd h (by simp)
      | some p2 =>
        obtain ⟨r2, w2⟩ := p2
        have k2 := (write_data_keeps K E fuel _ _ _ _ r2 w2 h2).dsim
        rw [h2] at h
        dsimp only at h
        by_cases c2 : r2 ≠ 0
        · rw [if_pos c2] at h
          injection h with h
          have h' := congrArg Prod.snd h
          dsimp only at h'
          rw [← h', emit_dsim, log_dsim, k2, log_dsim, k1]
        · rw [if_neg c2] at h
          injection h with h
          have h' := congrArg Prod.snd h
          dsimp only at h'
          rw [← h', k2, log_dsim, k1]
    · rw [if_neg c1] at h
      injection h with h
      have h' := congrArg Prod.snd h
      dsimp only at h'
      rw [← h', k1]

theorem partial_area_command_dsim (K : Consts) (E : Env) (fuel : Nat) (w : World)
    (x y width height : Nat) (r : Int) (w' : World)
    (h : dsim_partial_area_command K E fuel w x y width height = some (r, w')) :
    w'.dsim = w.dsim := by
  unfold dsim_partial_area_command at h
  dsimp only at h
  by_cases c0 : w.dsim.lcdConnected = K.PANEL_DISCONNEDTED
  · rw [if_pos c0] at h
    injection h with h
    have h' := congrArg Prod.snd h
    dsimp only at h'
    rw [← h']
  · rw [if_neg c0] at h
    obtain ⟨E2, hE2⟩ : ∃ E2 : Env, E2 = with_array (with_array E E.data_2a
        [K.MIPI_DCS_SET_COLUMN_ADDRESS, (x >>> 8) &&& 0xff, x &&& 0xff,
          (width >>> 8) &&& 0xff, width &&& 0xff]) E.data_2b
        [K.MIPI_DCS_SET_PAGE_ADDRESS, (y >>> 8) &&& 0xff, y &&& 0xff,
          (height >>> 8) &&& 0xff, height &&& 0xff] := ⟨_, rfl⟩
    rw [← hE2] at h
    cases ha : dsim_partial_area_retry K E2 fuel none .size_a_retry_count E2.data_2a w with
    | none => rw [ha] at h; exact absurd h (by simp)
    | some pa =>
      obtain ⟨ba, wa⟩ := pa
      have ka := partial_area_retry_dsim K E2 fuel _ _ _ w ba wa ha
      rw [ha] at h
      cases ba with
      | false =>
        dsimp only at h
        injection h with h
        have h' := congrArg Prod.snd h
        dsimp only at h'
        rw [← h', ka]
      | true =>
        dsimp only at h
        cases hb : dsim_partial_area_retry K E2 fuel (some .window_update_size_b)
            .size_b_retry_count E2.data_2b wa with
        | none => rw [hb] at h; exact absurd h (by simp)
        | some pb =>
          obtain ⟨bb, wb⟩ := pb
          have kb := partial_area_retry_dsim K E2 fuel _ _ _ wa bb wb hb
          rw [hb] at h
          cases bb <;>
          · dsimp only at h
            injection h with h
            have h' := congrArg Prod.snd h
            dsimp only at h'
            rw [← h', kb, ka]

theorem set_lcd_full_screen_dsim (K : Consts) (cfg : Config) (E : Env) (fuel : Nat)
    (w w' : World) (h : dsim_set_lcd_full_screen K cfg E fuel w = some w') :
    w'.dsim = w.dsim := by
  unfold dsim_set_lcd_full_screen at h
  by_cases c : cfg.CONFIG_FB_WINDOW_UPDATE = true
  · rw [if_pos c] at h
    cases ha : dsim_partial_area_command K E fuel w 0 0 (u32 (w.dsim.xres + (2 ^ 32 - 1)))
        (u32 (w.dsim.yres + (2 ^ 32 - 1))) with
    | none => rw [ha] at h; exact absurd h (by simp)
    | some pa =>
      obtain ⟨r, wa⟩ := pa
      rw [ha] at h
      dsimp only at h
      injection h with h
      rw [← h]
      exact partial_area_command_dsim K E fuel w _ _ _ _ r wa ha
  · rw [if_neg c] at h
    injection h with h
    rw [← h]

theorem dsim_disable_dsim (K : Consts) (cfg : Config) (E : Env) (fuel : Nat) (w : World)
    (r : Int) (w' : World) (h : dsim_disable K cfg E fuel w = some (r, w')) :
    w'.dsim.irq_refcount = w.dsim.irq_refcount ∧ w'.dsim.state = .DSIM_STATE_SUSPEND := by
  unfold dsim_disable at h
  by_cases hs : w.dsim.state = .DSIM_STATE_SUSPEND
  · rw [if_pos hs] at h
    injection h with h
    have h' := congrArg Prod.snd h
    dsimp only at h'
    rw [← h']
    exact ⟨rfl, hs⟩
  · rw [if_neg hs] at h
    obtain ⟨w1, hw1, h1⟩ : ∃ w1 : World,
        w1 = (if cfg.CONFIG_DECON_MIPI_DSI_PKTGO = true then dsim_pkt_go_enable K E w false
          else w) ∧ w1.dsim.irq_refcount = w.dsim.irq_refcount := by
      refine ⟨_, rfl, ?_⟩
      split_ifs
      · rw [pkt_go_disable_eq]
      · rfl
    dsimp only at h
    rw [← hw1] at h
    cases h2 : dsim_set_lcd_full_screen K cfg E fuel w1 with
    | none => rw [h2] at h; exact absurd h (by simp)
    | some w2 =>
      have k2 := set_lcd_full_screen_dsim K cfg E fuel w1 w2 h2
      rw [h2] at h
      dsimp only at h
      injection h with h
      have h' := congrArg Prod.snd h
      dsimp only at h'
      rw [← h']
      unfold runtime_power_put dsim_runtime_suspend dsim_set_panel_power dsim_d_phy_onoff
      dsimp only
      refine ⟨?_, ?_⟩
      · split_ifs <;> simp only [emit_dsim] <;> rw [k2, h1]
      · split_ifs <;> rfl

/-- The calls of `dsim_interrupt_handler` when the power is active, as one list. -/
theorem interrupt_handler_active_eq (K : Consts) (E : Env) (w : World)
    (ha : E.pm_runtime_active = true) :
    dsim_interrupt_handler K E w = (K.IRQ_HANDLED, { w with trace := w.trace ++
      ([Event.spin_lock, .pm_runtime_active, .readl .DSIM_INTSRC] ++
      (if bit_set (u32 E.readl_intsrc) K.DSIM_INTSRC_SFR_PL_FIFO_EMPTY then
        [Event.complete .dsim_wr_comp] else []) ++
      (if bit_set (u32 E.readl_intsrc) K.DSIM_INTSRC_SFR_PH_FIFO_EMPTY then
        [Event.complete .dsim_ph_wr_comp] else []) ++
      (if bit_set (u32 E.readl_intsrc) K.DSIM_INTSRC_RX_DAT_DONE then
        [Event.complete .dsim_rd_comp] else []) ++
      (if bit_set (u32 E.readl_intsrc) K.DSIM_INTSRC_FRAME_DONE ∧ E.decon_int_drvdata = true then
        [Event.decon_lpd_trig_reset] else []) ++
      (if bit_set (u32 E.readl_intsrc) K.DSIM_INTSRC_ERR_RX_ECC then
        [Event.dev_err .rx_ecc_multibit] else []) ++
      [Event.dsim_reg_clear_int w.dsim.id (u32 E.readl_intsrc), .spin_unlock]) }) := by
  unfold dsim_interrupt_handler bit_set
  simp only [ha, Bool.not_true, Bool.false_eq_true, if_false]
  by_cases h1 : u32 E.readl_intsrc &&& K.DSIM_INTSRC_SFR_PL_FIFO_EMPTY ≠ 0 <;>
  by_cases h2 : u32 E.readl_intsrc &&& K.DSIM_INTSRC_SFR_PH_FIFO_EMPTY ≠ 0 <;>
  by_cases h3 : u32 E.readl_intsrc &&& K.DSIM_INTSRC_RX_DAT_DONE ≠ 0 <;>
  by_cases h4 : u32 E.readl_intsrc &&& K.DSIM_INTSRC_FRAME_DONE ≠ 0 <;>
  by_cases h5 : u32 E.readl_intsrc &&& K.DSIM_INTSRC_ERR_RX_ECC ≠ 0 <;>
  cases h6 : E.decon_int_drvdata <;>
  simp [h1, h2, h3, h4, h5, h6, World.emit]

/-- Every load of the loop of `dsim_long_data_wr` is below the length. -/
theorem loop_reads_lt (data1 : Nat) :
    ∀ (fuel c k : Nat), k ∈ (dsim_long_data_wr_loop_reads data1 fuel c).1 → k < data1 := by
  intro fuel
  induction fuel with
  | zero => intro c k h; simp [dsim_long_data_wr_loop_reads] at h
  | succ f ih =>
    intro c k h
    unfold dsim_long_data_wr_loop_reads at h
    by_cases hc : c < data1
    · simp only [hc, if_true, List.mem_append] at h
      rcases h with h | h
      · split_ifs at h <;> simp at h <;> omega
      · exact ih _ _ h
    · simp [hc] at h

/-- The flag of `dsim_long_data_wr_loop_reads` tells whether the loop returns. -/
theorem loop_reads_done (E : Env) (data0 data1 : Nat) :
    ∀ (fuel c p : Nat) (w : World),
      (dsim_long_data_wr_loop_reads data1 fuel c).2 =
        (dsim_long_data_wr_loop E data0 data1 fuel c p w).isSome := by
  intro fuel
  induction fuel with
  | zero => intro c p w; rfl
  | succ f ih =>
    intro c p w
    unfold dsim_long_data_wr_loop_reads dsim_long_data_wr_loop
    by_cases hc : c < data1
    · simp only [hc, if_true]
      split_ifs <;> exact ih _ _ _
    · simp [hc]

/-- The loop of `dsim_long_data_wr` takes no answer from the environment. -/
theorem loop_counters (E : Env) (data0 data1 : Nat) :
    ∀ (fuel c p : Nat) (w w' : World),
      dsim_long_data_wr_loop E data0 data1 fuel c p w = some w' →
        w'.n_wait = w.n_wait ∧ w'.n_mask = w.n_mask := by
  intro fuel
  induction fuel with
  | zero => intro c p w w' h; simp [dsim_long_data_wr_loop] at h
  | succ n ih =>
    intro c p w w' h
    unfold dsim_long_data_wr_loop at h
    dsimp only at h
    split_ifs at h
    all_goals
      first
      | (have hh := ih _ _ _ _ h; exact hh)
      | (injection h with h; subst h; exact ⟨rfl, rfl⟩)

/-- The loop of `dsim_long_data_wr` gives the same result in two memories that agree at the
offsets it loads. -/
theorem loop_mem_congr (E : Env) (m : Nat → Nat) (data0 data1 : Nat) :
    ∀ (fuel c p : Nat) (w : World),
      (∀ k ∈ (dsim_long_data_wr_loop_reads data1 fuel c).1, m (data0 + k) = E.mem (data0 + k)) →
      dsim_long_data_wr_loop { E with mem := m } data0 data1 fuel c p w =
        dsim_long_data_wr_loop E data0 data1 fuel c p w := by
  intro fuel
  induction fuel with
  | zero => intro c p w _; rfl
  | succ f ih =>
    intro c p w h
    unfold dsim_long_data_wr_loop_reads at h
    unfold dsim_long_data_wr_loop
    by_cases hc : c < data1
    · simp only [hc, if_true, List.mem_append] at h ⊢
      have hrest := fun q w1 => ih (u32 (c + 4)) q w1 (fun k hk => h k (Or.inr hk))
      have hr : ∀ j, j ∈ (if data1 - c < 4 then
            if data1 - c = 3 then [c, c + 1, c + 2]
            else if data1 - c = 2 then [c, c + 1]
            else if data1 - c = 1 then [c] else []
          else [c, c + 1, c + 2, c + 3]) →
          rd8 { E with mem := m } (data0 + j) = rd8 E (data0 + j) := by
        intro j hj
        unfold rd8
        exact congrArg (· % 256) (h j (Or.inl hj))
      by_cases h4 : data1 - c < 4
      · rw [if_pos h4] at hr
        simp only [if_pos h4]
        by_cases h3 : data1 - c = 3
        · rw [if_pos h3] at hr
          simp only [if_pos h3]
          rw [hr c (by simp), hr (c + 1) (by simp), hr (c + 2) (by simp)]
          exact hrest _ _
        · by_cases h2 : data1 - c = 2
          · rw [if_neg h3, if_pos h2] at hr
            simp only [if_neg h3, if_pos h2]
            rw [hr c (by simp), hr (c + 1) (by simp)]
            exact hrest _ _
          · by_cases h1 : data1 - c = 1
            · rw [if_neg h3, if_neg h2, if_pos h1] at hr
              simp only [if_neg h3, if_neg h2, if_pos h1]
              rw [hr c (by simp)]
              exact hrest _ _
            · simp only [if_neg h3, if_neg h2, if_neg h1]
              exact hrest _ _
      · rw [if_neg h4] at hr
        simp only [if_neg h4]
        rw [hr c (by simp), hr (c + 1) (by simp), hr (c + 2) (by simp), hr (c + 3) (by simp)]
        exact hrest _ _
    · simp [hc]

/-- The second half of a long write gives the same result in two memories that agree at the
first byte of the payload whenever the wait for the payload FIFO fails. -/
theorem long_header_mem_congr (K : Consts) (E : Env) (m : Nat → Nat) (w : World)
    (d data0 n : Nat)
    (h : fifo_wait_times_out E w.n_wait w.n_mask → m data0 = E.mem data0) :
    dsim_write_data_long_header K { E with mem := m } w d data0 n =
      dsim_write_data_long_header K E w d data0 n := by
  obtain ⟨w1, hw1⟩ : ∃ w1 : World, w1 = w.emit (.dsim_reg_wr_tx_header w.dsim.id d (n &&& 0xff)
    ((n &&& 0xff00) >>> 8)) := ⟨_, rfl⟩
  have hp := wait_fst_eq K E w1 1 (Or.inr rfl)
  have e1 : w1.n_wait = w.n_wait := by rw [hw1]; rfl
  have e2 : w1.n_mask = w.n_mask := by rw [hw1]; rfl
  rw [e1, e2] at hp
  have e : ∀ E0 : Env, E0.completion = E.completion → E0.intsrc = E.intsrc →
      dsim_wait_for_cmd_fifo_empty K E0 = dsim_wait_for_cmd_fifo_empty K E →
      dsim_write_data_long_header K E0 w d data0 n =
      if (dsim_wait_for_cmd_fifo_empty K E w1 1).1 ≠ 0 then
        (-(K.ETIMEDOUT : Int), (dsim_wait_for_cmd_fifo_empty K E w1 1).2.emit
          (.dev_err (.write_timeout d (rd8 E0 data0))))
      else if (dsim_wait_for_cmd_fifo_empty K E
          (dsim_wait_for_cmd_fifo_empty K E w1 1).2 0).1 ≠ 0 then
        (-(K.ETIMEDOUT : Int), (dsim_wait_for_cmd_fifo_empty K E
          (dsim_wait_for_cmd_fifo_empty K E w1 1).2 0).2.emit
          (.dev_err (.short_write_timeout d data0)))
      else (0, (dsim_wait_for_cmd_fifo_empty K E
          (dsim_wait_for_cmd_fifo_empty K E w1 1).2 0).2) := by
    intro E0 _ _ hE
    rw [hw1, ← hE]; rfl
  rw [e { E with mem := m } rfl rfl rfl, e E rfl rfl rfl]
  by_cases hr : (dsim_wait_for_cmd_fifo_empty K E w1 1).1 ≠ 0
  · have ht : fifo_wait_times_out E w.n_wait w.n_mask := by
      by_contra hc
      rw [hp, if_neg hc] at hr
      exact hr rfl
    rw [if_pos hr, if_pos hr]
    have : rd8 { E with mem := m } data0 = rd8 E data0 := by
      unfold rd8
      exact congrArg (· % 256) (h ht)
    rw [this]
  · rw [if_neg hr, if_neg hr]

/-- The case group of the long writes gives the same result in two memories that agree at the
offsets of `dsim_write_data_long_reads`; `w0` is the world at the `switch`, with the counters
of the world `w` of the call. -/
theorem long_mem_congr (K : Consts) (E : Env) (m : Nat → Nat) (fuel : Nat) (w w0 : World)
    (d data0 n : Nat) (c1 : w0.n_wait = w.n_wait) (c2 : w0.n_mask = w.n_mask)
    (h : ∀ k ∈ dsim_write_data_long_reads E fuel w n, m (data0 + k) = E.mem (data0 + k)) :
    dsim_write_data_long K { E with mem := m } fuel w0 d data0 n =
      dsim_write_data_long K E fuel w0 d data0 n := by
  unfold dsim_write_data_long_reads at h
  unfold dsim_write_data_long
  dsimp only
  by_cases h4 : n < 4
  · rw [if_pos h4] at h
    simp only [if_pos h4]
    have r0 : rd8 { E with mem := m } data0 = rd8 E data0 := by
      unfold rd8; exact congrArg (· % 256) (h 0 (by simp))
    have r1 : rd8 { E with mem := m } (data0 + 1) = rd8 E (data0 + 1) := by
      unfold rd8; exact congrArg (· % 256) (h 1 (by simp))
    have r2 : rd8 { E with mem := m } (data0 + 2) = rd8 E (data0 + 2) := by
      unfold rd8; exact congrArg (· % 256) (h 2 (by simp))
    rw [r0, r1, r2]
    exact congrArg some (long_header_mem_congr K E m _ d data0 n (fun _ => h 0 (by simp)))
  · rw [if_neg h4] at h
    dsimp only at h
    simp only [if_neg h4]
    unfold dsim_long_data_wr
    rw [loop_mem_congr E m data0 n fuel 0 0 _
      (fun k hk => h k (List.mem_append_left _ hk))]
    simp only [emit_dsim]
    cases hl : dsim_long_data_wr_loop E data0 n fuel 0 0
      (((w0.emit (.INIT_COMPLETION .dsim_wr_comp)).emit (.INIT_COMPLETION .dsim_ph_wr_comp)).emit
        (.dsim_reg_clear_int w0.dsim.id
          (K.DSIM_INTSRC_SFR_PL_FIFO_EMPTY ||| K.DSIM_INTSRC_SFR_PH_FIFO_EMPTY))) with
    | none => rfl
    | some w2 =>
      have hc := loop_counters E data0 n fuel 0 0 _ w2 hl
      have hd := loop_reads_done E data0 n fuel 0 0
        (((w0.emit (.INIT_COMPLETION .dsim_wr_comp)).emit (.INIT_COMPLETION .dsim_ph_wr_comp)).emit
          (.dsim_reg_clear_int w0.dsim.id
            (K.DSIM_INTSRC_SFR_PL_FIFO_EMPTY ||| K.DSIM_INTSRC_SFR_PH_FIFO_EMPTY)))
      rw [hl] at hd
      refine congrArg some (long_header_mem_congr K E m w2 d data0 n (fun ht => ?_))
      have ht' : fifo_wait_times_out E w.n_wait w.n_mask := by
        rw [hc.1, hc.2] at ht
        simp only [emit_n_wait, emit_n_mask] at ht
        rw [c1, c2] at ht
        exact ht
      exact h 0 (List.mem_append_right _ (by rw [if_pos ⟨hd, ht'⟩]; simp))

/-- A long write on a ready link gives the same result in two memories that agree at the
offsets of `dsim_write_data_long_reads`. -/
theorem write_data_mem_congr (K : Consts) (E : Env) (m : Nat → Nat) (fuel : Nat) (w : World)
    (d data0 n : Nat) (hK : K.WF) (hd : d ∈ K.long_write_ids)
    (h : ∀ k ∈ dsim_write_data_long_reads E fuel w n, m (data0 + k) = E.mem (data0 + k)) :
    dsim_write_data K { E with mem := m } fuel w d data0 n =
      dsim_write_data K E fuel w d data0 n := by
  obtain ⟨w1, hw1⟩ : ∃ w1 : World, w1 = dsim_enable_interrupts K
    ((if E.decon_int_drvdata = true then w.emit .decon_lpd_block_exit else w).emit
      (.mutex_lock .dsim_rd_wr_mutex)) := ⟨_, rfl⟩
  have c1 : w1.n_wait = w.n_wait := by
    rw [hw1, (enable_counters K _).1]; split_ifs <;> rfl
  have c2 : w1.n_mask = w.n_mask := by
    rw [hw1, (enable_counters K _).2]; split_ifs <;> rfl
  have hl := long_mem_congr K E m fuel w w1 d data0 n c1 c2 h
  rw [← switch_long K _ fuel w1 d data0 n hK hd, ← switch_long K E fuel w1 d data0 n hK hd,
    hw1] at hl
  unfold dsim_write_data
  dsimp only
  by_cases hst : ((if E.decon_int_drvdata = true then w.emit .decon_lpd_block_exit else w).emit
      (.mutex_lock .dsim_rd_wr_mutex)).dsim.state ≠ .DSIM_STATE_HSCLKEN
  · simp only [if_pos hst]
    rfl
  · simp only [if_neg hst]
    rw [hl]
    rfl

/-- While the counter does not wrap, the loop of `dsim_long_data_wr` does not end within fewer
tests than it has passes left plus one. -/
theorem dsim_long_data_wr_loop_short (E : Env) (data0 n : Nat) (hn : n + 3 < 2 ^ 32) :
    ∀ (fuel r i p : Nat) (w : World), i + r = (n + 3) / 4 → fuel ≤ r →
      dsim_long_data_wr_loop E data0 n fuel (4 * i) p w = none := by
  intro fuel
  induction fuel with
  | zero => intro r i p w _ _; rfl
  | succ f ih =>
    intro r i p w hi hf
    have h4 : 4 * i < n := by omega
    have hw : u32 (4 * i + 4) = 4 * (i + 1) := by
      unfold u32; rw [Nat.mod_eq_of_lt (by omega)]; ring
    rw [dsim_long_data_wr_loop]
    simp only [h4, if_true, hw]
    split_ifs <;> exact ih (r - 1) (i + 1) _ _ (by omega) (by omega)

theorem enable_quiet (K : Consts) (w : World) :
    Emits Event.notRxErrLine w (dsim_enable_interrupts K w) := by
  unfold dsim_enable_interrupts
  dsimp only
  split_ifs
  · exact Emits.one _ _ rfl
  · exact Emits.none _ _
  · exact ((Emits.one w _ rfl).of_trace rfl |>.andThen
      ((Emits.one _ _ rfl).andThen (Emits.one _ _ rfl)))
  · exact ((Emits.one w _ rfl).of_trace rfl |>.andThen (Emits.one _ _ rfl))

theorem wait_quiet (K : Consts) (E : Env) (w : World) (id : Nat) :
    Emits Event.notRxErrLine w (dsim_wait_for_cmd_fifo_empty K E w id).2 := by
  have c : ∀ (w0 : World) (c : Completion),
      Emits Event.notRxErrLine w0 (wait_for_completion_timeout E w0 c).2 :=
    fun w0 _ => (Emits.one w0 _ rfl).of_trace rfl
  have m : ∀ (w0 : World) (r : Reg) (k : Nat),
      Emits Event.notRxErrLine w0 (dsim_read_mask E w0 r k).2 :=
    fun w0 _ _ => (Emits.one w0 _ rfl).of_trace rfl
  unfold dsim_wait_for_cmd_fifo_empty
  dsimp only
  split_ifs
  all_goals
    first
    | exact Emits.none _ _
    | exact c w _
    | exact (c w _).andThen (m _ _ _)
    | exact (c w _).andThen ((m _ _ _).andThen
        ((Emits.one _ _ rfl).andThen (Emits.one _ _ rfl)))

theorem header_quiet (K : Consts) (E : Env) (w : World) (d a b : Nat) :
    Emits Event.notRxErrLine w (dsim_write_data_header K E w d a b).2 := by
  have s4 := (((Emits.one w (.INIT_COMPLETION .dsim_ph_wr_comp) (P := Event.notRxErrLine)
    rfl).andThen
    (Emits.one _ (.dsim_reg_clear_int w.dsim.id K.DSIM_INTSRC_SFR_PH_FIFO_EMPTY) rfl)).andThen
    (Emits.one _ (.dsim_reg_wr_tx_header w.dsim.id d a b) rfl)).andThen (wait_quiet K E _ 0)
  unfold dsim_write_data_header
  dsimp only
  split_ifs
  · exact s4.andThen (Emits.one _ _ rfl)
  · exact s4

theorem long_header_quiet (K : Consts) (E : Env) (w : World) (d data0 n : Nat) :
    Emits Event.notRxErrLine w (dsim_write_data_long_header K E w d data0 n).2 := by
  have s2 := (Emits.one w (.dsim_reg_wr_tx_header w.dsim.id d (n &&& 0xff)
    ((n &&& 0xff00) >>> 8)) (P := Event.notRxErrLine) rfl).andThen (wait_quiet K E _ 1)
  have s3 := s2.andThen (wait_quiet K E _ 0)
  unfold dsim_write_data_long_header
  dsimp only
  split_ifs
  · exact s2.andThen (Emits.one _ _ rfl)
  · exact s3.andThen (Emits.one _ _ rfl)
  · exact s3

theorem loop_quiet (E : Env) (data0 data1 : Nat) :
    ∀ (fuel c p : Nat) (w w' : World),
      dsim_long_data_wr_loop E data0 data1 fuel c p w = some w' →
        Emits Event.notRxErrLine w w' := by
  intro fuel
  induction fuel with
  | zero => intro c p w w' h; simp [dsim_long_data_wr_loop] at h
  | succ n ih =>
    intro c p w w' h
    unfold dsim_long_data_wr_loop at h
    dsimp only at h
    split_ifs at h
    all_goals
      first
      | exact (Emits.one w _ rfl).andThen (ih _ _ _ _ h)
      | (injection h with h; subst h; exact Emits.none _ _)

theorem long_quiet (K : Consts) (E : Env) (fuel : Nat) (w : World) (d data0 n : Nat)
    (r : Int) (w' : World) (h : dsim_write_data_long K E fuel w d data0 n = some (r, w')) :
    Emits Event.notRxErrLine w w' := by
  have s3 : Emits Event.notRxErrLine w (((w.emit (.INIT_COMPLETION .dsim_wr_comp)).emit
      (.INIT_COMPLETION .dsim_ph_wr_comp)).emit (.dsim_reg_clear_int w.dsim.id
        (K.DSIM_INTSRC_SFR_PL_FIFO_EMPTY ||| K.DSIM_INTSRC_SFR_PH_FIFO_EMPTY))) :=
    ((Emits.one w _ rfl).andThen (Emits.one _ _ rfl)).andThen (Emits.one _ _ rfl)
  unfold dsim_write_data_long at h
  dsimp only at h
  by_cases h4 : n < 4
  · rw [if_pos h4] at h
    dsimp only at h
    injection h with h
    have h2 := congrArg Prod.snd h
    dsimp only at h2
    rw [← h2]
    exact (s3.andThen (Emits.one _ (.dsim_reg_wr_tx_payload w.dsim.id
      (u32 (rd8 E data0 ||| rd8 E (data0 + 1) <<< 8 ||| rd8 E (data0 + 2) <<< 16))) rfl)).andThen
      (long_header_quiet K E _ d data0 n)
  · rw [if_neg h4] at h
    split at h
    · exact absurd h (by simp)
    · rename_i w1 hl
      injection h with h
      have h2 := congrArg Prod.snd h
      dsimp only at h2
      rw [← h2]
      exact (s3.andThen (loop_quiet E data0 n fuel 0 0 _ w1 hl)).andThen
        (long_header_quiet K E _ d data0 n)

theorem switch_quiet (K : Consts) (E : Env) (fuel : Nat) (w : World) (d a b : Nat)
    (r : Int) (w' : World) (h : dsim_write_data_switch K E fuel w d a b = some (r, w')) :
    Emits Event.notRxErrLine w w' := by
  unfold dsim_write_data_switch at h
  split_ifs at h
  all_goals
    first
    | exact long_quiet K E fuel w d a b r w' h
    | (injection h with h
       have h2 := congrArg Prod.snd h
       dsimp only at h2
       rw [← h2]
       first
       | exact header_quiet K E w d a b
       | exact Emits.none _ _
       | exact Emits.one _ _ rfl)

/-- No call of `dsim_write_data` is a line of `dsim_rx_err_handler`. -/
theorem write_data_quiet (K : Consts) (E : Env) (fuel : Nat) (w : World) (d a b : Nat)
    (ret : Int) (w' : World) (h : dsim_write_data K E fuel w d a b = some (ret, w')) :
    Emits Event.notRxErrLine w w' := by
  have hq : ∀ e, Event.isIrqGate e = true → Event.notRxErrLine e = true := by
    intro e; cases e <;> simp [Event.isIrqGate, Event.notRxErrLine, Event.isRxErrLine]
    rename_i l; cases l <;> simp
  have hb : ∀ w0 : World, Emits Event.notRxErrLine w0
      (if E.decon_int_drvdata = true then w0.emit .decon_lpd_block_exit else w0) := by
    intro w0; split_ifs
    · exact Emits.one _ _ rfl
    · exact Emits.none _ _
  have hx : ∀ (w0 : World) (r : Int),
      Emits Event.notRxErrLine w0 (dsim_write_data_err_exit E w0 r).2 := by
    intro w0 r
    unfold dsim_write_data_err_exit
    dsimp only
    split_ifs
    · exact (Emits.one _ _ rfl).andThen (Emits.one _ _ rfl)
    · exact Emits.one _ _ rfl
  have hy : ∀ (w0 : World) (r : Int),
      Emits Event.notRxErrLine w0 (dsim_write_data_exit K E w0 r).2 := by
    intro w0 r
    unfold dsim_write_data_exit
    dsimp only
    split_ifs
    · exact ((((((Emits.one w0 _ rfl).andThen (Emits.one _ _ rfl)).andThen
        (Emits.one _ _ rfl)).andThen (Emits.one _ _ rfl)).andThen (Emits.one _ _ rfl)).andThen
        (Emits.one _ _ rfl)).andThen (((disable_gate K _).weaken hq).andThen (hx _ _))
    · exact ((disable_gate K _).weaken hq).andThen (hx _ _)
  obtain ⟨w0, hw0, h0⟩ : ∃ w0 : World,
      w0 = (if E.decon_int_drvdata = true then w.emit .decon_lpd_block_exit else w).emit
        (.mutex_lock .dsim_rd_wr_mutex) ∧ Emits Event.notRxErrLine w w0 :=
    ⟨_, rfl, (hb w).andThen (Emits.one _ _ rfl)⟩
  unfold dsim_write_data at h
  dsimp only at h
  rw [← hw0] at h
  by_cases hs : w0.dsim.state ≠ .DSIM_STATE_HSCLKEN
  · rw [if_pos hs] at h
    injection h with h
    have h2 := congrArg Prod.snd h
    dsimp only at h2
    rw [← h2]
    exact (h0.andThen (Emits.one w0 (.dev_err .not_ready) rfl)).andThen (hx _ _)
  · rw [if_neg hs] at h
    cases hsw : dsim_write_data_switch K E fuel (dsim_enable_interrupts K w0) d a b with
    | none => rw [hsw] at h; exact absurd h (by simp)
    | some p =>
      obtain ⟨r, w2⟩ := p
      rw [hsw] at h
      dsimp only at h
      injection h with h
      have h2 := congrArg Prod.snd h
      dsimp only at h2
      rw [← h2]
      exact ((h0.andThen (enable_quiet K _)).andThen
        (switch_quiet K E fuel _ d a b r w2 hsw)).andThen (hy _ _)

/-- No call of the request part of `dsim_read_data` is a line of `dsim_rx_err_handler`. -/
theorem request_quiet (K : Consts) (E : Env) (fuel : Nat) (w : World)
    (data_id addr count : Nat) (w1 : World)
    (h : dsim_read_data_request K E fuel w data_id addr count = some w1) :
    Emits Event.notRxErrLine w w1 := by
  unfold dsim_read_data_request at h
  dsimp only at h
  split at h
  · exact absurd h (by simp)
  · rename_i r1 wa h1
    split at h
    · exact absurd h (by simp)
    · rename_i r2 wb h2
      injection h with h
      subst h
      exact (((Emits.one w _ rfl).andThen (enable_quiet K _)).andThen
        (write_data_quiet K E fuel _ _ _ _ r1 wa h1)).andThen
        (write_data_quiet K E fuel _ _ _ _ r2 wb h2)

/-- A read on a ready link whose wait for the RX completion ends in time: up to the decoder no
call is a line of `dsim_rx_err_handler`. -/
theorem read_data_decode_quiet (K : Consts) (E : Env) (fuel : Nat) (w : World)
    (data_id addr count : Nat) (buf : Buf) (hs : w.dsim.state = .DSIM_STATE_HSCLKEN)
    (hw : rx_wait_succeeds K E fuel w data_id addr count = true) :
    ∃ w1 : World,
      dsim_read_data K E fuel w data_id addr count buf =
        some (dsim_read_data_decode K E w1 count buf) ∧
      w1.n_rx = w.n_rx ∧ w1.dsim.id = w.dsim.id ∧ Emits Event.notRxErrLine w w1 := by
  obtain ⟨w0, hw0, hd0, hq0⟩ : ∃ w0 : World,
      w0 = (if E.decon_int_drvdata = true then w.emit .decon_lpd_block_exit else w) ∧
      w0.dsim = w.dsim ∧ Emits Event.notRxErrLine w w0 := by
    refine ⟨_, rfl, ?_, ?_⟩
    · split_ifs <;> rfl
    · split_ifs
      · exact Emits.one _ _ rfl
      · exact Emits.none _ _
  obtain ⟨wr, l, e1, s1⟩ := read_request_some K E fuel w0 data_id addr count (hd0 ▸ hs)
  have hq := request_quiet K E fuel w0 data_id addr count wr e1
  have hst : ¬ w0.dsim.state ≠ .DSIM_STATE_HSCLKEN := by
    rw [hd0, hs]; exact fun h => h rfl
  have hc : E.completion wr.n_wait = true := by
    unfold rx_wait_succeeds dsim_read_data_before_wait at hw
    rw [← hw0, e1] at hw
    exact hw
  have hn0 : w0.n_rx = w.n_rx := by rw [hw0]; split_ifs <;> rfl
  refine ⟨(wait_for_completion_timeout E wr .dsim_rd_comp).2, ?_, ?_, ?_, ?_⟩
  · unfold dsim_read_data
    dsimp only
    rw [← hw0, if_neg hst, e1]
    dsimp only
    have hd : (wait_for_completion_timeout E wr .dsim_rd_comp).1 = true := hc
    rw [hd]
    rfl
  · exact s1.n_rx.trans hn0
  · show wr.dsim.id = _
    rw [s1.id, hd0]
  · exact (hq0.andThen hq).andThen
      ((Emits.one wr (.wait_for_completion_timeout .dsim_rd_comp) rfl).of_trace rfl)

theorem filter_rx_err_map (l : List RxErr) :
    (l.map (fun e => Event.dev_err (.rx_err e))).filter Event.isRxErrLine =
      l.map (fun e => Event.dev_err (.rx_err e)) := by
  rw [List.filter_eq_self]
  intro e he
  obtain ⟨x, _, rfl⟩ := List.mem_map.1 he
  rfl

theorem filter_rx_err_of_quiet (t : List Event) (h : ∀ e ∈ t, Event.notRxErrLine e = true) :
    t.filter Event.isRxErrLine = [] := by
  rw [List.filter_eq_nil_iff]
  intro e he
  have := h e he
  unfold Event.notRxErrLine at this
  simpa using this

/-- A read on a ready link whose wait for the RX completion ends in time and whose first RX
FIFO word has the acknowledge-and-error-report code: the result is `-EPERM`, the buffer is as
before, and the lines of `dsim_rx_err_handler` among the calls of the read are exactly the
flags of that word, in the order of the bits, right after the read of the RX FIFO. -/
theorem read_data_ack_lines (K : Consts) (E : Env) (fuel : Nat) (w : World)
    (data_id addr count : Nat) (buf : Buf) (hs : w.dsim.state = .DSIM_STATE_HSCLKEN)
    (hwait : rx_wait_succeeds K E fuel w data_id addr count = true)
    (hx : u32 (E.rxfifo w.n_rx) &&& 0xff = K.MIPI_DSI_RX_ACKNOWLEDGE_AND_ERROR_REPORT) :
    ∃ (w' : World) (t t0 : List Event),
      dsim_read_data K E fuel w data_id addr count buf = some (-(K.EPERM : Int), w', buf) ∧
      w'.trace = w.trace ++ t ∧
      t = t0 ++ ([Event.readl .DSIM_RXFIFO] ++
        (rx_err_flags (u32 (E.rxfifo w.n_rx))).map (fun e => Event.dev_err (.rx_err e)) ++
        (rx_error_pulse w.dsim.id ++ ([Event.mutex_unlock .dsim_rd_wr_mutex] ++
          (if E.decon_int_drvdata then [Event.decon_lpd_unblock] else [])))) ∧
      t0.filter Event.isRxErrLine = [] ∧
      t.filter Event.isRxErrLine =
        (rx_err_flags (u32 (E.rxfifo w.n_rx))).map (fun e => Event.dev_err (.rx_err e)) := by
  obtain ⟨w1, e1, n1, i1, tq, htq, pq⟩ :=
    read_data_decode_quiet K E fuel w data_id addr count buf hs hwait
  rw [← n1] at hx
  obtain ⟨d1, d2⟩ := decode_ack K E w1 count buf hx
  obtain ⟨_, dt⟩ := decode_trace K E w1 count buf
  obtain ⟨tdis, htd, ptd⟩ := disable_gate K w1
  have hg : ∀ e ∈ tdis, Event.notRxErrLine e = true := by
    intro e he
    have := ptd e he
    revert this
    cases e <;> simp [Event.isIrqGate, Event.notRxErrLine, Event.isRxErrLine]
    rename_i l; cases l <;> simp
  have hev : decode_events K E w1 count = [Event.readl .DSIM_RXFIFO] ++
      (rx_err_flags (u32 (E.rxfifo w1.n_rx))).map (fun e => Event.dev_err (.rx_err e)) ++
      rx_error_pulse w.dsim.id := by
    unfold decode_events
    dsimp only
    rw [if_pos hx, i1]
  rw [hev, htd, htq, n1] at dt
  have h0 : (tq ++ tdis ++ [Event.mutex_lock .dsim_rd_wr_mutex]).filter Event.isRxErrLine =
      [] := by
    simp only [List.filter_append, filter_rx_err_of_quiet tq pq, filter_rx_err_of_quiet tdis hg]
    rfl
  refine ⟨(dsim_read_data_decode K E w1 count buf).2.1, _,
    tq ++ tdis ++ [Event.mutex_lock .dsim_rd_wr_mutex], ?_, ?_, rfl, h0, ?_⟩
  · rw [e1]
    exact congrArg some (Prod.ext d1 (Prod.ext rfl d2))
  · rw [dt]
    simp only [List.append_assoc]
  · rw [List.filter_append, h0, List.filter_append, List.filter_append, filter_rx_err_map]
    cases E.decon_int_drvdata <;> simp [Event.isRxErrLine, rx_error_pulse]

/-! ## The claims -/

/-- C1: on a link whose state is not `DSIM_STATE_HSCLKEN`, `dsim_write_data` and
`dsim_read_data` both return `-EINVAL`; the calls they record contain no call of the register
interface (no FIFO write, no interrupt mask or clear, no RX FIFO read), and the link (state,
`irq_refcount`, every counter) and the output buffer are unchanged. -/
theorem C1_not_ready_returns_EINVAL (K : Consts) (E : Env) (fuel : Nat) (w : World)
    (data_id data0 data1 addr count : Nat) (buf : Buf)
    (h : w.dsim.state ≠ .DSIM_STATE_HSCLKEN) :
    (∃ t, dsim_write_data K E fuel w data_id data0 data1 =
        some (-(K.EINVAL : Int), { w with trace := w.trace ++ t }) ∧ regTrace t = []) ∧
    (∃ t, dsim_read_data K E fuel w data_id addr count buf =
        some (-(K.EINVAL : Int), { w with trace := w.trace ++ t }, buf) ∧ regTrace t = []) := by
  constructor
  · cases hd : E.decon_int_drvdata
    · refine ⟨[.mutex_lock .dsim_rd_wr_mutex, .dev_err .not_ready,
        .mutex_unlock .dsim_rd_wr_mutex], ?_, ?_⟩
      · simp [dsim_write_data, hd, h, dsim_write_data_err_exit, World.emit]
      · simp [regTrace, Event.isReg]
    · refine ⟨[.decon_lpd_block_exit, .mutex_lock .dsim_rd_wr_mutex, .dev_err .not_ready,
        .mutex_unlock .dsim_rd_wr_mutex, .decon_lpd_unblock], ?_, ?_⟩
      · simp [dsim_write_data, hd, h, dsim_write_data_err_exit, World.emit]
      · simp [regTrace, Event.isReg]
  · cases hd : E.decon_int_drvdata
    · refine ⟨[.dev_err .not_ready], ?_, ?_⟩
      · simp [dsim_read_data, hd, h, World.emit]
      · simp [regTrace, Event.isReg]
    · refine ⟨[.decon_lpd_block_exit, .dev_err .not_ready, .decon_lpd_unblock], ?_, ?_⟩
      · simp [dsim_read_data, hd, h, World.emit]
      · simp [regTrace, Event.isReg]

/-- C1 at a suspended link, for a DCS short write and a DCS read. -/
theorem C1_not_ready_returns_EINVAL_witness :
    suspended_link.dsim.state ≠ .DSIM_STATE_HSCLKEN ∧
    ((∃ t, dsim_write_data linux (sample_env []) 0 suspended_link 0x05 0x11 0 =
        some (-(linux.EINVAL : Int), { suspended_link with trace := suspended_link.trace ++ t }) ∧
        regTrace t = []) ∧
    (∃ t, dsim_read_data linux (sample_env []) 0 suspended_link 0x06 0x0a 4 (fun _ => 0) =
        some (-(linux.EINVAL : Int), { suspended_link with trace := suspended_link.trace ++ t },
          fun _ => 0) ∧ regTrace t = [])) :=
  ⟨by decide, C1_not_ready_returns_EINVAL linux (sample_env []) 0 suspended_link 0x05 0x11 0
    0x0a 4 (fun _ => 0) (by decide)⟩

/-- C2: on a ready link a long write (generic or DCS) of `n <= 2^32 - 4` bytes returns; it
issues `ceil(n/4)` payload FIFO word writes when `n >= 4` and one when `n < 4` (`n = 0`
included), then one header write whose two data bytes are `n & 0xff` and `(n >> 8) & 0xff`; the
FIFO writes are the payload writes followed by the header write, so no payload write follows
the header write.  For the three lengths above, `2^32 - 3` to `2^32 - 1`, the call does not
return, whatever bound is put on the loop: the `unsigned int` counter `data_cnt` of
`dsim_long_data_wr` goes from `0xFFFFFFFC` back to `0`, so `data_cnt < data1` holds forever and
the header write is never reached. -/
theorem C2_long_write_chunks (K : Consts) (E : Env) (w : World)
    (data_id data0 n : Nat) (hK : K.WF) (hs : w.dsim.state = .DSIM_STATE_HSCLKEN)
    (hd : data_id ∈ K.long_write_ids) :
    (n + 3 < 2 ^ 32 → ∀ fuel, (n + 3) / 4 < fuel →
      ∃ ret w' t, dsim_write_data K E fuel w data_id data0 n = some (ret, w') ∧
        w'.trace = w.trace ++ t ∧
        (t.filter Event.isPayloadWrite).length = (if n < 4 then 1 else (n + 3) / 4) ∧
        t.filter Event.isHeaderWrite =
          [Event.dsim_reg_wr_tx_header w.dsim.id data_id (n &&& 0xff) ((n >>> 8) &&& 0xff)] ∧
        t.filter Event.isFifoWrite =
          t.filter Event.isPayloadWrite ++ t.filter Event.isHeaderWrite) ∧
    (2 ^ 32 ≤ n + 3 → ∀ fuel, dsim_write_data K E fuel w data_id data0 n = none) := by
  refine ⟨fun hn fuel hf => ?_, fun hn fuel =>
    dsim_write_data_long_none K E fuel w data_id data0 n hK hs hd (by omega)⟩
  obtain ⟨ret, w', t, hr, ht, hfil⟩ :=
    dsim_write_data_long_fifo K E fuel w data_id data0 n hK hs hd hn hf
  have hp : t.filter Event.isPayloadWrite =
      (long_write_words E data0 n).map (Event.dsim_reg_wr_tx_payload w.dsim.id) := by
    rw [filter_payload_of_fifo, hfil, List.filter_append, filter_isPayload_map]
    simp [Event.isPayloadWrite]
  have hh : t.filter Event.isHeaderWrite =
      [Event.dsim_reg_wr_tx_header w.dsim.id data_id (n &&& 0xff) ((n >>> 8) &&& 0xff)] := by
    rw [filter_header_of_fifo, hfil, List.filter_append, filter_isHeader_map]
    simp [Event.isHeaderWrite]
  refine ⟨ret, w', t, hr, ht, ?_, hh, ?_⟩
  · rw [hp, List.length_map, long_write_words_length]
  · rw [hp, hh, hfil]

/-- C2 at a DCS long write of 261 bytes (66 payload words, header bytes 5 and 1) and at the
length `0xFFFFFFFF`, for which the call returns within no bound. -/
theorem C2_long_write_chunks_witness :
    linux.WF ∧ ready_link.dsim.state = .DSIM_STATE_HSCLKEN ∧
    linux.MIPI_DSI_DCS_LONG_WRITE ∈ linux.long_write_ids ∧ 261 + 3 < 2 ^ 32 ∧
    (261 + 3) / 4 < 67 ∧
    (∃ ret w' t, dsim_write_data linux (sample_env []) 67 ready_link
        linux.MIPI_DSI_DCS_LONG_WRITE 0 261 = some (ret, w') ∧
      w'.trace = ready_link.trace ++ t ∧
      (t.filter Event.isPayloadWrite).length = (if 261 < 4 then 1 else (261 + 3) / 4) ∧
      t.filter Event.isHeaderWrite =
        [Event.dsim_reg_wr_tx_header ready_link.dsim.id linux.MIPI_DSI_DCS_LONG_WRITE
          (261 &&& 0xff) ((261 >>> 8) &&& 0xff)] ∧
      t.filter Event.isFifoWrite =
        t.filter Event.isPayloadWrite ++ t.filter Event.isHeaderWrite) ∧
    ¬ ∃ fuel : Nat, dsim_write_data linux (sample_env []) fuel ready_link
      linux.MIPI_DSI_DCS_LONG_WRITE 0 0xFFFFFFFF ≠ none :=
  ⟨by decide, rfl, by decide, by decide, by decide,
    (C2_long_write_chunks linux (sample_env []) ready_link linux.MIPI_DSI_DCS_LONG_WRITE 0 261
      (by decide) rfl (by decide)).1 (by decide) 67 (by decide),
    fun ⟨fuel, h⟩ => h ((C2_long_write_chunks linux (sample_env []) ready_link
      linux.MIPI_DSI_DCS_LONG_WRITE 0 0xFFFFFFFF (by decide) rfl (by decide)).2
      (by norm_num) fuel)⟩

/-- C3 (as stated, refuted): a DCS long write of the one byte payload `b[0] = 0xAB`, stored in
a memory whose following bytes are `0xAB` too, writes the payload word `0xABABAB`, while the
little-endian packing of `b[0..1)` is `0xAB`: the two bytes after the payload are in the word. -/
theorem C3_counterexample :
    (dsim_write_data linux (sample_env []) 1 ready_link linux.MIPI_DSI_DCS_LONG_WRITE 0 1).map
        (fun r => r.2.trace.filter Event.isPayloadWrite) =
      some [Event.dsim_reg_wr_tx_payload 0 0xABABAB] ∧
    spec_payload_word (payload_byte (sample_env []) 0) 1 0 = 0xAB := by
  decide

/-- C3 (amended): on a ready link a long write of `n <= 2^32 - 4` bytes at `data0` returns.
For `n >= 3` its payload FIFO writes are, in order, the words `k < ceil(n/4)`, word `k` being
the little-endian packing of the payload bytes it covers (unused high bytes zero, no byte
outside the payload).  For `n < 3` it is the single word packed from the three bytes at
`data0`, `data0 + 1`, `data0 + 2`, whatever `n` is. -/
theorem C3_payload_words (K : Consts) (E : Env) (fuel : Nat) (w : World)
    (data_id data0 n : Nat) (hK : K.WF) (hs : w.dsim.state = .DSIM_STATE_HSCLKEN)
    (hd : data_id ∈ K.long_write_ids) (hn : n + 3 < 2 ^ 32) (hf : (n + 3) / 4 < fuel) :
    ∃ ret w' t, dsim_write_data K E fuel w data_id data0 n = some (ret, w') ∧
      w'.trace = w.trace ++ t ∧
      t.filter Event.isPayloadWrite =
        (if n < 3 then
          [rd8 E data0 + rd8 E (data0 + 1) <<< 8 + rd8 E (data0 + 2) <<< 16]
        else
          (List.range ((n + 3) / 4)).map (spec_payload_word (payload_byte E data0) n)).map
        (Event.dsim_reg_wr_tx_payload w.dsim.id) := by
  obtain ⟨ret, w', t, hr, ht, hfil⟩ :=
    dsim_write_data_long_fifo K E fuel w data_id data0 n hK hs hd hn hf
  refine ⟨ret, w', t, hr, ht, ?_⟩
  have hw : long_write_words E data0 n = (if n < 3 then
      [rd8 E data0 + rd8 E (data0 + 1) <<< 8 + rd8 E (data0 + 2) <<< 16]
      else (List.range ((n + 3) / 4)).map (spec_payload_word (payload_byte E data0) n)) := by
    unfold long_write_words
    by_cases h3 : n < 3
    · rw [if_pos (by omega), if_pos h3]
      simp [spec_payload_word, payload_byte, Finset.sum_range_succ]
    · by_cases h4 : n < 4
      · have e3 : n = 3 := by omega
        subst e3
        rfl
      · rw [if_neg h4, if_neg h3]
  rw [filter_payload_of_fifo, hfil, List.filter_append, filter_isPayload_map, hw]
  simp [Event.isPayloadWrite]

/-- C3 (amended) at a five byte DCS long write. -/
theorem C3_payload_words_witness :
    linux.WF ∧ ready_link.dsim.state = .DSIM_STATE_HSCLKEN ∧
    linux.MIPI_DSI_DCS_LONG_WRITE ∈ linux.long_write_ids ∧ 5 + 3 < 2 ^ 32 ∧
    (5 + 3) / 4 < 3 ∧
    ∃ ret w' t, dsim_write_data linux (sample_env []) 3 ready_link
        linux.MIPI_DSI_DCS_LONG_WRITE 0 5 = some (ret, w') ∧
      w'.trace = ready_link.trace ++ t ∧
      t.filter Event.isPayloadWrite =
        (if 5 < 3 then
          [rd8 (sample_env []) 0 + rd8 (sample_env []) (0 + 1) <<< 8 +
            rd8 (sample_env []) (0 + 2) <<< 16]
        else
          (List.range ((5 + 3) / 4)).map
            (spec_payload_word (payload_byte (sample_env []) 0) 5)).map
        (Event.dsim_reg_wr_tx_payload ready_link.dsim.id) :=
  ⟨by decide, rfl, by decide, by decide, by decide,
    C3_payload_words linux (sample_env []) 3 ready_link linux.MIPI_DSI_DCS_LONG_WRITE 0 5
      (by decide) rfl (by decide) (by decide) (by decide)⟩

/-- C4: on a ready link a write with a short-write data id issues exactly one header FIFO
write, carrying `(data_id, data0, data1)` as given, and no payload FIFO write, whatever the
environment answers to the wait that follows. -/
theorem C4_short_write_one_header (K : Consts) (E : Env) (fuel : Nat) (w : World)
    (data_id data0 data1 : Nat) (hs : w.dsim.state = .DSIM_STATE_HSCLKEN)
    (hd : data_id ∈ K.short_write_ids) :
    ∃ ret w' t, dsim_write_data K E fuel w data_id data0 data1 = some (ret, w') ∧
      w'.trace = w.trace ++ t ∧
      t.filter Event.isHeaderWrite =
        [Event.dsim_reg_wr_tx_header w.dsim.id data_id data0 data1] ∧
      t.filter Event.isPayloadWrite = [] ∧
      t.filter Event.isFifoWrite =
        [Event.dsim_reg_wr_tx_header w.dsim.id data_id data0 data1] := by
  obtain ⟨ret, w', hr, hstep⟩ := write_data_fifoStep K E fuel w data_id data0 data1
    [Event.dsim_reg_wr_tx_header w.dsim.id data_id data0 data1] hs
    (fun w1 h1 => ⟨_, _, switch_short K E fuel w1 data_id data0 data1 hd,
      h1 ▸ header_fifoStep K E w1 data_id data0 data1⟩)
  obtain ⟨t, ht, hfil⟩ := hstep.trace
  refine ⟨ret, w', t, hr, ht, ?_, ?_, hfil⟩
  · rw [filter_header_of_fifo, hfil]; rfl
  · rw [filter_payload_of_fifo, hfil]; rfl

/-- C4 at a DCS short write with parameter whose wait times out. -/
theorem C4_short_write_one_header_witness :
    ready_link.dsim.state = .DSIM_STATE_HSCLKEN ∧
    linux.MIPI_DSI_DCS_SHORT_WRITE_PARAM ∈ linux.short_write_ids ∧
    ∃ ret w' t, dsim_write_data linux
        { sample_env [] with completion := fun _ => false } 0 ready_link
        linux.MIPI_DSI_DCS_SHORT_WRITE_PARAM 0x51 0xff = some (ret, w') ∧
      w'.trace = ready_link.trace ++ t ∧
      t.filter Event.isHeaderWrite =
        [Event.dsim_reg_wr_tx_header ready_link.dsim.id
          linux.MIPI_DSI_DCS_SHORT_WRITE_PARAM 0x51 0xff] ∧
      t.filter Event.isPayloadWrite = [] ∧
      t.filter Event.isFifoWrite =
        [Event.dsim_reg_wr_tx_header ready_link.dsim.id
          linux.MIPI_DSI_DCS_SHORT_WRITE_PARAM 0x51 0xff] :=
  ⟨rfl, by decide, C4_short_write_one_header linux
    { sample_env [] with completion := fun _ => false } 0 ready_link
    linux.MIPI_DSI_DCS_SHORT_WRITE_PARAM 0x51 0xff rfl (by decide)⟩

/-- C5: round trip for `n` in `{0,1,2,3,4,5,8,17}`.  The payload FIFO words that a long write
of the `n` bytes at `data0` produces on a ready link are placed in an RX FIFO after a first
word whose low byte is a long read response code and whose bits `[8:24)` are `n`; then a read
with requested length `count >= n` whose RX wait ends in time returns `n` and leaves
`buf[0..n)` equal to the `n` payload bytes. -/
theorem C5_long_write_read_roundtrip (K : Consts) (Ew Er : Env) (fuel : Nat) (w wr : World)
    (wid rid data0 addr count n : Nat) (buf : Buf) (hK : K.WF)
    (hn : n ∈ [0, 1, 2, 3, 4, 5, 8, 17]) (hf : (n + 3) / 4 < fuel)
    (hws : w.dsim.state = .DSIM_STATE_HSCLKEN) (hwid : wid ∈ K.long_write_ids)
    (hrs : wr.dsim.state = .DSIM_STATE_HSCLKEN)
    (hwait : rx_wait_succeeds K Er fuel wr rid addr count = true)
    (hcode : u32 (Er.rxfifo wr.n_rx) &&& 0xff ∈ K.rx_long_ids)
    (hsize : (u32 (Er.rxfifo wr.n_rx) &&& 0x00ffff00) >>> 8 = n)
    (hstream : ∀ i, i < (encoded_words K Ew fuel w wid data0 n).length →
      Er.rxfifo (wr.n_rx + 1 + i) = (encoded_words K Ew fuel w wid data0 n).getD i 0)
    (hcount : n ≤ count) :
    ∃ w' buf', dsim_read_data K Er fuel wr rid addr count buf = some ((n : Int), w', buf') ∧
      ∀ k, k < n → buf' k = payload_byte Ew data0 k :=
  long_write_read_roundtrip K Ew Er fuel w wr wid rid data0 addr count n buf hK
    (by simp only [List.mem_cons, List.mem_singleton, List.not_mem_nil, or_false] at hn; omega)
    hf hws hwid hrs hwait hcode hsize hstream hcount

/-- C5 at `n = 5`: the bytes `1, 2, 3, 4, 5` are written as the words `0x04030201`, `0x05` and
read back from the RX FIFO `0x051c, 0x04030201, 0x05`. -/
theorem C5_long_write_read_roundtrip_witness :
    linux.WF ∧ 5 ∈ [0, 1, 2, 3, 4, 5, 8, 17] ∧ (5 + 3) / 4 < 3 ∧
    ready_link.dsim.state = .DSIM_STATE_HSCLKEN ∧
    linux.MIPI_DSI_DCS_LONG_WRITE ∈ linux.long_write_ids ∧
    rx_wait_succeeds linux (sample_env [0x051c, 0x04030201, 0x05]) 3 ready_link
      linux.MIPI_DSI_DCS_READ 0x0a 8 = true ∧
    encoded_words linux (counting_env []) 3 ready_link linux.MIPI_DSI_DCS_LONG_WRITE 0 5 =
      [0x04030201, 0x05] ∧
    ∃ w' buf', dsim_read_data linux (sample_env [0x051c, 0x04030201, 0x05]) 3 ready_link
        linux.MIPI_DSI_DCS_READ 0x0a 8 (fun _ => 0) = some ((5 : Int), w', buf') ∧
      ∀ k, k < 5 → buf' k = payload_byte (counting_env []) 0 k :=
  ⟨by decide, by decide, by decide, rfl, by decide, by decide, by decide,
    C5_long_write_read_roundtrip linux (counting_env []) (sample_env [0x051c, 0x04030201, 0x05])
      3 ready_link ready_link linux.MIPI_DSI_DCS_LONG_WRITE linux.MIPI_DSI_DCS_READ 0 0x0a 8 5
      (fun _ => 0) (by decide) (by decide) (by decide) rfl (by decide) rfl (by decide)
      (by decide) (by decide) (by decide) (by decide)⟩

/-- C6: a read on a ready link whose RX wait ends in time and whose first RX FIFO word is a
long response declaring `s` bytes (bits `[8:24)`) returns `min s count`, stores in `buf[k]`
byte `k % 4` of payload word `k / 4` for every `k < min s count`, and leaves every other
buffer position as it was. -/
theorem C6_long_response_clamped (K : Consts) (E : Env) (fuel : Nat) (w : World)
    (data_id addr count : Nat) (buf : Buf) (hK : K.WF)
    (hs : w.dsim.state = .DSIM_STATE_HSCLKEN)
    (hwait : rx_wait_succeeds K E fuel w data_id addr count = true)
    (hcode : u32 (E.rxfifo w.n_rx) &&& 0xff ∈ K.rx_long_ids) :
    ∃ w' buf', dsim_read_data K E fuel w data_id addr count buf =
        some (((min ((u32 (E.rxfifo w.n_rx) &&& 0x00ffff00) >>> 8) count : Nat) : Int),
          w', buf') ∧
      ∀ k, buf' k =
        if k < min ((u32 (E.rxfifo w.n_rx) &&& 0x00ffff00) >>> 8) count
        then (u32 (E.rxfifo (w.n_rx + 1 + k / 4)) >>> (8 * (k % 4))) % 256 else buf k := by
  obtain ⟨w1, l, s1, e1⟩ := read_data_of_rx_wait K E fuel w data_id addr count buf hs hwait
  have hr : w1.n_rx = w.n_rx := s1.n_rx
  rw [← hr] at hcode
  obtain ⟨d1, d2, _⟩ := decode_long K E w1 count buf hK hcode
  rw [hr] at d1 d2
  exact ⟨(dsim_read_data_decode K E w1 count buf).2.1,
    (dsim_read_data_decode K E w1 count buf).2.2, by rw [e1, ← d1], d2⟩

/-- C6 at a long response that declares 10 bytes, read with `count = 4`: 4 is returned. -/
theorem C6_long_response_clamped_witness :
    linux.WF ∧ ready_link.dsim.state = .DSIM_STATE_HSCLKEN ∧
    rx_wait_succeeds linux (sample_env [0x0a1c, 0x04030201, 0x08070605, 0x0a09]) 0 ready_link
      linux.MIPI_DSI_DCS_READ 0x0a 4 = true ∧
    u32 ((sample_env [0x0a1c, 0x04030201, 0x08070605, 0x0a09]).rxfifo ready_link.n_rx) &&& 0xff ∈
      linux.rx_long_ids ∧
    (u32 ((sample_env [0x0a1c, 0x04030201, 0x08070605, 0x0a09]).rxfifo ready_link.n_rx) &&&
      0x00ffff00) >>> 8 = 10 ∧
    ∃ w' buf', dsim_read_data linux (sample_env [0x0a1c, 0x04030201, 0x08070605, 0x0a09]) 0
        ready_link linux.MIPI_DSI_DCS_READ 0x0a 4 (fun _ => 0) =
        some (((min ((u32 ((sample_env [0x0a1c, 0x04030201, 0x08070605, 0x0a09]).rxfifo
          ready_link.n_rx) &&& 0x00ffff00) >>> 8) 4 : Nat) : Int), w', buf') ∧
      ∀ k, buf' k =
        if k < min ((u32 ((sample_env [0x0a1c, 0x04030201, 0x08070605, 0x0a09]).rxfifo
          ready_link.n_rx) &&& 0x00ffff00) >>> 8) 4
        then (u32 ((sample_env [0x0a1c, 0x04030201, 0x08070605, 0x0a09]).rxfifo
          (ready_link.n_rx + 1 + k / 4)) >>> (8 * (k % 4))) % 256 else (fun _ => 0) k :=
  ⟨by decide, rfl, by decide, by decide, by decide,
    C6_long_response_clamped linux (sample_env [0x0a1c, 0x04030201, 0x08070605, 0x0a09]) 0
      ready_link linux.MIPI_DSI_DCS_READ 0x0a 4 (fun _ => 0) (by decide) rfl (by decide)
      (by decide)⟩

/-- C7 (as stated, refuted): a DCS read with `count = 3` answered by the one byte short
response `0x44332221` returns 3 and stores bits `[8:16)`, `[16:24)` and `[24:32)` of the word
in `buf[0]`, `buf[1]`, `buf[2]`: the returned length exceeds 2 and `buf[2]` is written. -/
theorem C7_counterexample :
    (0x21 : Nat) = linux.MIPI_DSI_RX_DCS_SHORT_READ_RESPONSE_1BYTE ∧
    (dsim_read_data linux (sample_env [0x44332221]) 0 ready_link linux.MIPI_DSI_DCS_READ 0x0a 3
        (fun _ => 0)).map (fun r => (r.1, r.2.2 0, r.2.2 1, r.2.2 2)) =
      some (3, 0x22, 0x33, 0x44) := by
  decide

/-- C7 (amended): a read on a ready link whose RX wait ends in time and whose first RX FIFO
word is a short response returns the requested length `count` (as a C `int`), stores in
`buf[k]`, for `k < count` and `k < 3`, bits `[8 + 8k : 16 + 8k)` of that word, and writes no
buffer position `k >= count`. -/
theorem C7_short_response_copies_count (K : Consts) (E : Env) (fuel : Nat) (w : World)
    (data_id addr count : Nat) (buf : Buf) (hK : K.WF)
    (hs : w.dsim.state = .DSIM_STATE_HSCLKEN)
    (hwait : rx_wait_succeeds K E fuel w data_id addr count = true)
    (hcode : u32 (E.rxfifo w.n_rx) &&& 0xff ∈ K.rx_short_ids) :
    ∃ w' buf', dsim_read_data K E fuel w data_id addr count buf =
        some (toInt32 count, w', buf') ∧
      (∀ k, k < count → k < 3 → buf' k = (u32 (E.rxfifo w.n_rx) >>> (8 + 8 * k)) % 256) ∧
      (∀ k, count ≤ k → buf' k = buf k) := by
  obtain ⟨w1, l, s1, e1⟩ := read_data_of_rx_wait K E fuel w data_id addr count buf hs hwait
  have hr : w1.n_rx = w.n_rx := s1.n_rx
  rw [← hr] at hcode
  obtain ⟨d1, d2⟩ := decode_short K E w1 count buf hK hcode
  rw [hr] at d2
  refine ⟨(dsim_read_data_decode K E w1 count buf).2.1,
    (dsim_read_data_decode K E w1 count buf).2.2, by rw [e1, ← d1], fun k hk _ => ?_,
    fun k hk => ?_⟩
  · rw [d2, short_apply, if_pos hk, and_255, Nat.mul_comm k 8]
  · rw [d2, short_apply, if_neg (by omega)]

/-- C7 (amended) at the one byte short response `0x44332221` read with `count = 3`. -/
theorem C7_short_response_copies_count_witness :
    linux.WF ∧ ready_link.dsim.state = .DSIM_STATE_HSCLKEN ∧
    rx_wait_succeeds linux (sample_env [0x44332221]) 0 ready_link
      linux.MIPI_DSI_DCS_READ 0x0a 3 = true ∧
    u32 ((sample_env [0x44332221]).rxfifo ready_link.n_rx) &&& 0xff ∈ linux.rx_short_ids ∧
    ∃ w' buf', dsim_read_data linux (sample_env [0x44332221]) 0 ready_link
        linux.MIPI_DSI_DCS_READ 0x0a 3 (fun _ => 0) = some (toInt32 3, w', buf') ∧
      (∀ k, k < 3 → k < 3 →
        buf' k = (u32 ((sample_env [0x44332221]).rxfifo ready_link.n_rx) >>> (8 + 8 * k)) % 256) ∧
      (∀ k, 3 ≤ k → buf' k = (fun _ => 0) k) :=
  ⟨by decide, rfl, by decide, by decide,
    C7_short_response_copies_count linux (sample_env [0x44332221]) 0 ready_link
      linux.MIPI_DSI_DCS_READ 0x0a 3 (fun _ => 0) (by decide) rfl (by decide) (by decide)⟩

/-- C8 (as stated, refuted): a first RX FIFO word with low byte `0x08` (end of transmission),
which is none of the acknowledge, short response and long response codes, makes a DCS read
return `0`, a success value. -/
theorem C8_counterexample :
    (0x08 : Nat) ≠ linux.MIPI_DSI_RX_ACKNOWLEDGE_AND_ERROR_REPORT ∧
    (0x08 : Nat) ∉ linux.rx_short_ids ∧ (0x08 : Nat) ∉ linux.rx_long_ids ∧
    (dsim_read_data linux (sample_env [0x08]) 0 ready_link linux.MIPI_DSI_DCS_READ 0x0a 4
        (fun _ => 0)).map (fun r => r.1) = some 0 := by
  decide

/-- C8 (amended): for a read on a ready link whose RX wait ends in time, a first RX FIFO word
whose low byte is none of the codes of the decoder (acknowledge and error report, end of
transmission, short responses, long responses) gives the negative result `-EPERM` and leaves
the buffer; a first word whose low byte is the end-of-transmission code gives `0`. -/
theorem C8_unknown_response_is_error (K : Consts) (E : Env) (fuel : Nat) (w : World)
    (data_id addr count : Nat) (buf : Buf) (hK : K.WF)
    (hs : w.dsim.state = .DSIM_STATE_HSCLKEN)
    (hwait : rx_wait_succeeds K E fuel w data_id addr count = true) :
    (u32 (E.rxfifo w.n_rx) &&& 0xff ∉ K.rx_ids →
      ∃ w', dsim_read_data K E fuel w data_id addr count buf =
        some (-(K.EPERM : Int), w', buf) ∧ -(K.EPERM : Int) < 0) ∧
    (u32 (E.rxfifo w.n_rx) &&& 0xff = K.MIPI_DSI_RX_END_OF_TRANSMISSION →
      ∃ w', dsim_read_data K E fuel w data_id addr count buf = some (0, w', buf)) := by
  obtain ⟨w1, l, s1, e1⟩ := read_data_of_rx_wait K E fuel w data_id addr count buf hs hwait
  have hr : w1.n_rx = w.n_rx := s1.n_rx
  constructor
  · intro hx
    rw [← hr] at hx
    obtain ⟨d1, d2⟩ := decode_unknown K E w1 count buf hx
    exact ⟨(dsim_read_data_decode K E w1 count buf).2.1,
      by rw [e1]; exact congrArg some (Prod.ext d1 (Prod.ext rfl d2)), EPERM_pos K hK⟩
  · intro hx
    rw [← hr] at hx
    obtain ⟨d1, d2⟩ := decode_eot K E w1 count buf hK hx
    exact ⟨(dsim_read_data_decode K E w1 count buf).2.1,
      by rw [e1]; exact congrArg some (Prod.ext d1 (Prod.ext rfl d2))⟩

/-- C8 (amended) at the first words `0x77` (unknown code) and `0x08` (end of transmission). -/
theorem C8_unknown_response_is_error_witness :
    linux.WF ∧ ready_link.dsim.state = .DSIM_STATE_HSCLKEN ∧
    rx_wait_succeeds linux (sample_env [0x77]) 0 ready_link linux.MIPI_DSI_DCS_READ 0x0a 4 =
      true ∧
    u32 ((sample_env [0x77]).rxfifo ready_link.n_rx) &&& 0xff ∉ linux.rx_ids ∧
    ∃ w', dsim_read_data linux (sample_env [0x77]) 0 ready_link linux.MIPI_DSI_DCS_READ 0x0a 4
      (fun _ => 0) = some (-(linux.EPERM : Int), w', fun _ => 0) ∧ -(linux.EPERM : Int) < 0 :=
  ⟨by decide, rfl, by decide, by decide,
    (C8_unknown_response_is_error linux (sample_env [0x77]) 0 ready_link
      linux.MIPI_DSI_DCS_READ 0x0a 4 (fun _ => 0) (by decide) rfl (by decide)).1 (by decide)⟩

/-- C9: an RX word whose low byte is the acknowledge-and-error-report code and whose only
other set bit is bit 13 has the single flag "HS receive timeout error": the handler logs that
line and no other, and a read on a ready link whose RX wait ends in time and that finds this
word first returns `-EPERM`, leaves the buffer, and logs, right after its read of the RX FIFO,
that one line; no other call of the whole read is a line of the handler.  For every word the
handler logs exactly the flags of the word, a flag is among them if and only if its own bit is
set, and a read that finds a word with the acknowledge-and-error-report code first returns
`-EPERM` with exactly the flags of that word as its handler lines. -/
theorem C9_error_report_flags (K : Consts) (E : Env) (fuel : Nat) (w : World)
    (data_id addr count : Nat) (buf : Buf) (hK : K.WF)
    (hs : w.dsim.state = .DSIM_STATE_HSCLKEN)
    (hwait : rx_wait_succeeds K E fuel w data_id addr count = true)
    (hx : u32 (E.rxfifo w.n_rx) = K.MIPI_DSI_RX_ACKNOWLEDGE_AND_ERROR_REPORT ||| 1 <<< 13) :
    rx_err_flags (u32 (E.rxfifo w.n_rx)) = [RxErr.HS_receive_timeout_error] ∧
    (∀ w0 : World, dsim_rx_err_handler w0 (u32 (E.rxfifo w.n_rx)) =
      w0.emit (Event.dev_err (Log.rx_err RxErr.HS_receive_timeout_error))) ∧
    (∃ (w' : World) (t t0 : List Event),
      dsim_read_data K E fuel w data_id addr count buf = some (-(K.EPERM : Int), w', buf) ∧
      w'.trace = w.trace ++ t ∧
      t = t0 ++ ([Event.readl .DSIM_RXFIFO,
          Event.dev_err (Log.rx_err RxErr.HS_receive_timeout_error)] ++
        (rx_error_pulse w.dsim.id ++ ([Event.mutex_unlock .dsim_rd_wr_mutex] ++
          (if E.decon_int_drvdata then [Event.decon_lpd_unblock] else [])))) ∧
      t0.filter Event.isRxErrLine = [] ∧
      t.filter Event.isRxErrLine =
        [Event.dev_err (Log.rx_err RxErr.HS_receive_timeout_error)]) ∧
    (∀ (w0 : World) (y : Nat), dsim_rx_err_handler w0 y =
      { w0 with trace := w0.trace ++
          (rx_err_flags y).map (fun e => Event.dev_err (Log.rx_err e)) }) ∧
    (∀ (y b : Nat) (e : RxErr), (b, e) ∈ rx_err_bits →
      (e ∈ rx_err_flags y ↔ y.testBit b = true)) ∧
    (∀ (E0 : Env) (w0 : World) (d a c : Nat) (b0 : Buf),
      w0.dsim.state = .DSIM_STATE_HSCLKEN → rx_wait_succeeds K E0 fuel w0 d a c = true →
      u32 (E0.rxfifo w0.n_rx) &&& 0xff = K.MIPI_DSI_RX_ACKNOWLEDGE_AND_ERROR_REPORT →
      ∃ (w' : World) (t : List Event),
        dsim_read_data K E0 fuel w0 d a c b0 = some (-(K.EPERM : Int), w', b0) ∧
        w'.trace = w0.trace ++ t ∧
        t.filter Event.isRxErrLine =
          (rx_err_flags (u32 (E0.rxfifo w0.n_rx))).map
            (fun e => Event.dev_err (Log.rx_err e))) := by
  have hc : K.MIPI_DSI_RX_ACKNOWLEDGE_AND_ERROR_REPORT < 256 :=
    hK.2.2.1 _ (by simp [Consts.rx_ids])
  have hflags := rx_err_flags_bit13 _ hc
  have hlow := low_byte_bit13 _ hc
  rw [← hx] at hflags hlow
  obtain ⟨w', t, t0, r1, r2, r3, r4, r5⟩ :=
    read_data_ack_lines K E fuel w data_id addr count buf hs hwait hlow
  rw [hflags] at r3 r5
  refine ⟨hflags, fun w0 => ?_, ⟨w', t, t0, r1, r2, r3, r4, r5⟩,
    dsim_rx_err_handler_trace, mem_rx_err_flags, ?_⟩
  · rw [dsim_rx_err_handler_trace, hflags]
    rfl
  · intro E0 w0 d a c b0 h1 h2 h3
    obtain ⟨w2, t2, _, q1, q2, _, _, q5⟩ :=
      read_data_ack_lines K E0 fuel w0 d a c b0 h1 h2 h3
    exact ⟨w2, t2, q1, q2, q5⟩

/-- C9 at the word `0x2002`, and at the word `0x12002` with the two flags of bits 13 and
16. -/
theorem C9_error_report_flags_witness :
    linux.WF ∧ ready_link.dsim.state = .DSIM_STATE_HSCLKEN ∧
    rx_wait_succeeds linux (sample_env [0x2002]) 0 ready_link linux.MIPI_DSI_DCS_READ 0x0a 4 =
      true ∧
    u32 ((sample_env [0x2002]).rxfifo ready_link.n_rx) =
      linux.MIPI_DSI_RX_ACKNOWLEDGE_AND_ERROR_REPORT ||| 1 <<< 13 ∧
    rx_err_flags (u32 ((sample_env [0x2002]).rxfifo ready_link.n_rx)) =
      [RxErr.HS_receive_timeout_error] ∧
    (∃ (w' : World) (t t0 : List Event),
      dsim_read_data linux (sample_env [0x2002]) 0 ready_link linux.MIPI_DSI_DCS_READ 0x0a 4
        (fun _ => 0) = some (-(linux.EPERM : Int), w', fun _ => 0) ∧
      w'.trace = ready_link.trace ++ t ∧
      t = t0 ++ ([Event.readl .DSIM_RXFIFO,
          Event.dev_err (Log.rx_err RxErr.HS_receive_timeout_error)] ++
        (rx_error_pulse ready_link.dsim.id ++ ([Event.mutex_unlock .dsim_rd_wr_mutex] ++
          (if (sample_env [0x2002]).decon_int_drvdata then [Event.decon_lpd_unblock]
            else [])))) ∧
      t0.filter Event.isRxErrLine = [] ∧
      t.filter Event.isRxErrLine =
        [Event.dev_err (Log.rx_err RxErr.HS_receive_timeout_error)]) ∧
    (dsim_read_data linux (sample_env [0x12002]) 0 ready_link linux.MIPI_DSI_DCS_READ 0x0a 4
        (fun _ => 0)).map (fun r => (r.1, r.2.1.trace.filter Event.isRxErrLine)) =
      some (-1, [Event.dev_err (Log.rx_err RxErr.HS_receive_timeout_error),
        Event.dev_err (Log.rx_err RxErr.ECC_error_single_bit)]) :=
  have h := C9_error_report_flags linux (sample_env [0x2002]) 0 ready_link
    linux.MIPI_DSI_DCS_READ 0x0a 4 (fun _ => 0) (by decide) rfl (by decide) (by decide)
  ⟨by decide, rfl, by decide, by decide, h.1, h.2.2.1, by decide⟩

/-- C10 (as stated, refuted): on a ready link in video mode that holds no interrupt
reference, a write with the unknown data id `0x77` returns `-EINVAL` after the interrupt
unmask call `dsim_reg_set_int(id, 1)` was made; the mask call follows. -/
theorem C10_counterexample :
    (0x77 : Nat) ∉ linux.tx_ids ∧
    (dsim_write_data linux (sample_env []) 0 video_link 0x77 0 0).map
        (fun r => (r.1, regTrace r.2.trace)) =
      some (-22, [Event.dsim_reg_set_int 0 1, Event.dsim_reg_set_int 0 0]) := by
  decide

/-- C10 (amended): on a ready link a write with a data id outside all case groups returns
`-EINVAL` and leaves the link as it was; it makes no FIFO write, no interrupt clear and no FIFO
controller reset.  Its only calls of the register interface are those of the interrupt
reference count: none in command mode or when a reference is already held, and in video mode
with no reference held the unmask call before the id is rejected and the mask call after. -/
theorem C10_unknown_id_rejected (K : Consts) (E : Env) (fuel : Nat) (w : World)
    (data_id data0 data1 : Nat) (hK : K.WF) (hs : w.dsim.state = .DSIM_STATE_HSCLKEN)
    (hd : data_id ∉ K.tx_ids) :
    ∃ t, dsim_write_data K E fuel w data_id data0 data1 =
        some (-(K.EINVAL : Int), { w with trace := w.trace ++ t }) ∧
      regTrace t =
        (if w.dsim.mode = K.DECON_VIDEO_MODE ∧ w.dsim.irq_refcount = 0 then
          [Event.dsim_reg_set_int w.dsim.id 1, Event.dsim_reg_set_int w.dsim.id 0]
        else []) := by
  have hne : ¬ (-(K.EINVAL : Int) = -(K.ETIMEDOUT : Int)) := by
    have h := hK.2.2.2
    simp only [List.nodup_cons, List.mem_cons, not_or] at h
    have : K.EINVAL ≠ K.ETIMEDOUT := h.2.2.1.2.1
    omega
  obtain ⟨⟨id, st, mode, rc, pg, ddi, dl, dlc, xr, yr, lc⟩, tr, nw, nm, nr⟩ := w
  simp only at hs
  subst hs
  cases hdec : E.decon_int_drvdata <;> by_cases hm : mode = K.DECON_VIDEO_MODE <;>
    by_cases hr : rc = 0 <;> by_cases hneg : rc < 0 <;>
    simp [dsim_write_data, dsim_write_data_exit, dsim_write_data_err_exit,
      dsim_enable_interrupts, dsim_disable_interrupts, switch_unknown K E fuel _ _ _ _ hd,
      World.emit, hdec, hm, hr, hneg, hne, regTrace, Event.isReg]

/-- C10 (amended) at the unknown data id `0x77` on a ready link in command mode. -/
theorem C10_unknown_id_rejected_witness :
    linux.WF ∧ ready_link.dsim.state = .DSIM_STATE_HSCLKEN ∧ (0x77 : Nat) ∉ linux.tx_ids ∧
    ∃ t, dsim_write_data linux (sample_env []) 0 ready_link 0x77 0x11 0x22 =
        some (-(linux.EINVAL : Int), { ready_link with trace := ready_link.trace ++ t }) ∧
      regTrace t =
        (if ready_link.dsim.mode = linux.DECON_VIDEO_MODE ∧ ready_link.dsim.irq_refcount = 0 then
          [Event.dsim_reg_set_int ready_link.dsim.id 1,
            Event.dsim_reg_set_int ready_link.dsim.id 0]
        else []) :=
  ⟨by decide, rfl, by decide,
    C10_unknown_id_rejected linux (sample_env []) 0 ready_link 0x77 0x11 0x22 (by decide) rfl
      (by decide)⟩

/-- C11: on a link with the high speed clock enabled, take a write whose data id waits for a
FIFO to drain: short write, general command, read request or long write (for a long write, of a
length for which the payload loop ends, so that the waits are reached).  If the environment
answers a FIFO-empty wait of the call with no completion in time and with a clear status bit,
the call returns `-ETIMEDOUT`.  A call that returns `-ETIMEDOUT` makes exactly one
FIFO-controller reset, `dsim_reg_set_fifo_ctrl(id, DSIM_FIFOCTRL_INIT_SFR)`; a call that returns
another value makes none. -/
theorem C11_write_timeout_resets_fifo (K : Consts) (E : Env) (fuel : Nat) (w : World)
    (data_id data0 data1 : Nat) (hK : K.WF) (hs : w.dsim.state = .DSIM_STATE_HSCLKEN)
    (hid : data_id ∈ K.short_write_ids ++ K.generic_command_ids ++ K.read_request_ids ++
      K.long_write_ids)
    (hlen : data_id ∈ K.long_write_ids → data1 + 3 < 2 ^ 32 ∧ (data1 + 3) / 4 < fuel) :
    ∃ ret w' t, dsim_write_data K E fuel w data_id data0 data1 = some (ret, w') ∧
      w'.trace = w.trace ++ t ∧
      (fifo_wait_times_out E w.n_wait w.n_mask → ret = -(K.ETIMEDOUT : Int)) ∧
      (data_id ∈ K.long_write_ids →
        fifo_wait_times_out E (w.n_wait + 1)
          (w.n_mask + (if E.completion w.n_wait then 0 else 1)) →
        ret = -(K.ETIMEDOUT : Int)) ∧
      (ret = -(K.ETIMEDOUT : Int) → t.filter Event.isFifoReset =
        [.dsim_reg_set_fifo_ctrl w.dsim.id K.DSIM_FIFOCTRL_INIT_SFR]) ∧
      (ret ≠ -(K.ETIMEDOUT : Int) → t.filter Event.isFifoReset = []) := by
  obtain ⟨w1, n1, n2, hw1⟩ := write_data_ready_eq K E fuel w data_id data0 data1 hs
  have key : ∃ r w2, dsim_write_data_switch K E fuel w1 data_id data0 data1 = some (r, w2) ∧
      (fifo_wait_times_out E w.n_wait w.n_mask → r = -(K.ETIMEDOUT : Int)) ∧
      (data_id ∈ K.long_write_ids →
        fifo_wait_times_out E (w.n_wait + 1)
          (w.n_mask + (if E.completion w.n_wait then 0 else 1)) →
        r = -(K.ETIMEDOUT : Int)) := by
    by_cases hl : data_id ∈ K.long_write_ids
    · obtain ⟨w2, h2⟩ := long_fst K E fuel w1 data_id data0 data1 (hlen hl).1 (hlen hl).2
      rw [n1, n2] at h2
      refine ⟨_, w2, (switch_long K E fuel w1 data_id data0 data1 hK hl).trans h2, ?_, ?_⟩
      · intro h; exact if_pos (Or.inl h)
      · intro _ h; exact if_pos (Or.inr h)
    · have hd : data_id ∈ K.short_write_ids ∨ data_id ∈ K.generic_command_ids ∨
          data_id ∈ K.read_request_ids := by
        simp only [List.mem_append] at hid
        tauto
      refine ⟨(dsim_write_data_header K E w1 data_id data0 data1).1,
        (dsim_write_data_header K E w1 data_id data0 data1).2,
        switch_header K E fuel w1 data_id data0 data1 hK hd, ?_, ?_⟩
      · intro h
        have hf := header_fst K E w1 data_id data0 data1
        rw [n1, n2, if_pos h] at hf
        exact hf
      · intro h; exact absurd h hl
  obtain ⟨r, w2, hsw, k1, k2⟩ := key
  have hret := hw1 r w2 hsw
  obtain ⟨_, t1, t2, p1, p2, ht⟩ := write_data_shape K E fuel w data_id data0 data1 r
    (dsim_write_data_exit K E w2 r).2 hret
  refine ⟨r, _, _, hret, ht, k1, k2, ?_, ?_⟩
  · intro hr
    rw [filter_reset_shape K w.dsim.id E.decon_int_drvdata _ t1 t2 p1 p2, if_pos ⟨hs, hr⟩]
  · intro hr
    rw [filter_reset_shape K w.dsim.id E.decon_int_drvdata _ t1 t2 p1 p2,
      if_neg (fun h => hr h.2)]

theorem C11_write_timeout_resets_fifo_witness :
    ∃ w' t, dsim_write_data linux { sample_env [] with completion := fun _ => false } 0
        ready_link linux.MIPI_DSI_DCS_SHORT_WRITE_PARAM 0x51 0xff =
        some (-(linux.ETIMEDOUT : Int), w') ∧
      w'.trace = ready_link.trace ++ t ∧
      t.filter Event.isFifoReset =
        [.dsim_reg_set_fifo_ctrl 0 linux.DSIM_FIFOCTRL_INIT_SFR] := by
  obtain ⟨ret, w', t, h1, h2, h3, _, h5, _⟩ := C11_write_timeout_resets_fifo linux
    { sample_env [] with completion := fun _ => false } 0 ready_link
    linux.MIPI_DSI_DCS_SHORT_WRITE_PARAM 0x51 0xff (by decide) rfl (by decide)
    (fun h => absurd h (by decide))
  have hr := h3 ⟨rfl, rfl⟩
  subst hr
  exact ⟨w', t, h1, h2, h5 rfl⟩

/-- C12 (holds for the two FIFO channels, fails for the RX channel): a FIFO-empty wait on the
header or payload channel returns `-ETIMEDOUT` exactly when the wait timed out and the status
bit read afterwards is clear, so a late signal is reconciled.  The wait of `dsim_read_data`
for the RX completion is not reconciled: when it times out on a ready link the read returns
`-ETIMEDOUT` whatever the status register holds, and after the wait it only drops the
interrupt reference and logs "MIPI DSIM read Timeout!", without reading a status bit. -/
theorem C12_rx_timeout_not_reconciled (K : Consts) (E : Env) (fuel : Nat) (w : World)
    (data_id addr count : Nat) (buf : Buf) (hK : K.WF)
    (hs : w.dsim.state = .DSIM_STATE_HSCLKEN)
    (hwait : rx_wait_succeeds K E fuel w data_id addr count = false) :
    (∀ (w0 : World) (id : Nat), id = 0 ∨ id = 1 →
      ((dsim_wait_for_cmd_fifo_empty K E w0 id).1 = -(K.ETIMEDOUT : Int) ↔
        fifo_wait_times_out E w0.n_wait w0.n_mask) ∧
      (¬ fifo_wait_times_out E w0.n_wait w0.n_mask →
        (dsim_wait_for_cmd_fifo_empty K E w0 id).1 = 0)) ∧
    ∃ (w' : World) (t tdis : List Event),
      dsim_read_data K E fuel w data_id addr count buf =
        some (-(K.ETIMEDOUT : Int), w', buf) ∧
      (∀ e ∈ tdis, Event.isIrqGate e = true) ∧ tdis.filter Event.isStatusRead = [] ∧
      w'.trace = w.trace ++ (t ++ [Event.wait_for_completion_timeout .dsim_rd_comp] ++ tdis ++
        [Event.dev_err .read_timeout]) := by
  constructor
  · intro w0 id hid
    have hz : K.ETIMEDOUT ≠ 0 := by
      have h := hK.2.2.2
      simp only [List.nodup_cons, List.mem_cons, not_or] at h
      exact fun e => h.1.2.2.2.1 e.symm
    rw [wait_fst_eq K E w0 id hid]
    by_cases ht : fifo_wait_times_out E w0.n_wait w0.n_mask
    · simp [ht]
    · simp [ht, hz]
  · obtain ⟨w', treq, tdis, e1, _, _, _, ptd, ht⟩ :=
      read_data_timeout_step K E fuel w data_id addr count buf hs hwait
    refine ⟨w', _, tdis, e1, ptd, ?_, ht⟩
    exact filter_eq_nil_of_kind tdis ptd
      (by intro e; cases e <;> simp [Event.isIrqGate, Event.isStatusRead])

/-- C12 at a read in an environment where every wait times out and every status read finds
its bit set: the read returns `-ETIMEDOUT`. -/
theorem C12_rx_timeout_not_reconciled_witness :
    linux.WF ∧ ready_link.dsim.state = .DSIM_STATE_HSCLKEN ∧
    rx_wait_succeeds linux late_signal_env 0 ready_link linux.MIPI_DSI_DCS_READ 0x0a 1 = false ∧
    (∀ k, late_signal_env.intsrc k = true) ∧
    ∃ (w' : World) (t tdis : List Event),
      dsim_read_data linux late_signal_env 0 ready_link linux.MIPI_DSI_DCS_READ 0x0a 1
        (fun _ => 0) = some (-(linux.ETIMEDOUT : Int), w', fun _ => 0) ∧
      (∀ e ∈ tdis, Event.isIrqGate e = true) ∧ tdis.filter Event.isStatusRead = [] ∧
      w'.trace = ready_link.trace ++ (t ++ [Event.wait_for_completion_timeout .dsim_rd_comp] ++
        tdis ++ [Event.dev_err .read_timeout]) :=
  ⟨by decide, rfl, by decide, fun _ => rfl,
    (C12_rx_timeout_not_reconciled linux late_signal_env 0 ready_link linux.MIPI_DSI_DCS_READ
      0x0a 1 (fun _ => 0) (by decide) rfl (by decide)).2⟩

/-- C13 (holds on every path but the RX timeout of `dsim_read_data`): every call of
`dsim_write_data` that returns has made as many `decon_lpd_unblock` calls as
`decon_lpd_block_exit` calls, and so has every call of `dsim_read_data`, except that a read on a
ready link with a compositor whose wait for the RX completion times out returns with one more
`decon_lpd_block_exit` than `decon_lpd_unblock`: the hold taken at entry is not released. -/
theorem C13_hold_released_except_rx_timeout (K : Consts) (E : Env) (fuel : Nat) (w : World)
    (data_id addr count : Nat) (buf : Buf) :
    (∀ (d a b : Nat) (ret : Int) (w' : World),
      dsim_write_data K E fuel w d a b = some (ret, w') →
      ∃ t, w'.trace = w.trace ++ t ∧
        t.count .decon_lpd_block_exit = t.count .decon_lpd_unblock) ∧
    ∃ r t, dsim_read_data K E fuel w data_id addr count buf = some r ∧
      r.2.1.trace = w.trace ++ t ∧
      t.count .decon_lpd_block_exit = t.count .decon_lpd_unblock +
        (if E.decon_int_drvdata = true ∧ w.dsim.state = .DSIM_STATE_HSCLKEN ∧
          rx_wait_succeeds K E fuel w data_id addr count = false then 1 else 0) := by
  constructor
  · intro d a b ret w' h
    obtain ⟨t, ht, _, bt⟩ := write_data_balanced K E fuel w d a b ret w' h
    exact ⟨t, ht, bt.1⟩
  · exact read_data_hold K E fuel w data_id addr count buf

/-- C13 at a read on a ready link with a compositor whose RX wait times out: the call returns
`-ETIMEDOUT` after three `decon_lpd_block_exit` calls and two `decon_lpd_unblock` calls. -/
theorem C13_hold_released_except_rx_timeout_witness :
    rx_timeout_env.decon_int_drvdata = true ∧
    (dsim_read_data linux rx_timeout_env 0 ready_link linux.MIPI_DSI_DCS_READ 0x0a 1
      (fun _ => 0)).map (fun r => (r.1, r.2.1.trace.count .decon_lpd_block_exit,
        r.2.1.trace.count .decon_lpd_unblock)) = some (-(linux.ETIMEDOUT : Int), 3, 2) ∧
    ∃ r t, dsim_read_data linux rx_timeout_env 0 ready_link linux.MIPI_DSI_DCS_READ 0x0a 1
        (fun _ => 0) = some r ∧ r.2.1.trace = ready_link.trace ++ t ∧
      t.count .decon_lpd_block_exit = t.count .decon_lpd_unblock + 1 := by
  refine ⟨rfl, by decide, ?_⟩
  obtain ⟨r, t, h1, h2, h3⟩ := (C13_hold_released_except_rx_timeout linux rx_timeout_env 0
    ready_link linux.MIPI_DSI_DCS_READ 0x0a 1 (fun _ => 0)).2
  rw [if_pos (by decide)] at h3
  exact ⟨r, t, h1, h2, h3⟩

/-- C14 (as stated, refuted): on a ready link in command mode with `irq_refcount = 0`, two
calls of `dsim_enable_interrupts` followed by two calls of `dsim_disable_interrupts` make no
call at all, so no hardware unmask and no hardware remask. -/
theorem C14_counterexample :
    ready_link.dsim.state = .DSIM_STATE_HSCLKEN ∧ ready_link.dsim.irq_refcount = 0 ∧
    ready_link.dsim.mode ≠ linux.DECON_VIDEO_MODE ∧
    (dsim_disable_interrupts linux (dsim_disable_interrupts linux
      (dsim_enable_interrupts linux (dsim_enable_interrupts linux ready_link)))).trace = [] := by
  decide

/-- C14 (amended): on a ready link with `irq_refcount = 0` in video mode, two calls of
`dsim_enable_interrupts` followed by two calls of `dsim_disable_interrupts` unmask the
interrupts once, in the first enable, and mask them once, in the last disable; the count goes
1, 2, 1, 0 and the device fields end as they began.  In any other mode the four calls make no
call and leave the world as it is. -/
theorem C14_refcount_sequence (K : Consts) (w : World)
    (hs : w.dsim.state = .DSIM_STATE_HSCLKEN) (h0 : w.dsim.irq_refcount = 0) :
    (w.dsim.mode = K.DECON_VIDEO_MODE →
      (dsim_enable_interrupts K w).trace = w.trace ++
        [.mutex_lock .irq_lock, .dsim_reg_set_int w.dsim.id 1, .mutex_unlock .irq_lock] ∧
      (dsim_enable_interrupts K w).dsim.irq_refcount = 1 ∧
      (dsim_enable_interrupts K (dsim_enable_interrupts K w)).trace =
        (dsim_enable_interrupts K w).trace ++ [.mutex_lock .irq_lock, .mutex_unlock .irq_lock] ∧
      (dsim_enable_interrupts K (dsim_enable_interrupts K w)).dsim.irq_refcount = 2 ∧
      (dsim_disable_interrupts K (dsim_enable_interrupts K (dsim_enable_interrupts K w))).trace =
        (dsim_enable_interrupts K (dsim_enable_interrupts K w)).trace ++
          [.mutex_lock .irq_lock, .mutex_unlock .irq_lock] ∧
      (dsim_disable_interrupts K (dsim_enable_interrupts K
        (dsim_enable_interrupts K w))).dsim.irq_refcount = 1 ∧
      (dsim_disable_interrupts K (dsim_disable_interrupts K (dsim_enable_interrupts K
        (dsim_enable_interrupts K w)))).trace =
        (dsim_disable_interrupts K (dsim_enable_interrupts K
          (dsim_enable_interrupts K w))).trace ++
          [.mutex_lock .irq_lock, .dsim_reg_set_int w.dsim.id 0, .mutex_unlock .irq_lock] ∧
      (dsim_disable_interrupts K (dsim_disable_interrupts K (dsim_enable_interrupts K
        (dsim_enable_interrupts K w)))).dsim = w.dsim) ∧
    (w.dsim.mode ≠ K.DECON_VIDEO_MODE →
      dsim_disable_interrupts K (dsim_disable_interrupts K (dsim_enable_interrupts K
        (dsim_enable_interrupts K w))) = w) := by
  obtain ⟨⟨id, st, mode, rc, pg, ddi, dl, dlc, xr, yr, lc⟩, tr, nw, nm, nr⟩ := w
  simp only at hs h0
  subst hs h0
  constructor
  · intro hm
    simp only at hm
    subst hm
    simp [dsim_enable_interrupts, dsim_disable_interrupts, World.emit]
  · intro hm
    simp only at hm
    simp [dsim_enable_interrupts, dsim_disable_interrupts, World.emit, hm]

/-- C14 (amended) at the video-mode link `video_link`. -/
theorem C14_refcount_sequence_witness :
    video_link.dsim.state = .DSIM_STATE_HSCLKEN ∧ video_link.dsim.irq_refcount = 0 ∧
    video_link.dsim.mode = linux.DECON_VIDEO_MODE ∧
    (dsim_disable_interrupts linux (dsim_disable_interrupts linux (dsim_enable_interrupts linux
      (dsim_enable_interrupts linux video_link)))).dsim = video_link.dsim ∧
    (dsim_enable_interrupts linux video_link).trace = video_link.trace ++
      [.mutex_lock .irq_lock, .dsim_reg_set_int video_link.dsim.id 1,
        .mutex_unlock .irq_lock] :=
  ⟨rfl, rfl, rfl,
    ((C14_refcount_sequence linux video_link rfl rfl).1 rfl).2.2.2.2.2.2.2,
    ((C14_refcount_sequence linux video_link rfl rfl).1 rfl).1⟩

/-- C15 (as stated, refuted): on a ready link in video mode with `irq_refcount = 0`, where the
invariant holds, the ioctl `DSIM_IOC_VSYNC` with a non-zero argument followed by
`dsim_enter_ulps` leaves `irq_refcount = 1` in state `DSIM_STATE_ULPS`; followed by
`dsim_disable` instead, it leaves `irq_refcount = 1` in state `DSIM_STATE_SUSPEND`. -/
theorem C15_counterexample :
    irq_inv video_link.dsim ∧
    (Op.runs linux sample_config (sample_env []) 4 [.ioctl_vsync 1, .enter_ulps]
      video_link).map (fun w => (w.dsim.irq_refcount, w.dsim.state)) =
      some (1, .DSIM_STATE_ULPS) ∧
    (Op.runs linux sample_config (sample_env []) 4 [.ioctl_vsync 1, .disable]
      video_link).map (fun w => (w.dsim.irq_refcount, w.dsim.state)) =
      some (1, .DSIM_STATE_SUSPEND) ∧
    ¬ irq_inv { video_link.dsim with irq_refcount := 1, state := .DSIM_STATE_ULPS } := by
  decide

/-- C15 (amended): the invariant holds after probe, and for every device whose count is
zero.  Of the operations write, read, enable, disable, enter and exit of the ultra low power
state and the interrupt ioctl, only the ioctl changes `irq_refcount`.  An operation that returns
preserves the invariant if it is not `dsim_disable` or `dsim_enter_ulps`, or if the count is
zero when it is called; so every sequence of calls without these two preserves it. -/
theorem C15_refcount_invariant (K : Consts) (cfg : Config) (E : Env) (fuel : Nat) :
    (∀ id mode ddi_type data_lane data_lane_cnt xres yres lcdConnected : Nat,
      irq_inv (dsim_probe_done id mode ddi_type data_lane data_lane_cnt xres yres
        lcdConnected)) ∧
    (∀ d : dsim_device, d.irq_refcount = 0 → irq_inv d) ∧
    (∀ (op : Op) (w w' : World), Op.run K cfg E fuel op w = some w' →
      (op.is_vsync = false → w'.dsim.irq_refcount = w.dsim.irq_refcount) ∧
      (irq_inv w.dsim → (op.leaves_ready = false ∨ w.dsim.irq_refcount = 0) →
        irq_inv w'.dsim)) ∧
    (∀ (ops : List Op) (w w' : World), (∀ op ∈ ops, Op.leaves_ready op = false) →
      Op.runs K cfg E fuel ops w = some w' → irq_inv w.dsim → irq_inv w'.dsim) := by
  have step : ∀ (op : Op) (w w' : World), Op.run K cfg E fuel op w = some w' →
      (op.is_vsync = false → w'.dsim.irq_refcount = w.dsim.irq_refcount) ∧
      (irq_inv w.dsim → (op.leaves_ready = false ∨ w.dsim.irq_refcount = 0) →
        irq_inv w'.dsim) := by
    intro op w w' h
    cases op with
    | write d a b =>
      simp only [Op.run, Option.map_eq_some'] at h
      obtain ⟨p, hp, rfl⟩ := h
      have k := (write_data_keeps K E fuel w d a b p.1 p.2 hp).dsim
      exact ⟨fun _ => by rw [k], fun hi _ => by rw [k]; exact hi⟩
    | read d a c buf =>
      simp only [Op.run, Option.map_eq_some'] at h
      obtain ⟨p, hp, rfl⟩ := h
      have k := read_data_dsim K E fuel w d a c buf p hp
      exact ⟨fun _ => by rw [k], fun hi _ => by rw [k]; exact hi⟩
    | enable =>
      simp only [Op.run, Option.some.injEq] at h
      subst h
      rw [dsim_enable_dsim]
      refine ⟨fun _ => by split_ifs <;> rfl, fun hi _ => ?_⟩
      split_ifs
      · exact hi
      · exact fun _ => rfl
    | disable =>
      simp only [Op.run, Option.map_eq_some'] at h
      obtain ⟨p, hp, rfl⟩ := h
      obtain ⟨k1, _⟩ := dsim_disable_dsim K cfg E fuel w p.1 p.2 hp
      refine ⟨fun _ => k1, fun _ hc => ?_⟩
      rcases hc with hc | hc
      · exact absurd hc (by simp [Op.leaves_ready])
      · intro hne; rw [k1] at hne; exact absurd hc hne
    | enter_ulps =>
      simp only [Op.run, Option.some.injEq] at h
      subst h
      obtain ⟨k1, _⟩ := dsim_enter_ulps_dsim K cfg E w
      refine ⟨fun _ => k1, fun _ hc => ?_⟩
      rcases hc with hc | hc
      · exact absurd hc (by simp [Op.leaves_ready])
      · intro hne; rw [k1] at hne; exact absurd hc hne
    | exit_ulps =>
      simp only [Op.run, Option.some.injEq] at h
      subst h
      rw [dsim_exit_ulps_dsim]
      refine ⟨fun _ => by split_ifs <;> rfl, fun hi _ => ?_⟩
      split_ifs
      · exact fun _ => rfl
      · exact hi
    | ioctl_vsync arg =>
      simp only [Op.run, Option.some.injEq] at h
      subst h
      refine ⟨fun hv => absurd hv (by simp [Op.is_vsync]), fun hi _ => ?_⟩
      unfold dsim_ioctl_vsync
      split_ifs
      · dsimp only
        rw [enable_dsim]
        split_ifs with hc
        · exact fun _ => hc.1
        · exact hi
      · dsimp only
        rw [disable_dsim]
        split_ifs with hc
        · exact fun _ => hc.1
        · exact hi
  refine ⟨fun _ _ _ _ _ _ _ _ hne => absurd rfl hne, fun d h0 hne => absurd h0 hne, step, ?_⟩
  intro ops
  induction ops with
  | nil =>
    intro w w' _ h hi
    simp only [Op.runs, Option.some.injEq] at h
    rw [← h]; exact hi
  | cons op ops ih =>
    intro w w' hall h hi
    unfold Op.runs at h
    cases h1 : Op.run K cfg E fuel op w with
    | none => rw [h1] at h; exact absurd h (by simp)
    | some w1 =>
      rw [h1] at h
      dsimp only at h
      exact ih w1 w' (fun o ho => hall o (List.mem_cons_of_mem _ ho)) h
        ((step op w w1 h1).2 hi (Or.inl (hall op (List.mem_cons_self _ _))))

/-- C15 (amended) at a write on a video-mode link that holds one interrupt reference. -/
theorem C15_refcount_invariant_witness :
    irq_inv held_video_link.dsim ∧
    ∃ w' : World,
      Op.run linux sample_config (sample_env []) 0 (.write linux.MIPI_DSI_DCS_SHORT_WRITE 0x29 0)
        held_video_link = some w' ∧
      w'.dsim.irq_refcount = held_video_link.dsim.irq_refcount ∧ irq_inv w'.dsim := by
  obtain ⟨w', h⟩ := Option.isSome_iff_exists.1 (by decide :
    (Op.run linux sample_config (sample_env []) 0 (.write linux.MIPI_DSI_DCS_SHORT_WRITE 0x29 0)
      held_video_link).isSome = true)
  exact ⟨by decide, w', h,
    ((C15_refcount_invariant linux sample_config (sample_env []) 0).2.2.1 _ _ _ h).1 rfl,
    ((C15_refcount_invariant linux sample_config (sample_env []) 0).2.2.1 _ _ _ h).2 (by decide)
      (Or.inl rfl)⟩

/-- C16: on a link whose state is not `DSIM_STATE_HSCLKEN`, `dsim_enter_ulps` returns `-EBUSY`,
a negative value, and leaves every field of the device (state and pktgo among them) as it was;
its only calls are the two trace lines of `exynos_ss_printk`, none of which is a call of the
register interface, of the D-PHY, of the interrupt line or of runtime power. -/
theorem C16_enter_ulps_busy (K : Consts) (cfg : Config) (E : Env) (w : World) (hK : K.WF)
    (hs : w.dsim.state ≠ .DSIM_STATE_HSCLKEN) :
    dsim_enter_ulps K cfg E w =
      (-(K.EBUSY : Int),
        { w with trace := w.trace ++ [.exynos_ss_printk, .exynos_ss_printk] }) ∧
    -(K.EBUSY : Int) < 0 ∧
    [Event.exynos_ss_printk, Event.exynos_ss_printk].filter Event.isHardware = [] := by
  refine ⟨?_, ?_, rfl⟩
  · unfold dsim_enter_ulps
    have : (w.emit .exynos_ss_printk).dsim.state ≠ .DSIM_STATE_HSCLKEN := hs
    simp only [this, if_true, ne_eq, not_false_eq_true]
    simp [World.emit]
  · have h := hK.2.2.2
    simp only [List.nodup_cons, List.mem_cons, not_or] at h
    have : K.EBUSY ≠ 0 := fun e => h.1.2.2.1 e.symm
    omega

/-- C16 at a suspended link. -/
theorem C16_enter_ulps_busy_witness :
    linux.WF ∧ suspended_link.dsim.state ≠ .DSIM_STATE_HSCLKEN ∧
    dsim_enter_ulps linux sample_config (sample_env []) suspended_link =
      (-(linux.EBUSY : Int), { suspended_link with
        trace := suspended_link.trace ++ [.exynos_ss_printk, .exynos_ss_printk] }) :=
  ⟨by decide, by decide,
    (C16_enter_ulps_busy linux sample_config (sample_env []) suspended_link (by decide)
      (by decide)).1⟩

/-- C17 (refuted): on a link whose state is not `DSIM_STATE_ULPS`, `dsim_exit_ulps` leaves
every field of the device as it was and makes no hardware call, but it returns `0`, the
success value, not a busy error: the function returns `0` in every state. -/
theorem C17_exit_ulps_returns_zero (K : Consts) (cfg : Config) (E : Env) (w : World)
    (hs : w.dsim.state ≠ .DSIM_STATE_ULPS) :
    dsim_exit_ulps K cfg E w =
      (0, { w with trace := w.trace ++ [.exynos_ss_printk, .exynos_ss_printk] }) ∧
    [Event.exynos_ss_printk, Event.exynos_ss_printk].filter Event.isHardware = [] ∧
    ∀ w0 : World, (dsim_exit_ulps K cfg E w0).1 = 0 := by
  refine ⟨?_, rfl, ?_⟩
  · unfold dsim_exit_ulps
    have : (w.emit .exynos_ss_printk).dsim.state ≠ .DSIM_STATE_ULPS := hs
    simp only [this, if_true, ne_eq, not_false_eq_true]
    simp [World.emit]
  · intro w0
    unfold dsim_exit_ulps
    dsimp only
    split_ifs <;> rfl

/-- C17 at a suspended link: the result is `0`. -/
theorem C17_exit_ulps_returns_zero_witness :
    suspended_link.dsim.state ≠ .DSIM_STATE_ULPS ∧
    dsim_exit_ulps linux sample_config (sample_env []) suspended_link =
      (0, { suspended_link with
        trace := suspended_link.trace ++ [.exynos_ss_printk, .exynos_ss_printk] }) :=
  ⟨by decide,
    (C17_exit_ulps_returns_zero linux sample_config (sample_env []) suspended_link
      (by decide)).1⟩

/-- C18 (as stated, refuted): on a ready link of the normal DDI type whose DDI-specific step
returns the positive value 5, `dsim_enter_ulps` returns 5, not 0: only a negative result is
replaced by 0. -/
theorem C18_counterexample :
    ready_link.dsim.state = .DSIM_STATE_HSCLKEN ∧ ulps_positive_env.ulps_ret = 5 ∧
    (dsim_enter_ulps linux sample_config ulps_positive_env ready_link).1 = 5 ∧
    (dsim_enter_ulps linux sample_config ulps_positive_env ready_link).1 ≠ 0 ∧
    (dsim_enter_ulps linux sample_config ulps_positive_env ready_link).2.dsim.state =
      .DSIM_STATE_ULPS := by
  decide

/-- C18 (amended): on a link in state `DSIM_STATE_HSCLKEN`, for every DDI type and every
result of the DDI-specific step, `dsim_enter_ulps` ends in state `DSIM_STATE_ULPS` and returns
`0` when that result is `0` or negative and for the Magna type, and the result itself when it
is positive.  After the entry log line and the packet-go disable (which make no DDI-specific
call) its calls are: lock and unlock of the transaction mutex, interrupt mask, `disable_irq`,
high speed clock off, the DDI-specific step, then lanes to LP00, clocks off, software reset,
D-PHY off and the runtime-power suspend, in this order, and the exit log line.  The
DDI-specific step is `dsim_reg_set_smddi_ulps` for the SM type, nothing for the Magna type,
and `dsim_reg_set_ulps` for the normal type and for every other tag; a negative result adds
only the register dump. -/
theorem C18_enter_ulps_completes (K : Consts) (cfg : Config) (E : Env) (w : World)
    (hs : w.dsim.state = .DSIM_STATE_HSCLKEN) :
    (dsim_enter_ulps K cfg E w).1 =
      (if w.dsim.ddi_type ≠ K.TYPE_OF_SM_DDI ∧ w.dsim.ddi_type = K.TYPE_OF_MAGNA_DDI then 0
        else if E.ulps_ret < 0 then 0 else E.ulps_ret) ∧
    (E.ulps_ret ≤ 0 → (dsim_enter_ulps K cfg E w).1 = 0) ∧
    (dsim_enter_ulps K cfg E w).2.dsim.state = .DSIM_STATE_ULPS ∧
    (∃ t0 : List Event, t0.filter Event.isDdiUlps = [] ∧
      (dsim_enter_ulps K cfg E w).2.trace = w.trace ++ (t0 ++
        ([Event.mutex_lock .dsim_rd_wr_mutex, Event.mutex_unlock .dsim_rd_wr_mutex,
          Event.dsim_reg_set_int w.dsim.id 0, Event.disable_irq,
          Event.dsim_reg_set_hs_clock w.dsim.id 0] ++
        ulps_entry_events K E w.dsim ++
        [Event.dsim_reg_set_lanes w.dsim.id (K.DSIM_LANE_CLOCK ||| w.dsim.data_lane) 0,
          Event.dsim_reg_set_clocks w.dsim.id (K.DSIM_LANE_CLOCK ||| w.dsim.data_lane) 0,
          Event.dsim_reg_sw_reset w.dsim.id, Event.exynos5_dism_phy_enable 0 0] ++
        (if cfg.CONFIG_PM_RUNTIME then [Event.pm_runtime_put_sync]
          else [.clk_disable_unprepare .pclk, .clk_disable_unprepare .rgb_vclk0,
            .clk_disable_unprepare .pclk_disp, .clk_disable_unprepare .dphy_esc,
            .clk_disable_unprepare .dphy_byte]) ++
        [Event.exynos_ss_printk]))) ∧
    (w.dsim.ddi_type = K.TYPE_OF_SM_DDI → ulps_entry_events K E w.dsim =
      [Event.dsim_reg_set_smddi_ulps w.dsim.id 1 w.dsim.data_lane] ++
        (if E.ulps_ret < 0 then [Event.dsim_dump] else [])) ∧
    (w.dsim.ddi_type ≠ K.TYPE_OF_SM_DDI → w.dsim.ddi_type = K.TYPE_OF_MAGNA_DDI →
      ulps_entry_events K E w.dsim = [] ∧
      ∀ t, (dsim_enter_ulps K cfg E w).2.trace = w.trace ++ t →
        t.filter Event.isDdiUlps = []) ∧
    (w.dsim.ddi_type ≠ K.TYPE_OF_SM_DDI → w.dsim.ddi_type ≠ K.TYPE_OF_MAGNA_DDI →
      ulps_entry_events K E w.dsim =
        [Event.dsim_reg_set_ulps w.dsim.id 1 w.dsim.data_lane] ++
          (if E.ulps_ret < 0 then [Event.dsim_dump] else [])) := by
  have e := enter_ulps_ready_eq K cfg E w hs
  obtain ⟨_, _, _, _, _, t0, ht0, hf0⟩ := enter_ulps_before_lock_spec K cfg E w
  refine ⟨?_, ?_, ?_, ⟨t0, hf0, ?_⟩, ?_, ?_, ?_⟩
  · rw [e]
  · intro hr
    rw [e]
    dsimp only
    split_ifs <;> first | rfl | omega
  · rw [e]
  · rw [e]
    dsimp only
    rw [ht0]
    unfold runtime_power_put_events dsim_lanes
    simp only [List.append_assoc]
  · intro h; unfold ulps_entry_events; rw [if_pos h]
  · intro h1 h2
    have hev : ulps_entry_events K E w.dsim = [] := by
      unfold ulps_entry_events; rw [if_neg h1, if_pos h2]
    refine ⟨hev, ?_⟩
    intro t ht
    rw [e] at ht
    dsimp only at ht
    rw [ht0, hev, List.append_assoc] at ht
    rw [← List.append_cancel_left ht]
    unfold runtime_power_put_events
    simp only [List.filter_append, hf0]
    split_ifs <;> rfl
  · intro h1 h2; unfold ulps_entry_events; rw [if_neg h1, if_neg h2]

/-- C18 (amended) at a ready link of the normal DDI type whose DDI-specific step fails with
`-16`, and at a ready link of the Magna type. -/
theorem C18_enter_ulps_completes_witness :
    ready_link.dsim.state = .DSIM_STATE_HSCLKEN ∧ ulps_fail_env.ulps_ret = -16 ∧
    (dsim_enter_ulps linux sample_config ulps_fail_env ready_link).1 = 0 ∧
    (dsim_enter_ulps linux sample_config ulps_fail_env ready_link).2.dsim.state =
      .DSIM_STATE_ULPS ∧
    magna_link.dsim.ddi_type = linux.TYPE_OF_MAGNA_DDI ∧
    ulps_entry_events linux ulps_fail_env magna_link.dsim = [] :=
  ⟨rfl, rfl,
    (C18_enter_ulps_completes linux sample_config ulps_fail_env ready_link rfl).2.1
      (by decide),
    (C18_enter_ulps_completes linux sample_config ulps_fail_env ready_link rfl).2.2.1,
    rfl,
    ((C18_enter_ulps_completes linux sample_config ulps_fail_env magna_link rfl).2.2.2.2.2.1
      (by decide) rfl).1⟩

/-- C19 (as stated, refuted): a DCS read with `count = 4` answered by a long response that
declares 4 bytes returns 4 after three reads of the RX FIFO, not `1 + ceil(4/4) = 2`: the first
word, one payload word, and one more word read after the payload. -/
theorem C19_counterexample :
    (dsim_read_data linux (sample_env [0x041c, 0x04030201, 0xAA]) 0 ready_link
        linux.MIPI_DSI_DCS_READ 0x0a 4 (fun _ => 0)).map
      (fun r => (r.1, (r.2.1.trace.filter Event.isRxRead).length, r.2.1.n_rx)) =
      some (4, 3, 3) ∧ (3 : Nat) ≠ 1 + (4 + 3) / 4 := by
  decide

/-- C19 (amended): a read on a ready link whose RX wait ends in time and whose first RX FIFO
word is a long response of effective length `m = min (declared size) count` returns `m` and
reads the RX FIFO `1 + ceil(m/4) + 1` times: the first word, `ceil(m/4)` payload words, and one
more word after the payload, read just before the mutex is released. -/
theorem C19_long_response_reads (K : Consts) (E : Env) (fuel : Nat) (w : World)
    (data_id addr count : Nat) (buf : Buf) (hK : K.WF)
    (hs : w.dsim.state = .DSIM_STATE_HSCLKEN)
    (hwait : rx_wait_succeeds K E fuel w data_id addr count = true)
    (hcode : u32 (E.rxfifo w.n_rx) &&& 0xff ∈ K.rx_long_ids) :
    ∃ (w' : World) (buf' : Buf) (t t0 : List Event),
      dsim_read_data K E fuel w data_id addr count buf =
        some (((min ((u32 (E.rxfifo w.n_rx) &&& 0x00ffff00) >>> 8) count : Nat) : Int),
          w', buf') ∧
      w'.trace = w.trace ++ t ∧
      (t.filter Event.isRxRead).length =
        1 + (min ((u32 (E.rxfifo w.n_rx) &&& 0x00ffff00) >>> 8) count + 3) / 4 + 1 ∧
      w'.n_rx = w.n_rx + 1 + (min ((u32 (E.rxfifo w.n_rx) &&& 0x00ffff00) >>> 8) count + 3) / 4
        + 1 ∧
      t = t0 ++ ([Event.readl .DSIM_RXFIFO, Event.mutex_unlock .dsim_rd_wr_mutex] ++
        (if E.decon_int_drvdata then [Event.decon_lpd_unblock] else [])) := by
  obtain ⟨w1, treq, tdis, e1, n1, _, _, ptr, _, ptd, ht⟩ :=
    read_data_ok_shape K E fuel w data_id addr count buf hs hwait
  rw [← n1] at hcode
  obtain ⟨d1, _, d3⟩ := decode_long K E w1 count buf hK hcode
  obtain ⟨n1', n2', n3'⟩ := rx_long_not_other K hK _ hcode
  have hev : decode_events K E w1 count = [Event.readl .DSIM_RXFIFO] ++
      List.replicate ((min ((u32 (E.rxfifo w1.n_rx) &&& 0x00ffff00) >>> 8) count + 3) / 4)
        (Event.readl .DSIM_RXFIFO) ++ [Event.readl .DSIM_RXFIFO] := by
    unfold decode_events
    dsimp only
    rw [if_neg n1', if_neg n2', if_neg n3', if_pos hcode]
  rw [hev] at ht
  rw [n1] at d1 d3 ht
  refine ⟨(dsim_read_data_decode K E w1 count buf).2.1,
    (dsim_read_data_decode K E w1 count buf).2.2, _,
    (if E.decon_int_drvdata then [Event.decon_lpd_block_exit] else []) ++
      (treq ++ [Event.wait_for_completion_timeout .dsim_rd_comp] ++ tdis ++
        ([Event.mutex_lock .dsim_rd_wr_mutex] ++ ([Event.readl .DSIM_RXFIFO] ++
          List.replicate ((min ((u32 (E.rxfifo w.n_rx) &&& 0x00ffff00) >>> 8) count + 3) / 4)
            (Event.readl .DSIM_RXFIFO)))),
    by rw [e1, ← d1], ht, ?_, d3, ?_⟩
  · have hb : ∀ e, Event.isTxBody e = true → Event.isRxRead e = false := by
      intro e; cases e <;> simp [Event.isTxBody, Event.isRxRead]
    simp only [List.filter_append, filter_rxread_of_tx treq ptr,
      filter_eq_nil_of_kind tdis ptd hb]
    have hrep : ∀ n, (List.replicate n (Event.readl Reg.DSIM_RXFIFO)).filter Event.isRxRead =
        List.replicate n (Event.readl Reg.DSIM_RXFIFO) := by
      intro n
      rw [List.filter_eq_self]
      intro e he
      rw [(List.mem_replicate.1 he).2]; rfl
    rw [hrep]
    cases E.decon_int_drvdata <;> simp [Event.isRxRead] <;> omega
  · simp only [List.append_assoc, List.cons_append, List.nil_append]

/-- C19 (amended) at a long response that declares 10 bytes, read with `count = 10`: five
reads of the RX FIFO. -/
theorem C19_long_response_reads_witness :
    linux.WF ∧ ready_link.dsim.state = .DSIM_STATE_HSCLKEN ∧
    rx_wait_succeeds linux (sample_env [0x0a1c, 0x04030201, 0x08070605, 0x0a09]) 0 ready_link
      linux.MIPI_DSI_DCS_READ 0x0a 10 = true ∧
    u32 ((sample_env [0x0a1c, 0x04030201, 0x08070605, 0x0a09]).rxfifo ready_link.n_rx) &&& 0xff ∈
      linux.rx_long_ids ∧
    1 + (min ((u32 ((sample_env [0x0a1c, 0x04030201, 0x08070605, 0x0a09]).rxfifo
      ready_link.n_rx) &&& 0x00ffff00) >>> 8) 10 + 3) / 4 + 1 = 5 ∧
    ∃ (w' : World) (buf' : Buf) (t t0 : List Event),
      dsim_read_data linux (sample_env [0x0a1c, 0x04030201, 0x08070605, 0x0a09]) 0 ready_link
        linux.MIPI_DSI_DCS_READ 0x0a 10 (fun _ => 0) =
        some (((min ((u32 ((sample_env [0x0a1c, 0x04030201, 0x08070605, 0x0a09]).rxfifo
          ready_link.n_rx) &&& 0x00ffff00) >>> 8) 10 : Nat) : Int), w', buf') ∧
      w'.trace = ready_link.trace ++ t ∧
      (t.filter Event.isRxRead).length =
        1 + (min ((u32 ((sample_env [0x0a1c, 0x04030201, 0x08070605, 0x0a09]).rxfifo
          ready_link.n_rx) &&& 0x00ffff00) >>> 8) 10 + 3) / 4 + 1 ∧
      w'.n_rx = ready_link.n_rx + 1 +
        (min ((u32 ((sample_env [0x0a1c, 0x04030201, 0x08070605, 0x0a09]).rxfifo
          ready_link.n_rx) &&& 0x00ffff00) >>> 8) 10 + 3) / 4 + 1 ∧
      t = t0 ++ ([Event.readl .DSIM_RXFIFO, Event.mutex_unlock .dsim_rd_wr_mutex] ++
        (if (sample_env [0x0a1c, 0x04030201, 0x08070605, 0x0a09]).decon_int_drvdata then
          [Event.decon_lpd_unblock] else [])) :=
  ⟨by decide, rfl, by decide, by decide, by decide,
    C19_long_response_reads linux (sample_env [0x0a1c, 0x04030201, 0x08070605, 0x0a09]) 0
      ready_link linux.MIPI_DSI_DCS_READ 0x0a 10 (fun _ => 0) (by decide) rfl (by decide)
      (by decide)⟩

/-- C20: a read on a ready link whose RX wait ends in time and whose first RX FIFO word has
the acknowledge-and-error-report code returns `-EPERM`, a negative value, and leaves the buffer
as it was.  Among the calls of the read, `dsim_reg_force_dphy_stop_state(id, 1)`,
`usleep_range(3000, 4000)` and `dsim_reg_force_dphy_stop_state(id, 0)` occur once each, in this
order; they are followed by the unlock of the transaction mutex and, with a compositor, by
`decon_lpd_unblock`, which end the call; over the whole call the mutex is unlocked as often as
locked and the compositor hold released as often as taken. -/
theorem C20_ack_recovery_pulse (K : Consts) (E : Env) (fuel : Nat) (w : World)
    (data_id addr count : Nat) (buf : Buf) (hK : K.WF)
    (hs : w.dsim.state = .DSIM_STATE_HSCLKEN)
    (hwait : rx_wait_succeeds K E fuel w data_id addr count = true)
    (hx : u32 (E.rxfifo w.n_rx) &&& 0xff = K.MIPI_DSI_RX_ACKNOWLEDGE_AND_ERROR_REPORT) :
    ∃ (w' : World) (t t0 : List Event),
      dsim_read_data K E fuel w data_id addr count buf = some (-(K.EPERM : Int), w', buf) ∧
      -(K.EPERM : Int) < 0 ∧
      w'.trace = w.trace ++ t ∧
      t.filter Event.isPulse = [.dsim_reg_force_dphy_stop_state w.dsim.id 1,
        .usleep_range 3000 4000, .dsim_reg_force_dphy_stop_state w.dsim.id 0] ∧
      t = t0 ++ ([.dsim_reg_force_dphy_stop_state w.dsim.id 1, .usleep_range 3000 4000,
        .dsim_reg_force_dphy_stop_state w.dsim.id 0, .mutex_unlock .dsim_rd_wr_mutex] ++
        (if E.decon_int_drvdata then [.decon_lpd_unblock] else [])) ∧
      Balanced t := by
  obtain ⟨w1, treq, tdis, e1, n1, i1, _, ptr, btr, ptd, ht⟩ :=
    read_data_ok_shape K E fuel w data_id addr count buf hs hwait
  rw [← n1] at hx
  obtain ⟨d1, d2⟩ := decode_ack K E w1 count buf hx
  have hev : decode_events K E w1 count = [Event.readl .DSIM_RXFIFO] ++
      (rx_err_flags (u32 (E.rxfifo w1.n_rx))).map (fun e => Event.dev_err (.rx_err e)) ++
      rx_error_pulse w.dsim.id := by
    unfold decode_events
    dsimp only
    rw [if_pos hx, i1]
  have hbal := Balanced.hold E.decon_int_drvdata (((btr.concat (Balanced.of_body (t :=
    [Event.wait_for_completion_timeout .dsim_rd_comp])
    (by intro e he; rw [List.mem_singleton.1 he]; rfl))).concat
    (Balanced.of_body ptd)).concat
    (Balanced.mutex (Balanced.of_neutral (decode_events_neutral K E w1 count))))
  rw [hev] at ht hbal
  refine ⟨(dsim_read_data_decode K E w1 count buf).2.1, _,
    (if E.decon_int_drvdata then [Event.decon_lpd_block_exit] else []) ++
      (treq ++ [Event.wait_for_completion_timeout .dsim_rd_comp] ++ tdis ++
        ([Event.mutex_lock .dsim_rd_wr_mutex] ++ ([Event.readl .DSIM_RXFIFO] ++
          (rx_err_flags (u32 (E.rxfifo w1.n_rx))).map (fun e => Event.dev_err (.rx_err e))))),
    ?_, EPERM_pos K hK, ht, ?_, ?_, hbal⟩
  · rw [e1]
    exact congrArg some (Prod.ext d1 (Prod.ext rfl d2))
  · have hb : ∀ e, Event.isTxBody e = true → Event.isPulse e = false := by
      intro e; cases e <;> simp [Event.isTxBody, Event.isPulse]
    simp only [List.filter_append, filter_pulse_of_tx treq ptr,
      filter_eq_nil_of_kind tdis ptd hb,
      filter_map_dev_err Event.isPulse (fun _ => rfl)]
    cases E.decon_int_drvdata <;> simp [Event.isPulse, rx_error_pulse]
  · simp only [rx_error_pulse, List.append_assoc, List.cons_append, List.nil_append]

/-- C20 at a first RX FIFO word `0x2002`: acknowledge code with error bit 13. -/
theorem C20_ack_recovery_pulse_witness :
    linux.WF ∧ ready_link.dsim.state = .DSIM_STATE_HSCLKEN ∧
    rx_wait_succeeds linux (sample_env [0x2002]) 0 ready_link linux.MIPI_DSI_DCS_READ 0x0a 4 =
      true ∧
    u32 ((sample_env [0x2002]).rxfifo ready_link.n_rx) &&& 0xff =
      linux.MIPI_DSI_RX_ACKNOWLEDGE_AND_ERROR_REPORT ∧
    ∃ (w' : World) (t t0 : List Event),
      dsim_read_data linux (sample_env [0x2002]) 0 ready_link linux.MIPI_DSI_DCS_READ 0x0a 4
        (fun _ => 0) = some (-(linux.EPERM : Int), w', fun _ => 0) ∧
      -(linux.EPERM : Int) < 0 ∧
      w'.trace = ready_link.trace ++ t ∧
      t.filter Event.isPulse = [.dsim_reg_force_dphy_stop_state ready_link.dsim.id 1,
        .usleep_range 3000 4000, .dsim_reg_force_dphy_stop_state ready_link.dsim.id 0] ∧
      t = t0 ++ ([.dsim_reg_force_dphy_stop_state ready_link.dsim.id 1,
        .usleep_range 3000 4000, .dsim_reg_force_dphy_stop_state ready_link.dsim.id 0,
        .mutex_unlock .dsim_rd_wr_mutex] ++
        (if (sample_env [0x2002]).decon_int_drvdata then [.decon_lpd_unblock] else [])) ∧
      Balanced t :=
  ⟨by decide, rfl, by decide, by decide,
    C20_ack_recovery_pulse linux (sample_env [0x2002]) 0 ready_link linux.MIPI_DSI_DCS_READ
      0x0a 4 (fun _ => 0) (by decide) rfl (by decide) (by decide)⟩

/-- C21 (as stated, refuted): in a build for the panel LTM184HL01, `dsim_enable` on a suspended
link calls the panel hook `display_lvds_init` between the panel reset and `dsim_reg_start`, so
its trace is not the listed sequence. -/
theorem C21_counterexample :
    suspended_link.dsim.state ≠ .DSIM_STATE_HSCLKEN ∧
    (dsim_enable linux ltm_config suspended_link).2.trace ≠
      suspended_link.trace ++ spec_enable_calls linux ltm_config suspended_link.dsim ∧
    (dsim_enable linux ltm_config suspended_link).2.trace =
      [.pm_runtime_get_sync, .run_list .dsim_set_panel_power_enable,
        .run_list .dsim_set_panel_pre_power, .call_panel_ops .resume,
        .exynos5_dism_phy_enable 0 1, .dsim_reg_init 0 4, .dsim_reg_enable_clocks 0 0x1f,
        .clk_prepare_enable .dphy_esc, .clk_prepare_enable .dphy_byte,
        .dsim_reg_set_lanes 0 0x1f 1, .run_list .dsim_reset_panel,
        .call_panel_ops .display_lvds_init, .dsim_reg_start 0 0x1f, .enable_irq,
        .call_panel_ops .displayon] := by
  decide

/-- C21 (amended): on a link that is not in state `DSIM_STATE_HSCLKEN`, in a build without the
doze feature, `dsim_enable` returns `0`, ends in state `DSIM_STATE_HSCLKEN` with no other field
changed, and makes exactly these calls, in this order: runtime-power resume
(`pm_runtime_get_sync`, or the three clocks of `dsim_runtime_resume`), panel power on, panel
pre-power hook, panel resume hook, DPHY power on, register init, register clocks, escape clock,
byte clock, set lanes active, panel reset, in a build for the panel LTM184HL01 the panel hook
`display_lvds_init`, register-level start, `enable_irq`, panel display-on hook.  In a build
without that panel this is the listed sequence.  The state is assigned after `dsim_reg_start`
and before `enable_irq`: up to there the device is unchanged.  Called in state
`DSIM_STATE_HSCLKEN` the function returns `0` and changes nothing. -/
theorem C21_enable_sequence (K : Consts) (cfg : Config) (w : World)
    (hs : w.dsim.state ≠ .DSIM_STATE_HSCLKEN) :
    (dsim_enable K cfg w).1 = 0 ∧
    (dsim_enable K cfg w).2.dsim = { w.dsim with state := .DSIM_STATE_HSCLKEN } ∧
    (dsim_enable K cfg w).2.trace = w.trace ++
      ((if cfg.CONFIG_PM_RUNTIME then [Event.pm_runtime_get_sync]
        else [.clk_prepare_enable .pclk, .clk_prepare_enable .rgb_vclk0,
          .clk_prepare_enable .pclk_disp]) ++
      [Event.run_list .dsim_set_panel_power_enable, .run_list .dsim_set_panel_pre_power,
        .call_panel_ops .resume, .exynos5_dism_phy_enable 0 1,
        .dsim_reg_init w.dsim.id w.dsim.data_lane_cnt,
        .dsim_reg_enable_clocks w.dsim.id (K.DSIM_LANE_CLOCK ||| w.dsim.data_lane),
        .clk_prepare_enable .dphy_esc, .clk_prepare_enable .dphy_byte,
        .dsim_reg_set_lanes w.dsim.id (K.DSIM_LANE_CLOCK ||| w.dsim.data_lane) 1,
        .run_list .dsim_reset_panel] ++
      (if cfg.CONFIG_PANEL_LTM184HL01 then [Event.call_panel_ops .display_lvds_init] else []) ++
      [Event.dsim_reg_start w.dsim.id (K.DSIM_LANE_CLOCK ||| w.dsim.data_lane),
        .enable_irq, .call_panel_ops .displayon]) ∧
    (cfg.CONFIG_PANEL_LTM184HL01 = false →
      (dsim_enable K cfg w).2.trace = w.trace ++ spec_enable_calls K cfg w.dsim) ∧
    (dsim_enable_before_state K cfg w).dsim = w.dsim ∧
    (∃ t, (dsim_enable_before_state K cfg w).trace = w.trace ++ t ∧
      t.getLast? = some (Event.dsim_reg_start w.dsim.id (K.DSIM_LANE_CLOCK ||| w.dsim.data_lane)) ∧
      Event.enable_irq ∉ t) ∧
    (dsim_enable K cfg w).2 =
      (({ dsim_enable_before_state K cfg w with
          dsim := { (dsim_enable_before_state K cfg w).dsim with
            state := .DSIM_STATE_HSCLKEN } }).emit .enable_irq).emit
        (.call_panel_ops .displayon) ∧
    ∀ w0 : World, w0.dsim.state = .DSIM_STATE_HSCLKEN → dsim_enable K cfg w0 = (0, w0) := by
  obtain ⟨⟨id, st, mode, rc, pg, ddi, dl, dlc, xr, yr, lc⟩, tr, nw, nm, nr⟩ := w
  have hs' : st ≠ .DSIM_STATE_HSCLKEN := hs
  obtain ⟨pm, pk, wu, ltm⟩ := cfg
  refine ⟨?_, ?_, ?_, ?_, ?_, ?_, ?_, ?_⟩
  · simp [dsim_enable, hs']
  · cases pm <;> cases ltm <;>
      simp [dsim_enable, hs', runtime_power_get, dsim_runtime_resume, dsim_set_panel_power,
        dsim_set_panel_pre_power, dsim_d_phy_onoff, dsim_reset_panel, dsim_lanes, World.emit]
  · cases pm <;> cases ltm <;>
      simp [dsim_enable, hs', runtime_power_get, dsim_runtime_resume, dsim_set_panel_power,
        dsim_set_panel_pre_power, dsim_d_phy_onoff, dsim_reset_panel, dsim_lanes, World.emit]
  · intro hl
    have hl' : ltm = false := hl
    subst hl'
    cases pm <;>
      simp [dsim_enable, hs', runtime_power_get, dsim_runtime_resume, dsim_set_panel_power,
        dsim_set_panel_pre_power, dsim_d_phy_onoff, dsim_reset_panel, dsim_lanes, World.emit,
        spec_enable_calls, runtime_power_get_events]
  · cases pm <;> cases ltm <;>
      simp [dsim_enable_before_state, runtime_power_get, dsim_runtime_resume,
        dsim_set_panel_power, dsim_set_panel_pre_power, dsim_d_phy_onoff, dsim_reset_panel,
        dsim_lanes, World.emit]
  · cases pm <;> cases ltm <;>
      simp [dsim_enable_before_state, runtime_power_get, dsim_runtime_resume,
        dsim_set_panel_power, dsim_set_panel_pre_power, dsim_d_phy_onoff, dsim_reset_panel,
        dsim_lanes, World.emit]
  · cases pm <;> cases ltm <;>
      simp [dsim_enable, dsim_enable_before_state, hs', runtime_power_get, dsim_runtime_resume,
        dsim_set_panel_power, dsim_set_panel_pre_power, dsim_d_phy_onoff, dsim_reset_panel,
        dsim_lanes, World.emit]
  · intro w0 h0
    simp [dsim_enable, h0]

/-- C21 (amended) at a suspended link in a build without the panel LTM184HL01, and at a ready
link. -/
theorem C21_enable_sequence_witness :
    suspended_link.dsim.state ≠ .DSIM_STATE_HSCLKEN ∧
    (dsim_enable linux sample_config suspended_link).1 = 0 ∧
    (dsim_enable linux sample_config suspended_link).2.trace =
      suspended_link.trace ++ spec_enable_calls linux sample_config suspended_link.dsim ∧
    dsim_enable linux sample_config ready_link = (0, ready_link) :=
  ⟨by decide,
    (C21_enable_sequence linux sample_config suspended_link (by decide)).1,
    (C21_enable_sequence linux sample_config suspended_link (by decide)).2.2.2.1 rfl,
    (C21_enable_sequence linux sample_config suspended_link (by decide)).2.2.2.2.2.2.2
      ready_link rfl⟩

/-- C22 (as stated, refuted): with the power active, no compositor registered
(`decon_int_drvdata` is `NULL`) and a status word whose frame-done bit is set, the handler does
not call the compositor reset trigger. -/
theorem C22_counterexample :
    frame_done_env.pm_runtime_active = true ∧
    bit_set (u32 frame_done_env.readl_intsrc) linux.DSIM_INTSRC_FRAME_DONE ∧
    (dsim_interrupt_handler linux frame_done_env ready_link).2.trace =
      [.spin_lock, .pm_runtime_active, .readl .DSIM_INTSRC,
        .dsim_reg_clear_int 0 0x1000000, .spin_unlock] ∧
    Event.decon_lpd_trig_reset ∉
      (dsim_interrupt_handler linux frame_done_env ready_link).2.trace := by
  decide

/-- C22 (amended): `dsim_interrupt_handler` returns `IRQ_HANDLED`.  With the power inactive its
calls are the spin lock, the power query, one warning and the spin unlock: no register call, no
completion signal, no compositor call.  With the power active it reads the status word `s` once;
each of `dsim_wr_comp`, `dsim_ph_wr_comp`, `dsim_rd_comp` is completed once when its bit
(payload FIFO empty, header FIFO empty, RX data done) is set in `s` and not at all otherwise;
`decon_lpd_trig_reset` is called once when the frame-done bit is set and a compositor is
registered, and not at all otherwise; a status word with none of the three completion bits (an
ECC error bit alone, say) completes nothing; and the one call of `dsim_reg_clear_int` has the
mask `s`. -/
theorem C22_interrupt_handler (K : Consts) (E : Env) (w : World) :
    (dsim_interrupt_handler K E w).1 = K.IRQ_HANDLED ∧
    (E.pm_runtime_active = false →
      ∃ t, (dsim_interrupt_handler K E w).2 = { w with trace := w.trace ++ t } ∧
        t = [.spin_lock, .pm_runtime_active, .dev_warn .power_off, .spin_unlock] ∧
        t.filter Event.isReg = [] ∧ t.filter Event.isComplete = [] ∧
        Event.decon_lpd_trig_reset ∉ t) ∧
    (E.pm_runtime_active = true →
      ∃ t, (dsim_interrupt_handler K E w).2 = { w with trace := w.trace ++ t } ∧
        t.filter Event.isReg =
          [.readl .DSIM_INTSRC, .dsim_reg_clear_int w.dsim.id (u32 E.readl_intsrc)] ∧
        t.count (.complete .dsim_wr_comp) =
          (if bit_set (u32 E.readl_intsrc) K.DSIM_INTSRC_SFR_PL_FIFO_EMPTY then 1 else 0) ∧
        t.count (.complete .dsim_ph_wr_comp) =
          (if bit_set (u32 E.readl_intsrc) K.DSIM_INTSRC_SFR_PH_FIFO_EMPTY then 1 else 0) ∧
        t.count (.complete .dsim_rd_comp) =
          (if bit_set (u32 E.readl_intsrc) K.DSIM_INTSRC_RX_DAT_DONE then 1 else 0) ∧
        t.count .decon_lpd_trig_reset =
          (if bit_set (u32 E.readl_intsrc) K.DSIM_INTSRC_FRAME_DONE ∧
            E.decon_int_drvdata = true then 1 else 0) ∧
        (¬ bit_set (u32 E.readl_intsrc) K.DSIM_INTSRC_SFR_PL_FIFO_EMPTY →
          ¬ bit_set (u32 E.readl_intsrc) K.DSIM_INTSRC_SFR_PH_FIFO_EMPTY →
          ¬ bit_set (u32 E.readl_intsrc) K.DSIM_INTSRC_RX_DAT_DONE →
          t.filter Event.isComplete = []) ∧
        t.filter Event.isClearInt =
          [.dsim_reg_clear_int w.dsim.id (u32 E.readl_intsrc)]) := by
  refine ⟨?_, ?_, ?_⟩
  · unfold dsim_interrupt_handler
    cases E.pm_runtime_active <;> rfl
  · intro ha
    refine ⟨_, ?_, rfl, by decide, by decide, by decide⟩
    simp [dsim_interrupt_handler, ha, World.emit]
  · intro ha
    rw [interrupt_handler_active_eq K E w ha]
    refine ⟨_, rfl, ?_, ?_, ?_, ?_, ?_, ?_, ?_⟩
    · simp only [List.filter_append]
      split_ifs <;> simp [Event.isReg]
    · simp only [List.count_append]
      split_ifs <;> simp
    · simp only [List.count_append]
      split_ifs <;> simp
    · simp only [List.count_append]
      split_ifs <;> simp
    · simp only [List.count_append]
      split_ifs <;> simp
    · intro h1 h2 h3
      simp only [List.filter_append, if_neg h1, if_neg h2, if_neg h3]
      split_ifs <;> simp [Event.isComplete]
    · simp only [List.filter_append]
      split_ifs <;> simp [Event.isClearInt]

/-- C22 (amended) at a status word with the payload-empty, RX-done and frame-done bits with a
compositor registered, at a status word with the ECC bit alone, and with the power inactive. -/
theorem C22_interrupt_handler_witness :
    (dsim_interrupt_handler linux busy_irq_env ready_link).1 = linux.IRQ_HANDLED ∧
    (dsim_interrupt_handler linux busy_irq_env ready_link).2.trace =
      [.spin_lock, .pm_runtime_active, .readl .DSIM_INTSRC, .complete .dsim_wr_comp,
        .complete .dsim_rd_comp, .decon_lpd_trig_reset, .dsim_reg_clear_int 0 0x21040000,
        .spin_unlock] ∧
    (dsim_interrupt_handler linux ecc_env ready_link).2.trace =
      [.spin_lock, .pm_runtime_active, .readl .DSIM_INTSRC, .dev_err .rx_ecc_multibit,
        .dsim_reg_clear_int 0 0x8000, .spin_unlock] ∧
    (dsim_interrupt_handler linux power_off_env ready_link).2.trace =
      [.spin_lock, .pm_runtime_active, .dev_warn .power_off, .spin_unlock] :=
  ⟨(C22_interrupt_handler linux busy_irq_env ready_link).1, by decide, by decide, by decide⟩

/-- C23 (as stated, refuted): a DCS long write of a payload of 2 bytes loads the offsets 0, 1
and 2, and its result changes with the byte at offset 2, which is outside the payload; a long
write of an empty payload whose payload FIFO wait fails loads the offsets 0, 1, 2 and, for the
message, 0 again. -/
theorem C23_counterexample :
    ready_link.dsim.state = .DSIM_STATE_HSCLKEN ∧
    dsim_write_data_long_reads (counting_env []) 1 ready_link 2 = [0, 1, 2] ∧
    ¬ (∀ k ∈ dsim_write_data_long_reads (counting_env []) 1 ready_link 2, k < 2) ∧
    (∀ a < 2, beyond_env.mem a = (counting_env []).mem a) ∧
    dsim_write_data linux beyond_env 1 ready_link linux.MIPI_DSI_DCS_LONG_WRITE 0 2 ≠
      dsim_write_data linux (counting_env []) 1 ready_link linux.MIPI_DSI_DCS_LONG_WRITE 0 2 ∧
    dsim_write_data_long_reads dead_fifo_env 1 ready_link 0 = [0, 1, 2, 0] := by
  decide

/-- C23 (amended): in a long write on a ready link with a payload of `n` bytes, every offset
that `dsim_write_data` and `dsim_long_data_wr` load from the payload, the loads for the payload
word when `n < 4` and the load for the timeout message included, is below `max n 3`: inside the
payload when `n >= 3`, and for `n < 3` among the three offsets 0, 1, 2 that the `n < 4` branch
loads whatever `n` is.  The listed loads are all the call depends on: in two memories that
agree at them it gives the same result (also the same failure to return), for every bound on
the loop. -/
theorem C23_long_write_reads_bounded (K : Consts) (E : Env) (fuel : Nat) (w : World)
    (data_id data0 n : Nat) (hK : K.WF) (hs : w.dsim.state = .DSIM_STATE_HSCLKEN)
    (hd : data_id ∈ K.long_write_ids) :
    (∀ k ∈ dsim_write_data_long_reads E fuel w n, k < max n 3) ∧
    (3 ≤ n → ∀ k ∈ dsim_write_data_long_reads E fuel w n, k < n) ∧
    (n < 4 → ∃ l, dsim_write_data_long_reads E fuel w n = [0, 1, 2] ++ l) ∧
    (∀ m : Nat → Nat,
      (∀ k ∈ dsim_write_data_long_reads E fuel w n, m (data0 + k) = E.mem (data0 + k)) →
      dsim_write_data K { E with mem := m } fuel w data_id data0 n =
        dsim_write_data K E fuel w data_id data0 n) := by
  have hb : ∀ k ∈ dsim_write_data_long_reads E fuel w n, k < max n 3 := by
    intro k hk
    unfold dsim_write_data_long_reads at hk
    by_cases h4 : n < 4
    · rw [if_pos h4] at hk
      have h3 : 3 ≤ max n 3 := le_max_right _ _
      rcases List.mem_append.1 hk with h | h
      · simp at h; omega
      · split_ifs at h <;> simp at h; omega
    · rw [if_neg h4] at hk
      have hn : n ≤ max n 3 := le_max_left _ _
      rcases List.mem_append.1 hk with h | h
      · exact lt_of_lt_of_le (loop_reads_lt n fuel 0 k h) hn
      · split_ifs at h <;> simp at h; omega
  refine ⟨hb, ?_, ?_, ?_⟩
  · intro h3 k hk
    have := hb k hk
    rwa [max_eq_left h3] at this
  · intro h4
    unfold dsim_write_data_long_reads
    rw [if_pos h4]
    exact ⟨_, rfl⟩
  · intro m hm
    exact write_data_mem_congr K E m fuel w data_id data0 n hK hd hm

/-- C23 (amended) at a DCS long write of 9 bytes whose payload FIFO wait fails: the loads are
the nine bytes of the payload and, for the message, the first one again. -/
theorem C23_long_write_reads_bounded_witness :
    linux.WF ∧ ready_link.dsim.state = .DSIM_STATE_HSCLKEN ∧
    linux.MIPI_DSI_DCS_LONG_WRITE ∈ linux.long_write_ids ∧
    dsim_write_data_long_reads dead_fifo_env 4 ready_link 9 =
      [0, 1, 2, 3, 4, 5, 6, 7, 8, 0] ∧
    (∀ k ∈ dsim_write_data_long_reads dead_fifo_env 4 ready_link 9, k < max 9 3) :=
  ⟨by decide, rfl, by decide, by decide,
    (C23_long_write_reads_bounded linux dead_fifo_env 4 ready_link
      linux.MIPI_DSI_DCS_LONG_WRITE 0 9 (by decide) rfl (by decide)).1⟩

/-- C24: for a length `data1 <= 2^32 - 4` the loop of `dsim_long_data_wr` ends after exactly
`ceil(data1/4)` passes (it returns when `ceil(data1/4) + 1` loop tests are allowed and not when
fewer are), and each pass writes one payload word.  For the three lengths above, `2^32 - 3` to
`2^32 - 1`, the counter `data_cnt` wraps from `2^32 - 4` to `0` and the loop never ends: it does
not return within any number of tests. -/
theorem C24_loop_terminates_below_wrap (E : Env) (w : World) (data0 data1 : Nat) :
    (data1 + 3 < 2 ^ 32 →
      (∀ fuel, (dsim_long_data_wr E fuel w data0 data1).isSome = true ↔
        (data1 + 3) / 4 < fuel) ∧
      ∃ l, dsim_long_data_wr E ((data1 + 3) / 4 + 1) w data0 data1 =
          some { w with trace := w.trace ++ l } ∧
        l.length = (data1 + 3) / 4 ∧ ∀ e ∈ l, Event.isPayloadWrite e = true) ∧
    (2 ^ 32 ≤ data1 + 3 → ∀ fuel, dsim_long_data_wr E fuel w data0 data1 = none) := by
  refine ⟨fun hn => ⟨fun fuel => ?_, ?_⟩, fun hn fuel => ?_⟩
  · by_cases hf : (data1 + 3) / 4 < fuel
    · rw [dsim_long_data_wr_trace E fuel w data0 data1 hn hf]
      simp [hf]
    · have hnone : dsim_long_data_wr E fuel w data0 data1 = none := by
        have := dsim_long_data_wr_loop_short E data0 data1 hn fuel ((data1 + 3) / 4) 0 0 w
          (Nat.zero_add _) (by omega)
        rwa [Nat.mul_zero] at this
      rw [hnone]
      simp [hf]
  · refine ⟨_, dsim_long_data_wr_trace E _ w data0 data1 hn (Nat.lt_succ_self _), ?_, ?_⟩
    · simp
    · intro e he
      obtain ⟨k, _, rfl⟩ := List.mem_map.1 he
      rfl
  · exact dsim_long_data_wr_loop_none E data0 data1 (by omega) fuel 0 0 w rfl (by norm_num)

/-- C24 at a payload of 9 bytes (three passes: four loop tests suffice, three do not) and at
the length `0xFFFFFFFD`, for which the loop does not end within any number of tests. -/
theorem C24_loop_terminates_below_wrap_witness :
    (dsim_long_data_wr (sample_env []) 4 ready_link 0 9).isSome = true ∧
    dsim_long_data_wr (sample_env []) 3 ready_link 0 9 = none ∧
    ¬ ∃ fuel, dsim_long_data_wr (sample_env []) fuel ready_link 0 0xFFFFFFFD ≠ none :=
  ⟨((C24_loop_terminates_below_wrap (sample_env []) ready_link 0 9).1 (by norm_num)).1 4
      |>.2 (by decide),
    by decide,
    fun ⟨fuel, h⟩ => h ((C24_loop_terminates_below_wrap (sample_env []) ready_link 0
      0xFFFFFFFD).2 (by norm_num) fuel)⟩

end Dsim
